import Mathlib

/-!
# External adapter image codec

A shallow embedding of `lib/ui/external_adapter_image/external_adapter_image_codec.cc`
(class `ExternalAdapterImageFrameCodec`, class `ExternalAdapterImageManager`, the
instantiation call with `DecodeDartStringMap`), of the provider interface of
`ExternalAdapterImage.h`, and of the request bookkeeping of the Android adapter in
`shell/platform/android/android_external_adapter_image.cc`.

The embedding is a labelled transition system.

* A state (`System`) holds every codec object (`codecs`), the manager's request counter and
  pending-codec map, the heap counter that names the `new fml::RefPtr<...>` objects, the request
  callbacks the provider has been handed and has not invoked yet, and the closures that were
  posted to the task runners and to the decode coordinator and have not run yet.
* Every lambda of the source is one constructor of `Task` (or one of the two request
  callbacks), carrying exactly what the lambda captures; its body is one function.
* A step runs one binding call, one request callback or one posted closure from start to end.
  What the surroundings decide (what `decode` returns, whether the GPU is disabled, whether the
  Dart VM state can still be locked, which closure runs next) is an input of the step.
* Every call that leaves the codec (provider, coordinator, Dart callback, heap) is recorded as
  an `Event`; a step tags its events with the thread the step runs on.

`int` fields are `Int`; the only arithmetic that can overflow, the decode cost, wraps
explicitly.  The decode coordinator is not part of the translated sources: `postTask` hands the
thunk to the pool of pending closures and the scheduler input decides when it runs.
-/

namespace ExternalAdapterImage

/-! ## Provider interface (`ExternalAdapterImage.h`) -/

/-- The provider's `RequestId`, a `uint32_t`. -/
abbrev RequestId := Nat

/-- Identity of a codec object. -/
abbrev CodecId := Nat

/-- The provider's `PlatformImage`; `handle = 0` means no image, `userData` is a pointer. -/
structure PlatformImage where
  handle : Nat := 0
  width : Int := 0
  height : Int := 0
  frameCount : Int := 1
  repetitionCount : Int := -1
  durationInMs : Int := 0
  userData : Nat := 0
deriving DecidableEq, Repr

inductive AlphaType where
  | Opaque
  | Premul
  | Unpremul
deriving DecidableEq, Repr

inductive ColorType where
  | RGBA8888
  | BGRA8888
  | RGB565
  | ARGB4444
  | Alpha8
deriving DecidableEq, Repr

/-- The provider's `Bitmap`; `pixels` is a pointer, `0` is `nullptr`. -/
structure Bitmap where
  pixels : Nat := 0
  pixelsCopied : Bool := false
  width : Int := 0
  height : Int := 0
  alphaType : AlphaType := AlphaType.Opaque
  colorType : ColorType := ColorType.RGBA8888
  bytesPerRow : Nat := 0
  userData : Nat := 0
deriving DecidableEq, Repr

/-- A `std::function<void(PlatformImage)>`: `none` is the empty function object, `some r`
the callable named `r`. -/
abbrev ReleaseImageCallback := Option Nat

/-- A `std::function<void(Bitmap)>`, as `ReleaseImageCallback`. -/
abbrev ReleaseBitmapCallback := Option Nat

/-- The provider's `DecodeResult`, a pair. -/
abbrev DecodeResult := Bitmap × ReleaseBitmapCallback

/-! ## Dart side -/

/-- A `Dart_Handle` passed by the binding layer: the object it names and whether
`Dart_IsClosure` holds of it. -/
structure DartHandle where
  id : Nat
  isClosure : Bool
deriving DecidableEq, Repr

/-- A `DartPersistentValue` in a callback queue, named by the closure it holds. -/
abbrev DartPersistentValue := Nat

/-- A `FrameInfo`: the canvas image (named by the uploaded texture) and its duration. -/
structure FrameInfo where
  image : Nat
  duration : Int
deriving DecidableEq, Repr

/-! ## The codec object (`external_adapter_image_codec.h`) -/

inductive Status where
  | New
  | Downloading
  | Complete
deriving DecidableEq, Repr

/-- The fields of `ExternalAdapterImageFrameCodec`.  `requestId_` has no initialiser in the
source, so it has no default here either. -/
structure Codec where
  status_ : Status := Status.New
  destroyed_ : Bool := false
  assignedPlatformImage_ : Bool := false
  requestingImageInfo : Bool := false
  canceled_ : Bool := false
  cachedFrame_ : Option FrameInfo := none
  getFrameCallbacks_ : List DartPersistentValue := []
  getInfoCallbacks_ : List DartPersistentValue := []
  requestId_ : RequestId
  platformImage_ : PlatformImage := {}
  releasePlatformImageCallback_ : ReleaseImageCallback := none
  nextFrameIndex_ : Int := 0
deriving DecidableEq, Repr

/-- A heap object `new fml::RefPtr<ExternalAdapterImageFrameCodec>(codec)`: its address and
the codec it keeps alive. -/
structure CodecRef where
  ptr : Nat
  codec : CodecId
deriving DecidableEq, Repr

/-! ## Observable calls -/

/-- The messages of `logError` and of the log macros. -/
inductive LogMessage where
  | invalidCallbackForGetNextFrame
  | invalidCallbackForGetImageSize
  | noPlatformImageRetained
  | failToGetPlatformImage
  | failToGetPlatformImageForImageInfo
  | invalidDartState
  | requestIsAGif
  | failToDecodeBitmap
  | failToDecodeGifFrame
  | failToUploadGpu
deriving DecidableEq, Repr

/-- Which of the two request lambdas was handed to the provider. -/
inductive RequestKind where
  | frame
  | info
deriving DecidableEq, Repr

/-- The calls a step makes on its surroundings, in program order. -/
inductive Event where
  | request (rid : RequestId) (kind : RequestKind)
  | providerCancel (rid : RequestId)
  | releaseImage (release : Nat) (image : PlatformImage)
  | decode (image : PlatformImage) (frameIndex : Int)
  | releaseBitmap (release : Nat) (bitmap : Bitmap)
  | uploadTexture (bitmap : Bitmap)
  | postTask (cost : Nat)
  | finishTask (cost : Nat)
  | invokeFrame (codec : CodecId) (callback : Nat) (frame : Option FrameInfo)
  | invokeInfo (codec : CodecId) (callback : Nat) (info : List Int)
  | newRef (ptr : Nat)
  | deleteRef (ptr : Nat)
  | log (message : LogMessage)
deriving DecidableEq, Repr

/-- The threads a step can run on. -/
inductive Thread where
  | uiRunner
  | ioRunner
  | worker
  | provider
deriving DecidableEq, Repr

/-- The lambdas the codec posts, each with its captures. -/
inductive Task where
  | dropRef (ref : CodecRef)
  | failClosure (ref : CodecRef)
  | gifKickoff (ref : CodecRef)
  | decodeSingle (ref : CodecRef) (cost : Nat)
  | uploadSingle (ref : CodecRef) (cost : Nat) (bitmap : Bitmap)
      (releaseBitmap : ReleaseBitmapCallback)
  | completeSingle (ref : CodecRef) (textureImage : Option Nat)
  | decodeMulti (ref : CodecRef) (cost : Nat) (frameIndex : Int)
  | uploadMulti (ref : CodecRef) (cost : Nat) (bitmap : Bitmap)
      (releaseBitmap : ReleaseBitmapCallback)
  | completeMulti (ref : CodecRef) (textureImage : Option Nat)
  | infoFlush (ref : CodecRef) (image : PlatformImage) (release : ReleaseImageCallback)
deriving DecidableEq, Repr

/-- The `codecRef` a lambda captures. -/
def Task.ref : Task → CodecRef
  | Task.dropRef r => r
  | Task.failClosure r => r
  | Task.gifKickoff r => r
  | Task.decodeSingle r _ => r
  | Task.uploadSingle r _ _ _ => r
  | Task.completeSingle r _ => r
  | Task.decodeMulti r _ _ => r
  | Task.uploadMulti r _ _ _ => r
  | Task.completeMulti r _ => r
  | Task.infoFlush r _ _ => r

/-- The runner a lambda is posted to: `GetUITaskRunner()`, `GetIOTaskRunner()`, or the
coordinator's worker pool. -/
def Task.thread : Task → Thread
  | Task.decodeSingle _ _ => Thread.worker
  | Task.decodeMulti _ _ _ => Thread.worker
  | Task.uploadSingle _ _ _ _ => Thread.ioRunner
  | Task.uploadMulti _ _ _ _ => Thread.ioRunner
  | _ => Thread.uiRunner

/-- What the surroundings decide while a closure runs. -/
structure Env where
  decodeResult : DecodeResult := ({}, none)
  ioStatusValid : Bool := true
  gpuDisabled : Bool := false
  mallocOk : Bool := true
  skImage : Option Nat := none
  dartStateValid : Bool := true
deriving DecidableEq, Repr

/-- The whole state: the codecs, the manager, the heap counter, the provider's outstanding
request callbacks and the posted closures. -/
structure System where
  codecs : CodecId → Codec
  requestId : Nat := 0
  pendingCodec_ : List (RequestId × CodecRef) := []
  heapNext : Nat := 0
  outstanding : List (RequestId × RequestKind) := []
  tasks : List Task := []

/-! ## The manager -/

/-- Result of `nextRequestId`, which is `return requestId++` on a `uint32_t`: the id
returned and the counter afterwards. -/
def nextRequestId (counter : Nat) : RequestId × Nat :=
  (counter, (counter + 1) % 2 ^ 32)

/-- The map without its entry for `reqId`: what `erase` and an overwriting `operator[]`
leave of the other entries. -/
def eraseId (m : List (RequestId × CodecRef)) (reqId : RequestId) : List (RequestId × CodecRef) :=
  m.filter (fun e => !decide (e.1 = reqId))

/-- The map after `retainCodec`: `pendingCodec_[reqId] = new RefPtr(codec)`. -/
def retainCodec (m : List (RequestId × CodecRef)) (reqId : RequestId) (ref : CodecRef) :
    List (RequestId × CodecRef) :=
  (reqId, ref) :: eraseId m reqId

/-- The map after `retrieveCodec` and the pointer it returns: find, and erase when found. -/
def retrieveCodec (m : List (RequestId × CodecRef)) (reqId : RequestId) :
    List (RequestId × CodecRef) × Option CodecRef :=
  match m.lookup reqId with
  | some ref => (eraseId m reqId, some ref)
  | none => (m, none)

/-! ## Helpers of the codec -/

/-- Two's complement wrap of a 32-bit `int`. -/
def wrapInt32 (x : Int) : Int :=
  (x + 2 ^ 31) % 2 ^ 32 - 2 ^ 31

/-- The value of `uint64_t imageDecodingCost = width * height * 4`: the product is computed
in `int` and then converted to `uint64_t`. -/
def imageDecodingCost (width height : Int) : Nat :=
  (wrapInt32 (wrapInt32 (width * height) * 4) % 2 ^ 64).toNat

/-- The provider's `InfiniteLoop`. -/
def InfiniteLoop : Int := -1

/-- The five entries `_DartListOfImageInfo(width, height, frameCount, durationInMs,
repetitionCount)` stores, in order. -/
def _DartListOfImageInfo (width height frameCount durationInMs repetitionCount : Int) :
    List Int :=
  [width, height, frameCount, durationInMs, repetitionCount]

/-- The call `_DartListOfImageInfo(width, height)` with the declared default arguments
`frameCount = 1`, `durationInMs = 0`, `repetitionCount = InfiniteLoop`. -/
def _DartListOfImageInfoDefault (width height : Int) : List Int :=
  _DartListOfImageInfo width height 1 0 InfiniteLoop

/-- The overload `_DartListOfImageInfo(platformImage)`. -/
def _DartListOfImageInfoOf (p : PlatformImage) : List Int :=
  _DartListOfImageInfo p.width p.height p.frameCount p.durationInMs p.repetitionCount

/-- Body of `assignPlatformImage`. -/
def assignPlatformImage (k : Codec) (image : PlatformImage) (release : ReleaseImageCallback) :
    Codec :=
  { k with platformImage_ := image, releasePlatformImageCallback_ := release,
           assignedPlatformImage_ := true }

/-- Body of `releasePlatformImage`. -/
def releasePlatformImage (k : Codec) : Codec × List Event :=
  ({ k with platformImage_ := { k.platformImage_ with handle := 0 },
            releasePlatformImageCallback_ := none },
   if k.platformImage_.handle ≠ 0 then
     match k.releasePlatformImageCallback_ with
     | some r => [Event.releaseImage r k.platformImage_]
     | none => []
   else [])

/-- The call `if (release) release(image)`. -/
def callRelease (release : ReleaseImageCallback) (image : PlatformImage) : List Event :=
  match release with
  | some r => [Event.releaseImage r image]
  | none => []

/-- The call `if (releaseBitmap) releaseBitmap(bitmap)`. -/
def callReleaseBitmap (release : ReleaseBitmapCallback) (bitmap : Bitmap) : List Event :=
  match release with
  | some r => [Event.releaseBitmap r bitmap]
  | none => []

/-- The loop `for (callback : getFrameCallbacks_) DartInvoke(callback, {frame})`. -/
def invokeFrames (c : CodecId) (callbacks : List DartPersistentValue) (frame : Option FrameInfo) :
    List Event :=
  callbacks.map (fun cb => Event.invokeFrame c cb frame)

/-- The loop `for (callback : getInfoCallbacks_) DartInvoke(callback, {imageInfo})`. -/
def invokeInfos (c : CodecId) (callbacks : List DartPersistentValue) (info : List Int) :
    List Event :=
  callbacks.map (fun cb => Event.invokeInfo c cb info)

/-- The static `UploadTexture`: the bitmap afterwards (its `pixels` are cleared when their
ownership moves to the raster image) and the texture, if any. -/
def UploadTexture (env : Env) (bitmap : Bitmap) : Bitmap × Option Nat :=
  if env.gpuDisabled then
    if bitmap.pixelsCopied then ({ bitmap with pixels := 0 }, env.skImage)
    else if env.mallocOk then (bitmap, env.skImage)
    else (bitmap, none)
  else (bitmap, env.skImage)

/-- Write codec `c` back. -/
def System.setCodec (s : System) (c : CodecId) (k : Codec) : System :=
  { s with codecs := Function.update s.codecs c k }

/-- `PostTask` on a runner, or `postTask` on the coordinator: the closure joins the pool. -/
def System.post (s : System) (t : Task) : System :=
  { s with tasks := s.tasks ++ [t] }

/-! ## The binding calls of the codec (UI thread) -/

/-- Body of `getNextMultiframe`.  `none` is the fault of `% platformImage_.frameCount` with
`frameCount = 0`. -/
def getNextMultiframe (s : System) (c : CodecId) (callback : Option DartHandle) :
    Option (System × List Event) :=
  let k := s.codecs c
  if k.canceled_ then some (s, [])
  else
    let k1 : Codec :=
      match callback with
      | some cb =>
        if cb.isClosure then { k with getFrameCallbacks_ := k.getFrameCallbacks_ ++ [cb.id] }
        else k
      | none => k
    let codecRef : CodecRef := ⟨s.heapNext, c⟩
    let cost := imageDecodingCost k1.platformImage_.width k1.platformImage_.height
    if k1.platformImage_.frameCount = 0 then none
    else
      let k2 : Codec :=
        { k1 with nextFrameIndex_ :=
            Int.tmod (k1.nextFrameIndex_ + 1) k1.platformImage_.frameCount }
      some ((({ s with heapNext := s.heapNext + 1 } : System).setCodec c k2).post
              (Task.decodeMulti codecRef cost k1.nextFrameIndex_),
            [Event.newRef codecRef.ptr, Event.postTask cost])

/-- Tail of `getNextFrame` and of `getImageInfo` once a request has to be made: take the
next id, retain the codec under it, call `provider->request`. -/
def issueRequest (s : System) (c : CodecId) (k : Codec) (kind : RequestKind) (rid : RequestId) :
    System × List Event :=
  ({ s with
      codecs := Function.update s.codecs c k
      requestId := (nextRequestId s.requestId).2
      pendingCodec_ := retainCodec s.pendingCodec_ rid ⟨s.heapNext, c⟩
      heapNext := s.heapNext + 1
      outstanding := s.outstanding ++ [(rid, kind)] },
   [Event.newRef s.heapNext, Event.request rid kind])

/-- The part of `getNextFrame` from `getFrameCallbacks_.emplace_back` on; `k` is the codec
as the first part leaves it. -/
def getNextFrameEnqueue (s : System) (c : CodecId) (k : Codec) (callback : DartHandle) :
    System × List Event :=
  let k1 : Codec := { k with getFrameCallbacks_ := k.getFrameCallbacks_ ++ [callback.id] }
  if k1.status_ = Status.Downloading then (s.setCodec c k1, [])
  else
    issueRequest s c
      { k1 with status_ := Status.Downloading, requestId_ := (nextRequestId s.requestId).1 }
      RequestKind.frame (nextRequestId s.requestId).1

/-- Body of `getNextFrame`; `none` only through `getNextMultiframe`. -/
def getNextFrame (s : System) (c : CodecId) (callback : DartHandle) :
    Option (System × List Event) :=
  let k := s.codecs c
  if !callback.isClosure then
    some (s, [Event.log LogMessage.invalidCallbackForGetNextFrame])
  else if k.canceled_ then
    some (s, [Event.invokeFrame c callback.id none])
  else if k.status_ = Status.Complete then
    if k.platformImage_.frameCount > 1 then
      if k.platformImage_.handle = 0 then
        some (s, [Event.log LogMessage.noPlatformImageRetained,
                  Event.invokeFrame c callback.id none])
      else getNextMultiframe s c (some callback)
    else if k.cachedFrame_.isSome then
      some (s, [Event.invokeFrame c callback.id k.cachedFrame_])
    else some (getNextFrameEnqueue s c { k with status_ := Status.New } callback)
  else some (getNextFrameEnqueue s c k callback)

/-- What `getNextFrame` returns: the error string (`true`) or `Dart_Null()` (`false`). -/
def getNextFrameReturnsError (callback : DartHandle) : Bool :=
  !callback.isClosure

/-- Body of `getImageInfo`. -/
def getImageInfo (s : System) (c : CodecId) (callback : DartHandle) : System × List Event :=
  let k := s.codecs c
  if !callback.isClosure then
    (s, [Event.log LogMessage.invalidCallbackForGetImageSize])
  else if k.canceled_ then
    (s, [Event.invokeInfo c callback.id (_DartListOfImageInfoDefault 0 0)])
  else if k.assignedPlatformImage_ then
    (s, [Event.invokeInfo c callback.id (_DartListOfImageInfoOf k.platformImage_)])
  else
    let k1 : Codec := { k with getInfoCallbacks_ := k.getInfoCallbacks_ ++ [callback.id] }
    if k1.requestingImageInfo then (s.setCodec c k1, [])
    else
      issueRequest s c { k1 with requestingImageInfo := true } RequestKind.info
        (nextRequestId s.requestId).1

/-- Body of `cancel`. -/
def cancel (s : System) (c : CodecId) : System × List Event :=
  let k := s.codecs c
  let found := retrieveCodec s.pendingCodec_ k.requestId_
  let evDelete : List Event :=
    match found.2 with
    | some codecRef => [Event.deleteRef codecRef.ptr]
    | none => []
  let k1 : Codec := { k with canceled_ := true }
  let evCancel : List Event :=
    if k1.status_ = Status.Downloading then [Event.providerCancel k1.requestId_] else []
  let released := releasePlatformImage k1
  let k2 : Codec :=
    { released.1 with cachedFrame_ := none, status_ := Status.Complete,
                      getFrameCallbacks_ := [], getInfoCallbacks_ := [] }
  (({ s with pendingCodec_ := found.1 } : System).setCodec c k2,
   evDelete ++ evCancel ++ released.2)

/-- Body of the destructor: `destroyed_ = true; cancel();`. -/
def destructor (s : System) (c : CodecId) : System × List Event :=
  cancel (s.setCodec c { s.codecs c with destroyed_ := true }) c

/-! ## The request callbacks (provider thread) and the posted closures -/

/-- Body shared by the three closures that report a failure on the UI thread (after a fetch
with `handle == 0`, after a failed decode, after a failed decode of a GIF frame); the
closure owns `codecRef` and deletes it when it returns. -/
def failClosure (s : System) (ref : CodecRef) (env : Env) : System × List Event :=
  let k : Codec := { s.codecs ref.codec with status_ := Status.Complete }
  if k.getFrameCallbacks_.isEmpty then
    (s.setCodec ref.codec k, [Event.deleteRef ref.ptr])
  else if !env.dartStateValid then
    (s.setCodec ref.codec k, [Event.log LogMessage.invalidDartState, Event.deleteRef ref.ptr])
  else
    (s.setCodec ref.codec { k with getFrameCallbacks_ := [] },
     invokeFrames ref.codec k.getFrameCallbacks_ none ++ [Event.deleteRef ref.ptr])

/-- The request callback of `getNextFrame`, invoked by the provider with `image` and
`release`; `reqId` is its capture.  Here it runs in one piece; `onFrameFetchedUntilPost` and
`onFrameFetchedPost` are its two parts, for the runs in which a `cancel` comes between its
last test of `isCanceled()` and its post. -/
def onFrameFetched (s : System) (reqId : RequestId) (image : PlatformImage)
    (release : ReleaseImageCallback) : System × List Event :=
  let found := retrieveCodec s.pendingCodec_ reqId
  match found.2 with
  | none => (s, callRelease release image)
  | some codecRef =>
    let s1 : System := { s with pendingCodec_ := found.1 }
    let k := s1.codecs codecRef.codec
    if image.handle = 0 then
      if k.canceled_ then
        (s1.post (Task.dropRef codecRef), [Event.log LogMessage.failToGetPlatformImage])
      else
        (s1.post (Task.failClosure codecRef), [Event.log LogMessage.failToGetPlatformImage])
    else if k.canceled_ then
      (s1.post (Task.dropRef codecRef), callRelease release image)
    else
      let s2 := s1.setCodec codecRef.codec (assignPlatformImage k image release)
      if image.frameCount > 1 then
        (s2.post (Task.gifKickoff codecRef), [Event.log LogMessage.requestIsAGif])
      else
        (s2.post (Task.decodeSingle codecRef (imageDecodingCost image.width image.height)),
         [Event.postTask (imageDecodingCost image.width image.height)])

/-- The request callback of `getImageInfo`. -/
def onInfoFetched (s : System) (reqId : RequestId) (image : PlatformImage)
    (release : ReleaseImageCallback) : System × List Event :=
  let found := retrieveCodec s.pendingCodec_ reqId
  match found.2 with
  | none => (s, callRelease release image)
  | some codecRef =>
    (({ s with pendingCodec_ := found.1 } : System).post (Task.infoFlush codecRef image release),
     [])

/-- The closure `[ptr] { delete ptr; }` of `_ReleaseOnUIThread`. -/
def runDropRef (s : System) (ref : CodecRef) : System × List Event :=
  (s, [Event.deleteRef ref.ptr])

/-- The closure that starts a GIF: `getNextMultiframe(nullptr)`, then the reference goes. -/
def runGifKickoff (s : System) (ref : CodecRef) : Option (System × List Event) :=
  match getNextMultiframe s ref.codec none with
  | some (s1, evs) => some (s1, evs ++ [Event.deleteRef ref.ptr])
  | none => none

/-- The decode thunk of the single-frame path (worker thread). -/
def runDecodeSingle (s : System) (ref : CodecRef) (cost : Nat) (env : Env) :
    System × List Event :=
  let k := s.codecs ref.codec
  if k.canceled_ then
    (s.post (Task.dropRef ref), [Event.finishTask cost])
  else if k.platformImage_.handle ≠ 0 then
    let bitmap := env.decodeResult.1
    let releaseBitmap := env.decodeResult.2
    if bitmap.pixels = 0 then
      let released := releasePlatformImage k
      ((s.setCodec ref.codec released.1).post (Task.failClosure ref),
       [Event.decode k.platformImage_ 0, Event.log LogMessage.failToDecodeBitmap,
        Event.finishTask cost] ++ released.2)
    else
      let released := if bitmap.pixelsCopied then releasePlatformImage k else (k, [])
      ((s.setCodec ref.codec released.1).post (Task.uploadSingle ref cost bitmap releaseBitmap),
       [Event.decode k.platformImage_ 0] ++ released.2)
  else
    (s.post (Task.dropRef ref),
     [Event.log LogMessage.noPlatformImageRetained, Event.finishTask cost])

/-- The upload closure of the single-frame path (IO thread). -/
def runUploadSingle (s : System) (ref : CodecRef) (cost : Nat) (bitmap : Bitmap)
    (releaseBitmap : ReleaseBitmapCallback) (env : Env) : System × List Event :=
  let k := s.codecs ref.codec
  if k.canceled_ then
    (s.post (Task.dropRef ref),
     callReleaseBitmap releaseBitmap bitmap ++ [Event.finishTask cost])
  else
    let uploaded : Bitmap × Option Nat :=
      if env.ioStatusValid then UploadTexture env bitmap else (bitmap, none)
    let evUpload : List Event := if env.ioStatusValid then [Event.uploadTexture bitmap] else []
    let released := if !bitmap.pixelsCopied then releasePlatformImage k else (k, [])
    ((s.setCodec ref.codec released.1).post (Task.completeSingle ref uploaded.2),
     evUpload ++ callReleaseBitmap releaseBitmap uploaded.1 ++ [Event.finishTask cost]
       ++ released.2)

/-- The completion closure of the single-frame path (UI thread). -/
def runCompleteSingle (s : System) (ref : CodecRef) (textureImage : Option Nat) (env : Env) :
    System × List Event :=
  let k := s.codecs ref.codec
  if k.canceled_ then (s, [Event.deleteRef ref.ptr])
  else
    let k1 : Codec := { k with status_ := Status.Complete }
    if k1.getFrameCallbacks_.isEmpty then
      (s.setCodec ref.codec k1, [Event.deleteRef ref.ptr])
    else if !env.dartStateValid then
      (s.setCodec ref.codec k1, [Event.log LogMessage.invalidDartState, Event.deleteRef ref.ptr])
    else
      let k2 : Codec :=
        match textureImage with
        | some t => { k1 with cachedFrame_ := some ⟨t, 0⟩ }
        | none => k1
      let evLog : List Event :=
        match textureImage with
        | some _ => []
        | none => [Event.log LogMessage.failToUploadGpu]
      (s.setCodec ref.codec { k2 with getFrameCallbacks_ := [] },
       evLog ++ invokeFrames ref.codec k2.getFrameCallbacks_ k2.cachedFrame_
         ++ [Event.deleteRef ref.ptr])

/-- The decode thunk of `getNextMultiframe` (worker thread); `frameIndex` is its capture. -/
def runDecodeMulti (s : System) (ref : CodecRef) (cost : Nat) (frameIndex : Int) (env : Env) :
    System × List Event :=
  let k := s.codecs ref.codec
  if k.canceled_ then
    (s.post (Task.dropRef ref), [Event.finishTask cost])
  else if k.platformImage_.handle ≠ 0 then
    let bitmap := env.decodeResult.1
    let releaseBitmap := env.decodeResult.2
    if bitmap.pixels = 0 then
      let released := releasePlatformImage k
      ((s.setCodec ref.codec released.1).post (Task.failClosure ref),
       [Event.decode k.platformImage_ frameIndex, Event.log LogMessage.failToDecodeGifFrame,
        Event.finishTask cost] ++ released.2)
    else
      (s.post (Task.uploadMulti ref cost bitmap releaseBitmap),
       [Event.decode k.platformImage_ frameIndex])
  else
    (s.post (Task.dropRef ref),
     [Event.log LogMessage.noPlatformImageRetained, Event.finishTask cost])

/-- The upload closure of `getNextMultiframe` (IO thread). -/
def runUploadMulti (s : System) (ref : CodecRef) (cost : Nat) (bitmap : Bitmap)
    (releaseBitmap : ReleaseBitmapCallback) (env : Env) : System × List Event :=
  let k := s.codecs ref.codec
  if k.canceled_ then
    (s.post (Task.dropRef ref),
     callReleaseBitmap releaseBitmap bitmap ++ [Event.finishTask cost])
  else
    let uploaded : Bitmap × Option Nat :=
      if env.ioStatusValid then UploadTexture env bitmap else (bitmap, none)
    let evUpload : List Event := if env.ioStatusValid then [Event.uploadTexture bitmap] else []
    (s.post (Task.completeMulti ref uploaded.2),
     evUpload ++ callReleaseBitmap releaseBitmap uploaded.1 ++ [Event.finishTask cost])

/-- The completion closure of `getNextMultiframe` (UI thread).  `none` is the fault of
`durationInMs / frameCount` with `frameCount = 0`. -/
def runCompleteMulti (s : System) (ref : CodecRef) (textureImage : Option Nat) (env : Env) :
    Option (System × List Event) :=
  let k := s.codecs ref.codec
  if k.canceled_ then some (s, [Event.deleteRef ref.ptr])
  else
    let k1 : Codec := { k with status_ := Status.Complete }
    if k1.getFrameCallbacks_.isEmpty then
      some (s.setCodec ref.codec k1, [Event.deleteRef ref.ptr])
    else if !env.dartStateValid then
      some (s.setCodec ref.codec k1,
            [Event.log LogMessage.invalidDartState, Event.deleteRef ref.ptr])
    else
      match textureImage with
      | some t =>
        if k1.platformImage_.frameCount = 0 then none
        else
          some (s.setCodec ref.codec { k1 with getFrameCallbacks_ := [] },
                invokeFrames ref.codec k1.getFrameCallbacks_
                    (some ⟨t, Int.tdiv k1.platformImage_.durationInMs
                                k1.platformImage_.frameCount⟩)
                  ++ [Event.deleteRef ref.ptr])
      | none =>
        let released := releasePlatformImage k1
        some (s.setCodec ref.codec { released.1 with getFrameCallbacks_ := [] },
              released.2 ++ [Event.log LogMessage.failToUploadGpu]
                ++ invokeFrames ref.codec k1.getFrameCallbacks_ none
                ++ [Event.deleteRef ref.ptr])

/-- The UI closure of `getImageInfo`; `image` and `release` are its captures. -/
def runInfoFlush (s : System) (ref : CodecRef) (image : PlatformImage)
    (release : ReleaseImageCallback) (env : Env) : System × List Event :=
  let k := s.codecs ref.codec
  let evLog : List Event :=
    if image.handle = 0 then [Event.log LogMessage.failToGetPlatformImageForImageInfo] else []
  let evFlush : List Event :=
    if k.canceled_ then []
    else if k.getInfoCallbacks_.isEmpty then []
    else if !env.dartStateValid then [Event.log LogMessage.invalidDartState]
    else invokeInfos ref.codec k.getInfoCallbacks_ (_DartListOfImageInfoOf image)
  let released := releasePlatformImage (assignPlatformImage k image release)
  (s.setCodec ref.codec
     { released.1 with getInfoCallbacks_ := [], requestingImageInfo := false },
   evLog ++ evFlush ++ released.2 ++ [Event.deleteRef ref.ptr])

/-- Run one posted closure. -/
def runTask (s : System) (t : Task) (env : Env) : Option (System × List Event) :=
  match t with
  | Task.dropRef ref => some (runDropRef s ref)
  | Task.failClosure ref => some (failClosure s ref env)
  | Task.gifKickoff ref => runGifKickoff s ref
  | Task.decodeSingle ref cost => some (runDecodeSingle s ref cost env)
  | Task.uploadSingle ref cost bitmap rb => some (runUploadSingle s ref cost bitmap rb env)
  | Task.completeSingle ref tex => some (runCompleteSingle s ref tex env)
  | Task.decodeMulti ref cost idx => some (runDecodeMulti s ref cost idx env)
  | Task.uploadMulti ref cost bitmap rb => some (runUploadMulti s ref cost bitmap rb env)
  | Task.completeMulti ref tex => runCompleteMulti s ref tex env
  | Task.infoFlush ref image release => some (runInfoFlush s ref image release env)

/-- Invoke a request callback the provider holds. -/
def runCallback (s : System) (rid : RequestId) (kind : RequestKind) (image : PlatformImage)
    (release : ReleaseImageCallback) : System × List Event :=
  match kind with
  | RequestKind.frame => onFrameFetched s rid image release
  | RequestKind.info => onInfoFetched s rid image release

/-! ## Steps and runs -/

/-- What can happen next: a call of the binding layer on codec `c`, the provider invoking
the `i`-th request callback it holds, or the `i`-th posted closure running. -/
inductive Action where
  | getNextFrame (c : CodecId) (callback : DartHandle)
  | getImageInfo (c : CodecId) (callback : DartHandle)
  | cancel (c : CodecId)
  | answer (i : Nat) (image : PlatformImage) (release : ReleaseImageCallback)
  | run (i : Nat) (env : Env)
deriving DecidableEq, Repr

/-- Tag the events of a step with its thread. -/
def onThread (t : Thread) (r : System × List Event) : System × List (Thread × Event) :=
  (r.1, r.2.map (fun e => (t, e)))

/-- One step.  An `answer` or `run` whose index names nothing leaves the state as it is;
`none` is a division by zero.  Every call, callback and closure runs in one piece;
`stepInterleaved` also lets a frame request callback run in two parts. -/
def step (s : System) : Action → Option (System × List (Thread × Event))
  | Action.getNextFrame c callback => (getNextFrame s c callback).map (onThread Thread.uiRunner)
  | Action.getImageInfo c callback => some (onThread Thread.uiRunner (getImageInfo s c callback))
  | Action.cancel c => some (onThread Thread.uiRunner (cancel s c))
  | Action.answer i image release =>
    match s.outstanding.get? i with
    | some (rid, kind) =>
      some (onThread Thread.provider
        (runCallback { s with outstanding := s.outstanding.eraseIdx i } rid kind image release))
    | none => some (s, [])
  | Action.run i env =>
    match s.tasks.get? i with
    | some t =>
      (runTask { s with tasks := s.tasks.eraseIdx i } t env).map (onThread t.thread)
    | none => some (s, [])

/-- A run: the steps of `acts` one after the other, with all their events. -/
def runActions (s : System) : List Action → Option (System × List (Thread × Event))
  | [] => some (s, [])
  | a :: rest =>
    match step s a with
    | none => none
    | some (s1, evs) =>
      match runActions s1 rest with
      | none => none
      | some (s2, evs2) => some (s2, evs ++ evs2)

/-- A system in which no codec has been used yet; `garbage c` is what the uninitialised
`requestId_` of codec `c` happens to hold. -/
def System.fresh (garbage : CodecId → RequestId) : System :=
  { codecs := fun c => { requestId_ := garbage c } }

/-! ## Concrete inputs used in the runs below -/

/-- A closure handle. -/
def closure (n : Nat) : DartHandle := ⟨n, true⟩

/-- A still image with handle 42, two by two pixels. -/
def image42 : PlatformImage := { handle := 42, width := 2, height := 2 }

/-- An animated image with handle 5: three frames, 900 ms. -/
def gif5 : PlatformImage :=
  { handle := 5, width := 2, height := 2, frameCount := 3, durationInMs := 900 }

/-- The same animation delivered a second time, under handle 6. -/
def gif6 : PlatformImage :=
  { handle := 6, width := 2, height := 2, frameCount := 3, durationInMs := 900 }

/-- An image with handle 7. -/
def image7 : PlatformImage := { handle := 7, width := 2, height := 2 }

/-- A decoded bitmap with copied pixels. -/
def bitmapCopied : Bitmap :=
  { pixels := 1000, pixelsCopied := true, width := 2, height := 2, bytesPerRow := 8,
    alphaType := AlphaType.Premul }

/-- Surroundings in which decode, upload and the VM state all succeed. -/
def envOk : Env := { decodeResult := (bitmapCopied, some 5), skImage := some 77 }

/-- Surroundings as `envOk`, but the Dart VM state can no longer be locked. -/
def envNoVm : Env := { envOk with dartStateValid := false }

/-- Is the event a call of a `ReleaseImageCallback`? -/
def isReleaseImage : Thread × Event → Bool
  | (_, Event.releaseImage _ _) => true
  | _ => false

/-- Is the event a Dart callback invocation? -/
def isInvoke : Thread × Event → Bool
  | (_, Event.invokeFrame _ _ _) => true
  | (_, Event.invokeInfo _ _ _) => true
  | _ => false

/-- Is the event a `postTask` or a `finishTask` of the coordinator? -/
def isCoordinator : Thread × Event → Bool
  | (_, Event.postTask _) => true
  | (_, Event.finishTask _) => true
  | _ => false

/-- The system nobody has touched, with zeroed memory. -/
def fresh0 : System := System.fresh (fun _ => 0)

/-- A system whose codec 0 is `Complete` with frame 77 cached. -/
def cachedSystem : System :=
  fresh0.setCodec 0
    { status_ := Status.Complete, cachedFrame_ := some ⟨77, 0⟩, requestId_ := 0 }

/-- A codec waiting for its image, with one callback queued. -/
def downloadingCodec : Codec :=
  { status_ := Status.Downloading, getFrameCallbacks_ := [1], requestId_ := 0 }

/-- An animated codec after its first frame: it holds `gif5` and the cursor is at 1. -/
def animatedCodec : Codec :=
  { status_ := Status.Complete, assignedPlatformImage_ := true, requestId_ := 0,
    platformImage_ := gif5, releasePlatformImageCallback_ := some 50, nextFrameIndex_ := 1 }

/-- Codec 0 with a frame request (id 0) and an info request (id 1) pending. -/
def twoRequestsSystem : System :=
  { codecs := fun _ => { status_ := Status.Downloading, requestingImageInfo := true,
                         getFrameCallbacks_ := [1], getInfoCallbacks_ := [2], requestId_ := 0 }
    requestId := 2
    pendingCodec_ := [(1, ⟨1, 0⟩), (0, ⟨0, 0⟩)]
    heapNext := 2
    outstanding := [(0, RequestKind.frame), (1, RequestKind.info)] }

/-- The binding layer calls `getNextFrame` on codec `c` once for every closure of the list,
in order. -/
def getNextFrameCalls (c : CodecId) (callbacks : List Nat) : List Action :=
  callbacks.map (fun cb => Action.getNextFrame c ⟨cb, true⟩)

/-- The single-frame pipeline of a request, one step per stage: the provider answers the
request callback at position `i`, then the closure at position `j` of the pool runs three
times over (decode thunk, upload closure, completion closure; or decode thunk, failure
closure, nothing). -/
def singleFramePipeline (i j : Nat) (image : PlatformImage) (release : ReleaseImageCallback)
    (envDecode envUpload envComplete : Env) : List Action :=
  [Action.answer i image release, Action.run j envDecode, Action.run j envUpload,
   Action.run j envComplete]

/-- A run in which the answer to `getImageInfo` arrives while the codec holds the animated
image delivered for `getNextFrame`; it ends with the `cancel` of the destructor. -/
def overwriteRun : List Action :=
  [Action.getImageInfo 0 (closure 1), Action.getNextFrame 0 (closure 2),
   Action.answer 1 gif5 (some 50), Action.run 0 envOk, Action.run 0 envOk,
   Action.run 0 envOk, Action.run 0 envOk, Action.answer 0 gif6 (some 60),
   Action.run 0 envOk, Action.cancel 0]

/-- The single-frame run of a fetched, decoded and uploaded image, a second
`getNextFrame` answered from the cache, a `cancel`, and a third `getNextFrame`. -/
def cancelAfterCompleteRun : List Action :=
  [Action.getNextFrame 0 (closure 1), Action.answer 0 image42 (some 3), Action.run 0 envOk,
   Action.run 0 envOk, Action.run 0 envOk, Action.getNextFrame 0 (closure 2),
   Action.cancel 0, Action.getNextFrame 0 (closure 3)]

/-- An animation whose first frame has been delivered, then two `getNextFrame` calls in a
row. -/
def twoDecodesRun : List Action :=
  [Action.getNextFrame 0 (closure 1), Action.answer 0 gif5 (some 50), Action.run 0 envOk,
   Action.run 0 envOk, Action.run 0 envOk, Action.run 0 envOk,
   Action.getNextFrame 0 (closure 2), Action.getNextFrame 0 (closure 3)]

/-- Does the event invoke closure `cb` as a callback of codec `c`? -/
def Event.invokes (c : CodecId) (cb : Nat) : Event → Bool
  | Event.invokeFrame d x _ => decide (d = c) && decide (x = cb)
  | Event.invokeInfo d x _ => decide (d = c) && decide (x = cb)
  | _ => false

/-- Does the action hand closure `cb` to codec `c`, as the callback of a `getNextFrame` or
`getImageInfo` call? -/
def Action.hands (c : CodecId) (cb : Nat) : Action → Bool
  | Action.getNextFrame d h => decide (d = c) && decide (h.id = cb)
  | Action.getImageInfo d h => decide (d = c) && decide (h.id = cb)
  | _ => false

/-- A codec as `cancel` leaves it, as far as callbacks go: canceled, both queues empty. -/
def QuietCodec (k : Codec) : Prop :=
  k.canceled_ = true ∧ k.getFrameCallbacks_ = [] ∧ k.getInfoCallbacks_ = []

/-- Codec `c` of the system is quiet. -/
def Quiet (c : CodecId) (s : System) : Prop := QuietCodec (s.codecs c)

/-- No event of the list invokes `cb` on codec `c`. -/
def Silent (c : CodecId) (cb : Nat) (evs : List Event) : Prop :=
  ∀ e ∈ evs, e.invokes c cb = false

/-- The result of an operation leaves codec `c` quiet and does not invoke `cb` on it. -/
def Good (c : CodecId) (cb : Nat) (r : System × List Event) : Prop :=
  Quiet c r.1 ∧ Silent c cb r.2

/-- `Good` for an operation that can fault. -/
def GoodOpt (c : CodecId) (cb : Nat) (r : Option (System × List Event)) : Prop :=
  ∀ x, r = some x → Good c cb x

/-- How many owners the heap object at address `p` has: registry entries and posted
closures whose `codecRef` is `p`. -/
def heldBy (p : Nat) (s : System) : Nat :=
  (s.pendingCodec_.map (fun e => e.2.ptr)).count p + (s.tasks.map (fun t => t.ref.ptr)).count p

/-- How often the events delete the heap object at `p`. -/
def deletions (p : Nat) (evs : List Event) : Nat := evs.count (Event.deleteRef p)

/-- How often the events allocate a heap object at `p`. -/
def creations (p : Nat) (evs : List Event) : Nat := evs.count (Event.newRef p)

/-- The events of a list tagged with threads. -/
def untag (evs : List (Thread × Event)) : List Event := evs.map Prod.snd

/-- The registry is a map (no id twice) and its ids are ids the counter has handed out. -/
def RegOk (s : System) : Prop :=
  (s.pendingCodec_.map (fun e => e.1)).Nodup ∧ ∀ e ∈ s.pendingCodec_, (e.1 : Nat) < s.requestId

/-- What an operation from `s` that owned `own p` copies of every heap object `p` does with
heap objects: every object is afterwards held or deleted as often as it was held, owned or
created; at most one object is created, at the next free address; the registry stays a map
and the counter moves by at most one. -/
def Conserves (s : System) (own : Nat → Nat) (r : System × List Event) : Prop :=
  RegOk s → s.requestId + 1 < 2 ^ 32 →
    (∀ p, heldBy p r.1 + deletions p r.2 = heldBy p s + own p + creations p r.2)
    ∧ ((r.1.heapNext = s.heapNext ∧ ∀ p, creations p r.2 = 0)
       ∨ (r.1.heapNext = s.heapNext + 1
          ∧ ∀ p, creations p r.2 = if p = s.heapNext then 1 else 0))
    ∧ RegOk r.1 ∧ r.1.requestId ≤ s.requestId + 1

/-- `Conserves` for an operation that can fault. -/
def ConservesOpt (s : System) (own : Nat → Nat) (r : Option (System × List Event)) : Prop :=
  ∀ x, r = some x → Conserves s own x

/-- A running closure owns the heap object its `codecRef` points to. -/
def ownOf (ref : CodecRef) : Nat → Nat := fun p => if ref.ptr = p then 1 else 0

/-- A binding call or a request callback owns no heap object when it starts. -/
def ownNone : Nat → Nat := fun _ => 0

/-- No event of the list deletes a heap object. -/
def NoDelete (evs : List Event) : Prop := ∀ p, Event.deleteRef p ∉ evs

/-- Every deletion of a heap object in the list happened on the UI thread. -/
def DeletesOnUi (evs : List (Thread × Event)) : Prop :=
  ∀ e ∈ evs, ∀ p, e.2 = Event.deleteRef p → e.1 = Thread.uiRunner

/-- What `Conserves` says, for a whole step and its tagged events. -/
def StepConserves (s s1 : System) (evs : List (Thread × Event)) : Prop :=
  (∀ p, heldBy p s1 + deletions p (untag evs) = heldBy p s + creations p (untag evs))
    ∧ ((s1.heapNext = s.heapNext ∧ ∀ p, creations p (untag evs) = 0)
       ∨ (s1.heapNext = s.heapNext + 1
          ∧ ∀ p, creations p (untag evs) = if p = s.heapNext then 1 else 0))
    ∧ RegOk s1 ∧ s1.requestId ≤ s.requestId + 1

/-- Can the action delete a heap reference at all: it is a `cancel`, which deletes the
registry entry it removes, or it runs a closure that was posted to the UI runner. -/
def Action.mayDelete (s : System) : Action → Bool
  | Action.cancel _ => true
  | Action.run i _ =>
    match s.tasks.get? i with
    | some t => decide (t.thread = Thread.uiRunner)
    | none => false
  | _ => false

/-- The provider answers both requests of `twoRequestsSystem` after the `cancel`: first the
info request, whose UI closure then runs, then the frame request. -/
def lateAnswers : List Action :=
  [Action.answer 1 gif6 (some 60), Action.run 0 envOk, Action.answer 0 image7 (some 70)]

/-! ## Further inputs and predicates -/

/-- The events of one closure, tagged with the thread that ran it. -/
def tagged (t : Thread) (evs : List Event) : List (Thread × Event) := evs.map (fun e => (t, e))

/-- Surroundings in which `decode` fails: the bitmap it returns has no pixels. -/
def envDecodeFails : Env := { decodeResult := ({}, some 5), skImage := some 77 }

/-- Surroundings in which the upload yields no GPU image. -/
def envUploadFails : Env := { decodeResult := (bitmapCopied, some 5), skImage := none }

/-- An image whose fetch failed: no handle. -/
def imageNone : PlatformImage := {}

/-- An image of 32768 by 16384 pixels. -/
def imageLarge : PlatformImage := { handle := 1, width := 32768, height := 16384 }

/-- Is the event a provider request? -/
def isRequest : Thread × Event → Bool
  | (_, Event.request _ _) => true
  | _ => false

/-- Is the event a call of `decode`? -/
def isDecode : Thread × Event → Bool
  | (_, Event.decode _ _) => true
  | _ => false

/-- A fetch fails and the Dart VM state is gone when the failure closure runs. -/
def fetchFailedNoVmRun : List Action :=
  [Action.getNextFrame 0 (closure 1), Action.answer 0 imageNone none, Action.run 0 envNoVm]

/-- The decode of a still image fails and the Dart VM state is gone when the failure closure
runs. -/
def decodeFailedNoVmRun : List Action :=
  Action.getNextFrame 0 (closure 1)
    :: singleFramePipeline 0 0 image42 (some 3) envDecodeFails envNoVm envNoVm

/-- The upload of a still image fails and the Dart VM state is gone when the completion
closure runs. -/
def uploadFailedNoVmRun : List Action :=
  Action.getNextFrame 0 (closure 1)
    :: singleFramePipeline 0 0 image42 (some 3) envOk envUploadFails envNoVm

/-- An animation with two frames in flight (`twoDecodesRun`); the first of them is delivered
to both callbacks, then the upload of the second one fails; then a further `getNextFrame`. -/
def secondUploadFailsRun : List Action :=
  twoDecodesRun ++
    [Action.run 0 envOk, Action.run 1 envOk, Action.run 1 envOk,
     Action.run 0 envOk, Action.run 0 envUploadFails, Action.run 0 envOk,
     Action.getNextFrame 0 (closure 4)]

/-- An animation whose first frame fails to decode, then a further `getNextFrame`. -/
def animationEndedRun : List Action :=
  [Action.getNextFrame 0 (closure 1), Action.answer 0 gif5 (some 50), Action.run 0 envOk,
   Action.run 0 envDecodeFails, Action.run 0 envOk, Action.getNextFrame 0 (closure 2)]

/-- A frame request answered with `imageLarge`. -/
def largeImageRun : List Action :=
  [Action.getNextFrame 0 (closure 1), Action.answer 0 imageLarge (some 3)]

/-- One frame of a running animation: `getNextFrame`, then the decode thunk, the upload
closure and the completion closure. -/
def nextFrameRun (cb : Nat) : List Action :=
  [Action.getNextFrame 0 (closure cb), Action.run 0 envOk, Action.run 0 envOk, Action.run 0 envOk]

/-- The animation `gif5` played for four frames. -/
def fourFramesRun : List Action :=
  twoDecodesRun.take 6 ++ nextFrameRun 2 ++ nextFrameRun 3 ++ nextFrameRun 4

/-- Codec 0 after a first `getNextFrame`: its request, with id 0, is with the provider. -/
def pendingFrameSystem : System :=
  { codecs := fun _ => downloadingCodec
    requestId := 1
    pendingCodec_ := [(0, ⟨0, 0⟩)]
    heapNext := 1
    outstanding := [(0, RequestKind.frame)] }

/-- A system whose codec 0 is `Complete` without an image and without a cached frame. -/
def anomalousSystem : System :=
  fresh0.setCodec 0 { status_ := Status.Complete, requestId_ := 0 }

/-- A system whose codec 0 is an animation that has given up its image. -/
def endedAnimationSystem : System :=
  fresh0.setCodec 0
    { animatedCodec with platformImage_ := { gif5 with handle := 0 },
                         releasePlatformImageCallback_ := none }

/-- A system whose codec 0 is the animation `gif5` with the callbacks 2 and 3 queued. -/
def animatedSystem : System :=
  fresh0.setCodec 0 { animatedCodec with getFrameCallbacks_ := [2, 3] }

/-- Codec 0 when the request callback has just assigned it the animation `gif5`. -/
def fetchedGifSystem : System :=
  fresh0.setCodec 0
    { downloadingCodec with platformImage_ := gif5, releasePlatformImageCallback_ := some 50,
                            assignedPlatformImage_ := true }

/-- The costs handed to `finishTask` by the events, in order. -/
def finishCosts (evs : List Event) : List Nat :=
  evs.filterMap (fun e => match e with
    | Event.finishTask cost => some cost
    | _ => none)

/-- The costs handed to `postTask` by the events, in order. -/
def postCosts (evs : List Event) : List Nat :=
  evs.filterMap (fun e => match e with
    | Event.postTask cost => some cost
    | _ => none)

/-- The `finishTask` a posted closure still owes the coordinator: a decode thunk and an
upload closure carry the cost of their task, every other closure carries none. -/
def Task.owes : Task → List Nat
  | Task.decodeSingle _ cost => [cost]
  | Task.uploadSingle _ cost _ _ => [cost]
  | Task.decodeMulti _ cost _ => [cost]
  | Task.uploadMulti _ cost _ _ => [cost]
  | _ => []

/-- Calls of `getNextMultiframe` on codec `c` in a row, one for every entry of the list (the
kick-off passes no callback). -/
def getNextMultiframeCalls (s : System) (c : CodecId) :
    List (Option DartHandle) → Option (System × List Event)
  | [] => some (s, [])
  | callback :: rest =>
    match getNextMultiframe s c callback with
    | none => none
    | some (s1, evs) =>
      match getNextMultiframeCalls s1 c rest with
      | none => none
      | some (s2, evs2) => some (s2, evs ++ evs2)

/-! ## Allocation, device status, instantiation, the Android adapter -/

/-! ### Allocation of request ids -/

/-- The ids returned by `n` calls of `nextRequestId` in a row, the counter being `counter`
before the first of them. -/
def nextRequestIdCalls (counter : Nat) : Nat → List RequestId
  | 0 => []
  | n + 1 => (nextRequestId counter).1 :: nextRequestIdCalls (nextRequestId counter).2 n

/-! ### Device status -/

/-- What the provider answers when asked about the device: the result of
`shouldEvaluateDeviceStatus()` and the two values `evaluateDeviceStatus` writes. -/
structure DeviceProvider where
  shouldEvaluate : Bool
  cpuCoreCount : Nat
  maxMemoryUsing : Nat
deriving DecidableEq, Repr

/-- The calls `evaluateDeviceStatus` of the manager makes. -/
inductive DeviceEvent where
  | shouldEvaluateDeviceStatus
  | evaluateDeviceStatus
  | logReevaluate (cpu memory : Nat)
  | updateCapacity (cpu memory : Nat)
deriving DecidableEq, Repr

/-- Body of the manager's `evaluateDeviceStatus`: the flag `initialDeviceStatusEvaluated_`
afterwards and the calls made.  The provider is only asked when the flag is set, because
`||` does not evaluate its right operand otherwise. -/
def evaluateDeviceStatus (initialDeviceStatusEvaluated_ : Bool) (provider : DeviceProvider) :
    Bool × List DeviceEvent :=
  let asked : List DeviceEvent :=
    if !initialDeviceStatusEvaluated_ then [] else [DeviceEvent.shouldEvaluateDeviceStatus]
  let shouldEvaluate := !initialDeviceStatusEvaluated_ || provider.shouldEvaluate
  if shouldEvaluate then
    (true, asked ++ [DeviceEvent.evaluateDeviceStatus,
                     DeviceEvent.logReevaluate provider.cpuCoreCount provider.maxMemoryUsing,
                     DeviceEvent.updateCapacity provider.cpuCoreCount provider.maxMemoryUsing])
  else (initialDeviceStatusEvaluated_, asked)

/-- The provider of the Android adapter: `shouldEvaluateDeviceStatus` returns false, the
device has 4 cores and 40 MB. -/
def androidDevice : DeviceProvider :=
  { shouldEvaluate := false, cpuCoreCount := 4, maxMemoryUsing := 40 * (1024 * 1024) }

/-! ### Instantiation -/

/-- A Dart object as `DecodeDartStringMap` sees a key or a value: a string with its
characters (U+0000 may be among them), a string for which `Dart_StringToCString` leaves the
pointer `nullptr`, or something `Dart_IsString` rejects. -/
inductive DartValue where
  | string (s : String)
  | stringNoCString (s : String)
  | other
deriving DecidableEq, Repr

/-- Result of `Dart_IsString`. -/
def Dart_IsString : DartValue → Bool
  | DartValue.string _ => true
  | DartValue.stringNoCString _ => true
  | DartValue.other => false

/-- What `Dart_StringToCString(v, &p)` leaves in `p`, which starts as `nullptr`: the
characters of the string, followed by the terminating NUL (left out here). -/
def Dart_StringToCString : DartValue → Option String
  | DartValue.string s => some s
  | _ => none

/-- The `std::string` made from a `const char*`: the characters before the first NUL. -/
def stdString (cstr : String) : String :=
  String.mk (cstr.data.takeWhile (fun ch => ch.toNat != 0))

/-- A map argument: null, something `Dart_IsMap` rejects, or a map with its entries in the
order of `Dart_MapKeys` (`keysIsList` is what `Dart_IsList` says of the key list). -/
inductive DartArg where
  | null
  | notMap
  | map (keysIsList : Bool) (entries : List (DartValue × DartValue))
deriving DecidableEq, Repr

/-- The call `dest.insert({ks, vs})` on a `std::map`: a key that is present keeps its
value. -/
def mapInsert (dest : List (String × String)) (ks vs : String) : List (String × String) :=
  if (dest.lookup ks).isSome then dest else dest ++ [(ks, vs)]

/-- The loop of `DecodeDartStringMap` over the keys, each with the value `Dart_MapGetAt`
finds for it: the inner `isValidMap` and `dest` when the loop is left. -/
def decodeEntries :
    List (DartValue × DartValue) → List (String × String) → Bool × List (String × String)
  | [], dest => (true, dest)
  | (k, v) :: rest, dest =>
    if !Dart_IsString k then (false, dest)
    else if !Dart_IsString v then (false, dest)
    else
      match Dart_StringToCString k, Dart_StringToCString v with
      | some ks, some vs => decodeEntries rest (mapInsert dest (stdString ks) (stdString vs))
      | _, _ => (false, dest)

/-- Body of `DecodeDartStringMap`: the result and `dest` afterwards. -/
def DecodeDartStringMap (map : DartArg) (dest : List (String × String)) :
    Bool × List (String × String) :=
  match map with
  | DartArg.null => (true, dest)
  | DartArg.notMap => (false, dest)
  | DartArg.map keysIsList entries =>
    if !keysIsList then (false, dest)
    else decodeEntries entries dest

/-- The provider's `RequestInfo`. -/
structure RequestInfo where
  url : String := ""
  targetWidth : Int := 0
  targetHeight : Int := 0
  parameters : List (String × String) := []
  extraInfo : List (String × String) := []
deriving DecidableEq, Repr

/-- The native arguments of the instantiation call and the two globals it tests; a
conversion that raises an exception is `none`. -/
structure InstantiateArgs where
  providerSet : Bool := true
  managerSet : Bool := true
  url : Option String
  targetWidth : Option Int
  targetHeight : Option Int
  parameters : DartArg
  extraInfo : DartArg
deriving DecidableEq, Repr

/-- The error logs of the instantiation call. -/
inductive InstantiateLog where
  | invalidUrl
  | invalidArguments
  | invalidParameters
  | invalidExtraInfo
deriving DecidableEq, Repr

/-- Result of the instantiation call. -/
structure Instantiated where
  initialDeviceStatusEvaluated_ : Bool
  deviceEvents : List DeviceEvent := []
  logs : List InstantiateLog := []
  codec : Option RequestInfo := none
deriving DecidableEq, Repr

/-- Body of `_ExternalAdapterInstantiateImageCodec`: the descriptor of the codec it makes,
or no codec (`nullptr`). -/
def _ExternalAdapterInstantiateImageCodec (initialDeviceStatusEvaluated_ : Bool)
    (provider : DeviceProvider) (args : InstantiateArgs) : Instantiated :=
  if !args.providerSet || !args.managerSet then
    { initialDeviceStatusEvaluated_ := initialDeviceStatusEvaluated_ }
  else
    let evaluated := evaluateDeviceStatus initialDeviceStatusEvaluated_ provider
    match args.url with
    | none =>
      { initialDeviceStatusEvaluated_ := evaluated.1, deviceEvents := evaluated.2,
        logs := [InstantiateLog.invalidUrl] }
    | some url =>
      match args.targetWidth, args.targetHeight with
      | some targetWidth, some targetHeight =>
        let parameters := DecodeDartStringMap args.parameters []
        if !parameters.1 then
          { initialDeviceStatusEvaluated_ := evaluated.1, deviceEvents := evaluated.2,
            logs := [InstantiateLog.invalidParameters] }
        else
          let extraInfo := DecodeDartStringMap args.extraInfo []
          if !extraInfo.1 then
            { initialDeviceStatusEvaluated_ := evaluated.1, deviceEvents := evaluated.2,
              logs := [InstantiateLog.invalidExtraInfo] }
          else
            { initialDeviceStatusEvaluated_ := evaluated.1, deviceEvents := evaluated.2,
              codec := some { url := url, targetWidth := targetWidth,
                              targetHeight := targetHeight, parameters := parameters.2,
                              extraInfo := extraInfo.2 } }
      | _, _ =>
        { initialDeviceStatusEvaluated_ := evaluated.1, deviceEvents := evaluated.2,
          logs := [InstantiateLog.invalidArguments] }

/-- A map argument with two string entries. -/
def twoStrings : DartArg :=
  DartArg.map true [(DartValue.string "a", DartValue.string "1"),
                    (DartValue.string "b", DartValue.string "2")]

/-- A map argument one of whose values is not a string. -/
def notAllStrings : DartArg :=
  DartArg.map true [(DartValue.string "a", DartValue.string "1"),
                    (DartValue.string "b", DartValue.other)]

/-- The three characters `a`, U+0000, `b`. -/
def keyANulB : String := String.mk ['a', Char.ofNat 0, 'b']

/-- The three characters `a`, U+0000, `c`. -/
def keyANulC : String := String.mk ['a', Char.ofNat 0, 'c']

/-- A map argument with two string entries whose keys differ only after a U+0000. -/
def nulKeys : DartArg :=
  DartArg.map true [(DartValue.string keyANulB, DartValue.string "1"),
                    (DartValue.string keyANulC, DartValue.string "2")]

/-- A map argument with one string entry whose value yields no C string. -/
def noCString : DartArg :=
  DartArg.map true [(DartValue.string "a", DartValue.stringNoCString "1")]

/-! ### The Android adapter (`android_external_adapter_image.cc`) -/

/-- A Java bitmap handed to `onImageFinished`, with what the calls on it return. -/
structure JavaBitmap where
  isNull : Bool := false
  lockPixelsOk : Bool := true
  mallocOk : Bool := true
deriving DecidableEq, Repr

/-- The arguments of `onImageFinished` and the results of the JNI calls it makes:
`AndroidBitmap_getInfo` on the first bitmap (`getInfoOk`, `width`, `height`) and the two
`NewGlobalRef` calls (0 is a null reference).  `durationInMs` is `duration * 1000`. -/
structure Finished where
  imageIsNull : Bool := false
  bitmaps : List JavaBitmap := []
  getInfoOk : Bool := true
  width : Int := 0
  height : Int := 0
  frameCount : Int := 1
  durationInMs : Int := 0
  isSingleBitmapAnimated : Bool := false
  isPremul : Bool := false
  bitmapGlobalRef : Nat := 1
  imageGlobalRef : Nat := 1
deriving DecidableEq, Repr

/-- The calls the adapter makes: on the JNI bridge and on a `RequestCallback` (named by a
number), with the image passed and whether a release function comes with it. -/
inductive AdapterEvent where
  | bridgeRequest (rid : RequestId)
  | bridgeCancel (rid : RequestId)
  | startAnimation
  | callback (cb : Nat) (image : PlatformImage) (withRelease : Bool)
deriving DecidableEq, Repr

namespace ExternalAdapterImageAndroidAdapter

/-- The map without the entry of `rid`. -/
def erase (m : List (RequestId × Nat)) (rid : RequestId) : List (RequestId × Nat) :=
  m.filter (fun e => !decide (e.1 = rid))

/-- Body of `request`; `bridgeResult` is what `ExternalAdapterImageJNIBridge::Request`
returns. -/
def request (_imageRequests : List (RequestId × Nat)) (rid : RequestId) (callback : Nat)
    (bridgeResult : Bool) : List (RequestId × Nat) × List AdapterEvent :=
  let stored := (rid, callback) :: erase _imageRequests rid
  (if !bridgeResult then erase stored rid else stored, [AdapterEvent.bridgeRequest rid])

/-- Body of `cancel`. -/
def cancel (_imageRequests : List (RequestId × Nat)) (rid : RequestId) :
    List (RequestId × Nat) × List AdapterEvent :=
  (erase _imageRequests rid, [AdapterEvent.bridgeCancel rid])

/-- The part of `onImageFinished` that runs when a callback was found. -/
def finish (callback : Nat) (a : Finished) : List AdapterEvent :=
  let platformImage : PlatformImage := {}
  if a.imageIsNull || a.bitmaps.isEmpty then
    [AdapterEvent.callback callback platformImage false]
  else if !a.getInfoOk then
    [AdapterEvent.callback callback platformImage false]
  else if a.isSingleBitmapAnimated then
    if a.bitmaps.length = 1 then
      if a.bitmapGlobalRef = 0 then
        [AdapterEvent.callback callback platformImage false]
      else if a.imageGlobalRef = 0 then
        [AdapterEvent.callback callback platformImage false]
      else
        let image : PlatformImage :=
          { platformImage with handle := a.imageGlobalRef, width := a.width,
                               height := a.height, userData := 1 }
        [AdapterEvent.startAnimation,
         AdapterEvent.callback callback
           (if a.frameCount > 1 then
              { image with frameCount := a.frameCount, durationInMs := a.durationInMs,
                           repetitionCount := InfiniteLoop }
            else image) true]
    else
      [AdapterEvent.callback callback platformImage false]
  else if a.bitmaps.any (fun b => b.isNull || !b.lockPixelsOk || !b.mallocOk) then
    [AdapterEvent.callback callback platformImage false]
  else
    let image : PlatformImage :=
      { platformImage with handle := 1, width := a.width, height := a.height, userData := 1 }
    [AdapterEvent.callback callback
       (if a.frameCount > 1 then
          { image with frameCount := a.frameCount, durationInMs := a.durationInMs,
                       repetitionCount := InfiniteLoop }
        else image) true]

/-- Body of `onImageFinished`. -/
def onImageFinished (_imageRequests : List (RequestId × Nat)) (id : RequestId) (a : Finished) :
    List (RequestId × Nat) × List AdapterEvent :=
  match _imageRequests.lookup id with
  | some callback => (erase _imageRequests id, finish callback a)
  | none => (_imageRequests, [])

end ExternalAdapterImageAndroidAdapter

/-- How often the events invoke the request callback `cb`. -/
def callbackCount (cb : Nat) (evs : List AdapterEvent) : Nat :=
  (evs.filter (fun e => match e with
    | AdapterEvent.callback x _ _ => decide (x = cb)
    | _ => false)).length

/-! ### Further runs -/

/-- The binding layer calls `getImageInfo` on codec `c` once for every closure of the
list, in order. -/
def getImageInfoCalls (c : CodecId) (callbacks : List Nat) : List Action :=
  callbacks.map (fun cb => Action.getImageInfo c ⟨cb, true⟩)

/-- A decoded bitmap whose pixels belong to the platform image. -/
def bitmapBorrowed : Bitmap :=
  { pixels := 2000, pixelsCopied := false, width := 2, height := 2, bytesPerRow := 8,
    alphaType := AlphaType.Premul }

/-- Surroundings in which decode yields `bitmapBorrowed` and the upload succeeds. -/
def envBorrowed : Env := { decodeResult := (bitmapBorrowed, some 6), skImage := some 78 }

/-- Is the event a release of a platform image or a texture upload? -/
def isReleaseOrUpload : Thread × Event → Bool
  | (_, Event.releaseImage _ _) => true
  | (_, Event.uploadTexture _) => true
  | _ => false

/-- An info request and a frame request on codec 0.  The frame request is answered with
the animation `gif5`, whose first frame is delivered; `getNextFrame` posts the decode of
the second frame, which stays pending.  The info request is then answered with the still
image `image7`; the next `getNextFrame` finds neither an animation nor a cached frame and
requests again; the answer is the still image `image42`, decoded into a bitmap that
borrows its pixels.  Now the pending decode of the second frame runs and fails, and only
then the upload closure runs. -/
def staleDecodeRun : List Action :=
  [Action.getImageInfo 0 (closure 1), Action.getNextFrame 0 (closure 2),
   Action.answer 1 gif5 (some 50), Action.run 0 envOk, Action.run 0 envOk,
   Action.run 0 envOk, Action.run 0 envOk, Action.getNextFrame 0 (closure 3),
   Action.answer 0 image7 (some 70), Action.run 1 envOk,
   Action.getNextFrame 0 (closure 4), Action.answer 0 image42 (some 3),
   Action.run 1 envBorrowed, Action.run 0 envDecodeFails, Action.run 0 envBorrowed]

/-- Codec 1 requests a frame; codec 0, which has never been used, is destroyed; then the
provider answers the request of codec 1. -/
def strangerCancelRun : List Action :=
  [Action.getNextFrame 1 (closure 1), Action.cancel 0, Action.answer 0 image42 (some 3)]

/-- An info request and a frame request on codec 0; the frame request is answered with the
animation `gif5` and the kick-off runs; then the info request is answered with the still
image `image7` and its UI closure runs. -/
def cursorOutOfRangeRun : List Action :=
  [Action.getImageInfo 0 (closure 1), Action.getNextFrame 0 (closure 2),
   Action.answer 1 gif5 (some 50), Action.run 0 envOk,
   Action.answer 0 image7 (some 70), Action.run 1 envOk]

/-- An info request answered when the Dart VM state is gone. -/
def infoNoVmRun : List Action :=
  getImageInfoCalls 0 [1, 2] ++ [Action.answer 0 image7 (some 70), Action.run 0 envNoVm]

/-! ## Predicates of the run invariants -/

/-- A codec as `cancel` leaves it: canceled, `Complete`, nothing cached, both queues
empty, no platform handle. -/
def AbsorbedCodec (k : Codec) : Prop :=
  k.canceled_ = true ∧ k.status_ = Status.Complete ∧ k.cachedFrame_ = none
    ∧ k.getFrameCallbacks_ = [] ∧ k.getInfoCallbacks_ = [] ∧ k.platformImage_.handle = 0

/-- Codec `c` of the system is as `cancel` leaves it. -/
def Absorbed (c : CodecId) (s : System) : Prop := AbsorbedCodec (s.codecs c)

/-- Is the closure a decode thunk of codec `c`? -/
def Task.decodes (c : CodecId) : Task → Bool
  | Task.decodeSingle ref _ => decide (ref.codec = c)
  | Task.decodeMulti ref _ _ => decide (ref.codec = c)
  | _ => false

/-- Is the event a `provider->request`? -/
def Event.isRequest : Event → Bool
  | Event.request _ _ => true
  | _ => false

/-- No event of the list is a `provider->request`. -/
def NoRequest (evs : List Event) : Prop := ∀ e ∈ evs, e.isRequest = false

/-- What an operation from `s` leaves of a canceled codec `c`: it is still as `cancel` left
it, every decode thunk of `c` in the pool was there before, and (unless `mayRequest`) the
operation made no `provider->request`. -/
def Inert (mayRequest : Bool) (c : CodecId) (s : System) (r : System × List Event) : Prop :=
  Absorbed c r.1 ∧ (∀ t ∈ r.1.tasks, t.decodes c = true → t ∈ s.tasks)
    ∧ (mayRequest = false → NoRequest r.2)

/-- `Inert` for an operation that can fault. -/
def InertOpt (mayRequest : Bool) (c : CodecId) (s : System)
    (r : Option (System × List Event)) : Prop :=
  ∀ x, r = some x → Inert mayRequest c s x

/-- Is the action a `getNextFrame` or `getImageInfo` call on a codec other than `c`? -/
def Action.callsOther (c : CodecId) : Action → Bool
  | Action.getNextFrame d _ => !decide (d = c)
  | Action.getImageInfo d _ => !decide (d = c)
  | _ => false

/-- A codec whose `frameCount` is at least 1 and whose cursor is not negative. -/
def SoundCodec (k : Codec) : Prop :=
  k.platformImage_.frameCount ≥ 1 ∧ 0 ≤ k.nextFrameIndex_

/-- The image a posted closure carries, if any, has at least one frame. -/
def SoundTask : Task → Prop
  | Task.infoFlush _ image _ => image.frameCount ≥ 1
  | _ => True

/-- Every codec is sound and so is every posted closure. -/
def Sound (s : System) : Prop :=
  (∀ c, SoundCodec (s.codecs c)) ∧ ∀ t ∈ s.tasks, SoundTask t

/-- The image the provider delivers in this action, if any, has at least one frame. -/
def Action.delivers : Action → Bool
  | Action.answer _ image _ => decide (image.frameCount ≥ 1)
  | _ => true

/-! ## The frame request callback in two parts

The request callback of `getNextFrame` runs on a thread of the provider, `cancel` on the UI
thread.  The callback tests `isCanceled()` for the last time inside the section guarded by
`platformImageLock_` (or, for `handle == 0`, right after `logError`); what it posts, it
posts after that test without testing again, so a `cancel` can run in between.  `cancel`
takes the same lock in `releasePlatformImage`, so it cannot return while the callback is
inside the guarded section.  The other code that runs off the UI thread (the request
callback of `getImageInfo`, the decode thunks, the upload closures) calls no
`provider->request`, posts no decode thunk, and writes the codec only inside
`releasePlatformImage`. -/

/-- What a frame request callback still has to do once it has made its last test of
`isCanceled()`: `_ReleaseOnUIThread(codecRef)`, the `PostTask` of the failure closure, the
log and `PostTask` that start a GIF, or `postTask(imageDecodingCost, ...)` of the decode
thunk. -/
inductive PendingPost where
  | releaseOnUIThread (codecRef : CodecRef)
  | failure (codecRef : CodecRef)
  | gif (codecRef : CodecRef)
  | single (codecRef : CodecRef) (cost : Nat)
deriving DecidableEq, Repr

/-- The closure that is posted. -/
def PendingPost.task : PendingPost → Task
  | PendingPost.releaseOnUIThread codecRef => Task.dropRef codecRef
  | PendingPost.failure codecRef => Task.failClosure codecRef
  | PendingPost.gif codecRef => Task.gifKickoff codecRef
  | PendingPost.single codecRef cost => Task.decodeSingle codecRef cost

/-- The calls made while posting. -/
def PendingPost.events : PendingPost → List Event
  | PendingPost.gif _ => [Event.log LogMessage.requestIsAGif]
  | PendingPost.single _ cost => [Event.postTask cost]
  | _ => []

/-- First part of the request callback of `getNextFrame`: from `retrieveCodec` to the last
test of `isCanceled()` and, with the image assigned, the end of the guarded section.  The
third component is what the callback goes on to post. -/
def onFrameFetchedUntilPost (s : System) (reqId : RequestId) (image : PlatformImage)
    (release : ReleaseImageCallback) : (System × List Event) × Option PendingPost :=
  let found := retrieveCodec s.pendingCodec_ reqId
  match found.2 with
  | none => ((s, callRelease release image), none)
  | some codecRef =>
    let s1 : System := { s with pendingCodec_ := found.1 }
    let k := s1.codecs codecRef.codec
    if image.handle = 0 then
      if k.canceled_ then
        ((s1, [Event.log LogMessage.failToGetPlatformImage]),
         some (PendingPost.releaseOnUIThread codecRef))
      else
        ((s1, [Event.log LogMessage.failToGetPlatformImage]),
         some (PendingPost.failure codecRef))
    else if k.canceled_ then
      ((s1, callRelease release image), some (PendingPost.releaseOnUIThread codecRef))
    else
      let s2 := s1.setCodec codecRef.codec (assignPlatformImage k image release)
      if image.frameCount > 1 then
        ((s2, []), some (PendingPost.gif codecRef))
      else
        ((s2, []),
         some (PendingPost.single codecRef (imageDecodingCost image.width image.height)))

/-- Second part of the request callback of `getNextFrame`: the post. -/
def onFrameFetchedPost (s : System) (p : PendingPost) : System × List Event :=
  (s.post p.task, p.events)

/-- The system together with the frame request callbacks that are between their two
parts. -/
structure Interleaved where
  sys : System
  pending : List PendingPost := []

/-- What can happen next when a frame request callback need not run in one piece: a step as
before, the provider invoking the `i`-th request callback it holds up to its last test of
`isCanceled()`, or the `j`-th callback that is under way making its post. -/
inductive InterleavedAction where
  | atomic (a : Action)
  | answerUntilPost (i : Nat) (image : PlatformImage) (release : ReleaseImageCallback)
  | post (j : Nat)
deriving DecidableEq, Repr

/-- One step.  The request callback of `getImageInfo` reads nothing of the codec and is kept
in one piece. -/
def stepInterleaved (fs : Interleaved) :
    InterleavedAction → Option (Interleaved × List (Thread × Event))
  | InterleavedAction.atomic a =>
    match step fs.sys a with
    | some (s1, evs) => some ({ fs with sys := s1 }, evs)
    | none => none
  | InterleavedAction.answerUntilPost i image release =>
    match fs.sys.outstanding.get? i with
    | some (rid, RequestKind.frame) =>
      let r := onFrameFetchedUntilPost
        { fs.sys with outstanding := fs.sys.outstanding.eraseIdx i } rid image release
      some ({ sys := r.1.1, pending := fs.pending ++ r.2.toList },
            tagged Thread.provider r.1.2)
    | some (rid, RequestKind.info) =>
      let r := onInfoFetched
        { fs.sys with outstanding := fs.sys.outstanding.eraseIdx i } rid image release
      some ({ fs with sys := r.1 }, tagged Thread.provider r.2)
    | none => some (fs, [])
  | InterleavedAction.post j =>
    match fs.pending.get? j with
    | some p =>
      let r := onFrameFetchedPost fs.sys p
      some ({ sys := r.1, pending := fs.pending.eraseIdx j }, tagged Thread.provider r.2)
    | none => some (fs, [])

/-- A run of such steps, with all their events. -/
def runInterleaved (fs : Interleaved) :
    List InterleavedAction → Option (Interleaved × List (Thread × Event))
  | [] => some (fs, [])
  | a :: rest =>
    match stepInterleaved fs a with
    | none => none
    | some (fs1, evs) =>
      match runInterleaved fs1 rest with
      | none => none
      | some (fs2, evs2) => some (fs2, evs ++ evs2)

/-- Is the step a `getNextFrame` or `getImageInfo` call on a codec other than `c`? -/
def InterleavedAction.callsOther (c : CodecId) : InterleavedAction → Bool
  | InterleavedAction.atomic a => a.callsOther c
  | _ => false

/-- A `getNextFrame` on codec 0, and the provider's answer with `image7` up to the end of
the guarded section. -/
def midwayRun : List InterleavedAction :=
  [InterleavedAction.atomic (Action.getNextFrame 0 (closure 1)),
   InterleavedAction.answerUntilPost 0 image7 (some 70)]

/-- A state as `midwayRun` leaves codec 0, here the same for every codec: `Downloading`,
holding `image7`; the request callback of codec 0 is about to post the decode thunk. -/
def midwaySystem : Interleaved :=
  { sys :=
      { codecs := fun _ =>
          { status_ := Status.Downloading, assignedPlatformImage_ := true,
            getFrameCallbacks_ := [1], requestId_ := 0, platformImage_ := image7,
            releasePlatformImageCallback_ := some 70 }
        requestId := 1
        heapNext := 1 }
    pending := [PendingPost.single ⟨0, 0⟩ 16] }

/-- After the `cancel`: the callback makes its post, the decode thunk runs, the reference is
dropped, and `getNextFrame` is called once more. -/
def afterCancelRun : List InterleavedAction :=
  [InterleavedAction.post 0, InterleavedAction.atomic (Action.run 0 envOk),
   InterleavedAction.atomic (Action.run 0 envOk),
   InterleavedAction.atomic (Action.getNextFrame 0 (closure 2))]

/-- What a run after `cancel` on codec `c` keeps true: the codec is as `cancel` left it,
every decode thunk of `c` in the pool was there before (`tasks0`) or is the post of a
callback that was under way then (`pending0`), and every callback under way that is about
to post a decode thunk of `c` was under way then. -/
def InertInterleaved (c : CodecId) (tasks0 : List Task) (pending0 : List PendingPost)
    (fs : Interleaved) : Prop :=
  Absorbed c fs.sys
    ∧ (∀ t ∈ fs.sys.tasks, t.decodes c = true → t ∈ tasks0 ∨ ∃ p ∈ pending0, p.task = t)
    ∧ (∀ p ∈ fs.pending, p.task.decodes c = true → p ∈ pending0)

end ExternalAdapterImage

/-! # Theorems -/

namespace ExternalAdapterImage

/-! ## The registry -/

theorem lookup_eraseId (m : List (RequestId × CodecRef)) (r : RequestId) :
    (eraseId m r).lookup r = none := by
  simp only [eraseId, List.lookup_eq_none_iff]
  intro e he
  simp only [List.mem_filter] at he
  have h1 : e.1 ≠ r := by simpa using he.2
  have h2 : r ≠ e.1 := fun h => h1 h.symm
  simpa using h2

theorem lookup_eraseId_of_ne (m : List (RequestId × CodecRef)) (r q : RequestId) (h : q ≠ r) :
    (eraseId m r).lookup q = m.lookup q := by
  induction m with
  | nil => rfl
  | cons e m ih =>
    unfold eraseId at ih ⊢
    by_cases he : e.1 = r
    · have hq : (q == e.1) = false := by
        have : q ≠ e.1 := fun h2 => h (h2.trans he)
        simpa using this
      rw [List.filter_cons_of_neg (by simpa using he)]
      obtain ⟨a, b⟩ := e
      simp only [List.lookup]
      simp only at hq
      rw [ih, hq]
    · rw [List.filter_cons_of_pos (by simpa using he)]
      obtain ⟨a, b⟩ := e
      simp only [List.lookup]
      rw [ih]

theorem retrieveCodec_fst_lookup (m : List (RequestId × CodecRef)) (r : RequestId) :
    (retrieveCodec m r).1.lookup r = none := by
  unfold retrieveCodec
  cases h : m.lookup r with
  | none => simpa using h
  | some ref => simpa using lookup_eraseId m r

theorem retrieveCodec_fst_lookup_of_ne (m : List (RequestId × CodecRef)) (r q : RequestId)
    (h : q ≠ r) : (retrieveCodec m r).1.lookup q = m.lookup q := by
  unfold retrieveCodec
  cases h1 : m.lookup r with
  | none => rfl
  | some ref => simpa using lookup_eraseId_of_ne m r q h

theorem retrieveCodec_of_lookup_none (m : List (RequestId × CodecRef)) (r : RequestId)
    (h : m.lookup r = none) : retrieveCodec m r = (m, none) := by
  simp [retrieveCodec, h]

theorem retrieveCodec_retrieveCodec (m : List (RequestId × CodecRef)) (r : RequestId) :
    retrieveCodec (retrieveCodec m r).1 r = ((retrieveCodec m r).1, none) :=
  retrieveCodec_of_lookup_none _ _ (retrieveCodec_fst_lookup m r)

/-! ## Lists of posted closures and of request callbacks -/

theorem eraseIdx_append_singleton {α : Type} (l : List α) (x : α) :
    (l ++ [x]).eraseIdx l.length = l := by
  induction l with
  | nil => rfl
  | cons a l ih => simp [List.eraseIdx, ih]

theorem get?_append_singleton {α : Type} (l : List α) (x : α) :
    (l ++ [x]).get? l.length = some x := by
  induction l with
  | nil => rfl
  | cons a l _ => simp

/-! ## Runs, step by step -/

theorem runActions_cons_of_step {s s1 s2 : System} {a : Action} {rest : List Action}
    {evs evs2 : List (Thread × Event)} (h1 : step s a = some (s1, evs))
    (h2 : runActions s1 rest = some (s2, evs2)) :
    runActions s (a :: rest) = some (s2, evs ++ evs2) := by
  simp [runActions, h1, h2]

theorem step_answer_last (s : System) (l : List (RequestId × RequestKind)) (rid : RequestId)
    (kind : RequestKind) (image : PlatformImage) (release : ReleaseImageCallback)
    (h : s.outstanding = l ++ [(rid, kind)]) :
    step s (Action.answer l.length image release)
      = some (onThread Thread.provider
          (runCallback { s with outstanding := l } rid kind image release)) := by
  simp [step, h, eraseIdx_append_singleton]

theorem step_run_last (s : System) (l : List Task) (t : Task) (env : Env)
    (h : s.tasks = l ++ [t]) :
    step s (Action.run l.length env)
      = (runTask { s with tasks := l } t env).map (onThread t.thread) := by
  simp [step, h, eraseIdx_append_singleton]

theorem runActions_calls_downloading (c : CodecId) (cbs : List Nat) (s : System)
    (hnc : (s.codecs c).canceled_ = false) (hd : (s.codecs c).status_ = Status.Downloading) :
    runActions s (getNextFrameCalls c cbs)
      = some (s.setCodec c { s.codecs c with
                getFrameCallbacks_ := (s.codecs c).getFrameCallbacks_ ++ cbs }, []) := by
  induction cbs generalizing s with
  | nil => simp [getNextFrameCalls, runActions, System.setCodec]
  | cons cb cbs ih =>
    have h1 : step s (Action.getNextFrame c ⟨cb, true⟩)
        = some (s.setCodec c { s.codecs c with
                  getFrameCallbacks_ := (s.codecs c).getFrameCallbacks_ ++ [cb] }, []) := by
      simp [step, getNextFrame, hnc, hd, getNextFrameEnqueue, onThread]
    have h2 := ih (s.setCodec c { s.codecs c with
                  getFrameCallbacks_ := (s.codecs c).getFrameCallbacks_ ++ [cb] })
      (by simp [System.setCodec, hnc]) (by simp [System.setCodec, hd])
    have h3 := runActions_cons_of_step h1 h2
    simp only [getNextFrameCalls, List.map_cons] at h3 ⊢
    rw [h3]
    simp [System.setCodec]

theorem filter_isInvoke_invokeFrames (c : CodecId) (q : List Nat) (frame : Option FrameInfo)
    (t : Thread) :
    ((invokeFrames c q frame).map (fun e => (t, e))).filter isInvoke
      = q.map (fun x => (t, Event.invokeFrame c x frame)) := by
  induction q with
  | nil => rfl
  | cons a q ih =>
    simp only [invokeFrames, List.map_cons, List.map_map] at ih ⊢
    rw [List.filter_cons_of_pos (by rfl), ih]

theorem step_run_out_of_range (s : System) (env : Env) :
    step s (Action.run s.tasks.length env) = some (s, []) := by
  simp [step]

theorem stage_answer (t : System) (c : CodecId) (l : List (RequestId × RequestKind))
    (rid : RequestId) (h : Nat) (image : PlatformImage) (release : ReleaseImageCallback)
    (ho : t.outstanding = l ++ [(rid, RequestKind.frame)])
    (hreg : t.pendingCodec_.lookup rid = some ⟨h, c⟩)
    (hnc : (t.codecs c).canceled_ = false)
    (himg : image.handle ≠ 0) (hsingle : ¬ image.frameCount > 1) :
    ∃ tA, step t (Action.answer l.length image release)
        = some (tA, [(Thread.provider,
                      Event.postTask (imageDecodingCost image.width image.height))])
      ∧ tA.tasks = t.tasks ++
          [Task.decodeSingle ⟨h, c⟩ (imageDecodingCost image.width image.height)]
      ∧ (tA.codecs c).canceled_ = false
      ∧ (tA.codecs c).platformImage_ = image
      ∧ (tA.codecs c).releasePlatformImageCallback_ = release
      ∧ (tA.codecs c).getFrameCallbacks_ = (t.codecs c).getFrameCallbacks_ := by
  have hA := step_answer_last t l rid RequestKind.frame image release ho
  refine ⟨(runCallback { t with outstanding := l } rid RequestKind.frame image release).1,
    hA.trans ?_, ?_⟩
  · simp [runCallback, onFrameFetched, retrieveCodec, hreg, himg, hnc, hsingle, onThread]
  · simp [runCallback, onFrameFetched, retrieveCodec, hreg, himg, hnc, hsingle,
      System.post, System.setCodec, assignPlatformImage]

theorem stage_decode (t : System) (l : List Task) (ref : CodecRef) (cost : Nat) (e : Env)
    (ht : t.tasks = l ++ [Task.decodeSingle ref cost])
    (hnc : (t.codecs ref.codec).canceled_ = false)
    (hh : (t.codecs ref.codec).platformImage_.handle ≠ 0) :
    ∃ tD evs, step t (Action.run l.length e) = some (tD, evs)
      ∧ evs.filter isInvoke = []
      ∧ (tD.codecs ref.codec).canceled_ = false
      ∧ (tD.codecs ref.codec).getFrameCallbacks_ = (t.codecs ref.codec).getFrameCallbacks_
      ∧ ((e.decodeResult.1.pixels = 0 ∧ tD.tasks = l ++ [Task.failClosure ref])
         ∨ tD.tasks = l ++ [Task.uploadSingle ref cost e.decodeResult.1 e.decodeResult.2]) := by
  have hS := step_run_last t l _ e ht
  refine ⟨(runDecodeSingle { t with tasks := l } ref cost e).1,
    ((runDecodeSingle { t with tasks := l } ref cost e).2).map (fun x => (Thread.worker, x)),
    hS.trans ?_, ?_⟩
  · simp [runTask, onThread, Task.thread]
  · by_cases hp : e.decodeResult.1.pixels = 0
    · cases hr : (t.codecs ref.codec).releasePlatformImageCallback_ <;>
        simp [runDecodeSingle, hnc, hh, hp, hr, System.post, System.setCodec,
          releasePlatformImage, isInvoke]
    · cases hr : (t.codecs ref.codec).releasePlatformImageCallback_ <;>
        cases hc : e.decodeResult.1.pixelsCopied <;>
        simp [runDecodeSingle, hnc, hh, hp, hr, hc, System.post, System.setCodec,
          releasePlatformImage, isInvoke]

theorem stage_upload (t : System) (l : List Task) (ref : CodecRef) (cost : Nat)
    (bitmap : Bitmap) (rb : ReleaseBitmapCallback) (e : Env)
    (ht : t.tasks = l ++ [Task.uploadSingle ref cost bitmap rb])
    (hnc : (t.codecs ref.codec).canceled_ = false) :
    ∃ tU evs tex, step t (Action.run l.length e) = some (tU, evs)
      ∧ evs.filter isInvoke = []
      ∧ (tU.codecs ref.codec).canceled_ = false
      ∧ (tU.codecs ref.codec).getFrameCallbacks_ = (t.codecs ref.codec).getFrameCallbacks_
      ∧ tU.tasks = l ++ [Task.completeSingle ref tex] := by
  have hS := step_run_last t l _ e ht
  refine ⟨(runUploadSingle { t with tasks := l } ref cost bitmap rb e).1,
    ((runUploadSingle { t with tasks := l } ref cost bitmap rb e).2).map
      (fun x => (Thread.ioRunner, x)),
    (if e.ioStatusValid then UploadTexture e bitmap else (bitmap, none)).2,
    hS.trans ?_, ?_⟩
  · simp [runTask, onThread, Task.thread]
  · cases hr : (t.codecs ref.codec).releasePlatformImageCallback_ <;>
      cases hc : bitmap.pixelsCopied <;> cases hio : e.ioStatusValid <;> cases rb <;>
      by_cases hh : (t.codecs ref.codec).platformImage_.handle = 0 <;>
      simp [runUploadSingle, hnc, hr, hc, hio, hh, System.post, System.setCodec,
        releasePlatformImage, isInvoke, callReleaseBitmap, List.filter_cons]

theorem stage_complete (t : System) (l : List Task) (ref : CodecRef) (tex : Option Nat)
    (e : Env) (ht : t.tasks = l ++ [Task.completeSingle ref tex])
    (hnc : (t.codecs ref.codec).canceled_ = false)
    (hq : (t.codecs ref.codec).getFrameCallbacks_ ≠ [])
    (hvm : e.dartStateValid = true) :
    ∃ tC evs frame, step t (Action.run l.length e) = some (tC, evs)
      ∧ evs.filter isInvoke
          = (t.codecs ref.codec).getFrameCallbacks_.map
              (fun x => (Thread.uiRunner, Event.invokeFrame ref.codec x frame))
      ∧ (tC.codecs ref.codec).getFrameCallbacks_ = []
      ∧ tC.tasks = l := by
  have hS := step_run_last t l _ e ht
  refine ⟨(runCompleteSingle { t with tasks := l } ref tex e).1,
    ((runCompleteSingle { t with tasks := l } ref tex e).2).map
      (fun x => (Thread.uiRunner, x)),
    (match tex with
     | some x => some ⟨x, 0⟩
     | none => (t.codecs ref.codec).cachedFrame_),
    hS.trans ?_, ?_⟩
  · simp [runTask, onThread, Task.thread]
  · have hf := filter_isInvoke_invokeFrames ref.codec (t.codecs ref.codec).getFrameCallbacks_
    cases tex <;>
      simp [runCompleteSingle, hnc, hq, hvm, System.setCodec, isInvoke, List.filter_cons, hf]

theorem stage_fail (t : System) (l : List Task) (ref : CodecRef)
    (e : Env) (ht : t.tasks = l ++ [Task.failClosure ref])
    (hq : (t.codecs ref.codec).getFrameCallbacks_ ≠ [])
    (hvm : e.dartStateValid = true) :
    ∃ tC evs, step t (Action.run l.length e) = some (tC, evs)
      ∧ evs.filter isInvoke
          = (t.codecs ref.codec).getFrameCallbacks_.map
              (fun x => (Thread.uiRunner, Event.invokeFrame ref.codec x none))
      ∧ (tC.codecs ref.codec).getFrameCallbacks_ = []
      ∧ tC.tasks = l := by
  have hS := step_run_last t l _ e ht
  refine ⟨(failClosure { t with tasks := l } ref e).1,
    ((failClosure { t with tasks := l } ref e).2).map (fun x => (Thread.uiRunner, x)),
    hS.trans ?_, ?_⟩
  · simp [runTask, onThread, Task.thread]
  · have hf := filter_isInvoke_invokeFrames ref.codec (t.codecs ref.codec).getFrameCallbacks_
    simp [failClosure, hq, hvm, System.setCodec, isInvoke, List.filter_cons, hf]

theorem pipeline_delivers (t : System) (c : CodecId) (l : List (RequestId × RequestKind))
    (rid : RequestId) (h : Nat) (image : PlatformImage) (release : ReleaseImageCallback)
    (e1 e2 e3 : Env)
    (ho : t.outstanding = l ++ [(rid, RequestKind.frame)])
    (hreg : t.pendingCodec_.lookup rid = some ⟨h, c⟩)
    (hnc : (t.codecs c).canceled_ = false)
    (hq : (t.codecs c).getFrameCallbacks_ ≠ [])
    (himg : image.handle ≠ 0) (hsingle : ¬ image.frameCount > 1)
    (hvm2 : e2.dartStateValid = true) (hvm3 : e3.dartStateValid = true) :
    ∃ t2 evs frame,
      runActions t (singleFramePipeline l.length t.tasks.length image release e1 e2 e3)
        = some (t2, evs)
      ∧ evs.filter isInvoke
          = (t.codecs c).getFrameCallbacks_.map
              (fun x => (Thread.uiRunner, Event.invokeFrame c x frame))
      ∧ (t2.codecs c).getFrameCallbacks_ = [] := by
  obtain ⟨tA, hA, hAt, hAc, hAi, _, hAq⟩ := stage_answer t c l rid h image release ho hreg hnc
    himg hsingle
  obtain ⟨tD, evD, hD, hDf, hDc, hDq, hDt⟩ := stage_decode tA t.tasks ⟨h, c⟩ _ e1 hAt hAc
    (by rw [hAi]; exact himg)
  simp only at hDc hDq
  rcases hDt with ⟨_, hDt⟩ | hDt
  · obtain ⟨tF, evF, hF, hFf, hFq, hFt⟩ := stage_fail tD t.tasks ⟨h, c⟩ e2 hDt
      (by simp only; rw [hDq, hAq]; exact hq) hvm2
    have hN := step_run_out_of_range tF e3
    rw [hFt] at hN
    refine ⟨tF, _, none, runActions_cons_of_step hA (runActions_cons_of_step hD
      (runActions_cons_of_step hF (runActions_cons_of_step hN rfl))), ?_, hFq⟩
    simp only [List.filter_append, hDf, hFf, hDq, hAq]
    simp [isInvoke]
  · obtain ⟨tU, evU, tex, hU, hUf, hUc, hUq, hUt⟩ := stage_upload tD t.tasks ⟨h, c⟩ _ _ _ e2
      hDt hDc
    simp only at hUc hUq
    obtain ⟨tC, evC, frame, hC, hCf, hCq, _⟩ := stage_complete tU t.tasks ⟨h, c⟩ tex e3 hUt hUc
      (by simp only; rw [hUq, hDq, hAq]; exact hq) hvm3
    refine ⟨tC, _, frame, runActions_cons_of_step hA (runActions_cons_of_step hD
      (runActions_cons_of_step hU (runActions_cons_of_step hC rfl))), ?_, hCq⟩
    simp only [List.filter_append, hDf, hUf, hCf, hUq, hDq, hAq]
    simp [isInvoke]

/-! ## C1 -/

/-- C1, at its failing input.  In `overwriteRun` the codec holds the animated image with
handle 5 (release callback 50) when the UI closure of `getImageInfo` assigns the image with
handle 6 over it.  Over the whole run, which ends with the destructor's `cancel` and leaves
no closure, no registry entry and no request callback behind, the only release callback
ever invoked is the one of image 6: the release callback of image 5 is never invoked. -/
theorem overwriteRun_never_releases_held_image :
    (runActions fresh0 overwriteRun).map
        (fun r => (r.2.filter isReleaseImage, (r.1.codecs 0).canceled_, r.1.tasks,
                   r.1.pendingCodec_, r.1.outstanding))
      = some ([(Thread.uiRunner, Event.releaseImage 60 gif6)], true, [], [], [])
    ∧ (runActions fresh0 (overwriteRun.take 8)).map
        (fun r => ((r.1.codecs 0).platformImage_.handle,
                   (r.1.codecs 0).releasePlatformImageCallback_, r.1.tasks))
      = some (5, some 50, [Task.infoFlush ⟨0, 0⟩ gif6 (some 60)])
    ∧ (runActions fresh0 (overwriteRun.take 9)).map
        (fun r => ((r.1.codecs 0).platformImage_.handle, r.2.filter isReleaseImage))
      = some (0, [(Thread.uiRunner, Event.releaseImage 60 gif6)]) := by
  refine ⟨by rfl, by rfl, by rfl⟩

/-! ## C2 -/

/-- C2.  `cancel` is idempotent: from every state, a second `cancel` of the same codec
leaves the state exactly as the first one left it and makes no call at all, so in
particular neither `provider->cancel` nor a release callback is invoked again. -/
theorem cancel_idempotent (s : System) (c : CodecId) :
    (cancel (cancel s c).1 c).1 = (cancel s c).1 ∧ (cancel (cancel s c).1 c).2 = [] := by
  have h := retrieveCodec_retrieveCodec s.pendingCodec_ (s.codecs c).requestId_
  constructor
  · simp [cancel, System.setCodec, releasePlatformImage, h]
  · simp [cancel, System.setCodec, releasePlatformImage, h]

/-! ## C3 -/

/-- C3 fails.  After the single-frame run the codec is not canceled, `Complete`, and has
frame 77 cached, which the second `getNextFrame` delivers; the `cancel` that follows
changes the codec (the cache is empty, `canceled_` is set) and the third `getNextFrame`
delivers null. -/
theorem cancel_after_complete_is_not_a_noop :
    (runActions fresh0 (cancelAfterCompleteRun.take 6)).map
        (fun r => ((r.1.codecs 0).canceled_, (r.1.codecs 0).status_, (r.1.codecs 0).cachedFrame_))
      = some (false, Status.Complete, some ⟨77, 0⟩)
    ∧ (runActions fresh0 (cancelAfterCompleteRun.take 7)).map
        (fun r => ((r.1.codecs 0).canceled_, (r.1.codecs 0).status_, (r.1.codecs 0).cachedFrame_))
      = some (true, Status.Complete, none)
    ∧ (runActions fresh0 cancelAfterCompleteRun).map (fun r => r.2.filter isInvoke)
      = some [(Thread.uiRunner, Event.invokeFrame 0 1 (some ⟨77, 0⟩)),
              (Thread.uiRunner, Event.invokeFrame 0 2 (some ⟨77, 0⟩)),
              (Thread.uiRunner, Event.invokeFrame 0 3 none)] := by
  refine ⟨by rfl, by rfl, by rfl⟩

/-- C3, amended.  On a codec whose state is `Complete`, `cancel` does not call
`provider->cancel` and leaves the state `Complete` and every field it does not name; it
sets `canceled_`, empties the cache and both queues and gives up the platform image.  A
following `getNextFrame` with a closure invokes it once, with null, and changes nothing. -/
theorem cancel_after_complete (s : System) (c : CodecId) (callback : DartHandle)
    (hcl : callback.isClosure = true) (hst : (s.codecs c).status_ = Status.Complete) :
    (∀ rid, Event.providerCancel rid ∉ (cancel s c).2)
    ∧ (cancel s c).1.codecs c =
        { s.codecs c with
            canceled_ := true, cachedFrame_ := none, getFrameCallbacks_ := [],
            getInfoCallbacks_ := [],
            platformImage_ := { (s.codecs c).platformImage_ with handle := 0 },
            releasePlatformImageCallback_ := none }
    ∧ getNextFrame (cancel s c).1 c callback
        = some ((cancel s c).1, [Event.invokeFrame c callback.id none]) := by
  refine ⟨?_, ?_, ?_⟩
  · intro rid
    simp only [cancel, hst, releasePlatformImage]
    cases (retrieveCodec s.pendingCodec_ (s.codecs c).requestId_).2 <;>
      cases (s.codecs c).releasePlatformImageCallback_ <;>
      by_cases hh : (s.codecs c).platformImage_.handle = 0 <;> simp [hh]
  · simp [cancel, System.setCodec, releasePlatformImage, ← hst]
  · simp [getNextFrame, hcl, cancel, System.setCodec, releasePlatformImage]

/-- Witness of `cancel_after_complete`. -/
theorem cancel_after_complete_witness :
    (∀ rid, Event.providerCancel rid ∉ (cancel cachedSystem 0).2)
    ∧ getNextFrame (cancel cachedSystem 0).1 0 (closure 3)
        = some ((cancel cachedSystem 0).1, [Event.invokeFrame 0 3 none]) :=
  have h := cancel_after_complete cachedSystem 0 (closure 3) rfl (by rfl)
  ⟨h.1, h.2.2⟩

/-! ## C4 -/

/-- C4 fails.  Three `getNextFrame` calls on a fresh codec, then the single-frame pipeline
runs to its end without any `cancel`, decode and upload succeed, but the Dart VM state can
no longer be locked when the completion closure runs: the closure sets the state to
`Complete` and returns; none of the three callbacks is ever invoked and the queue still
holds all three. -/
theorem fan_in_without_vm_state_delivers_nothing :
    (runActions fresh0
        (getNextFrameCalls 0 [1, 2, 3]
          ++ singleFramePipeline 0 0 image42 (some 3) envOk envOk envNoVm)).map
        (fun r => (r.2.filter isInvoke, (r.1.codecs 0).getFrameCallbacks_,
                   (r.1.codecs 0).status_, (r.1.codecs 0).canceled_, r.1.tasks))
      = some ([], [1, 2, 3], Status.Complete, false, []) := by
  rfl

/-- C4, amended.  On a codec that is `New`, not canceled and has an empty queue, `N >= 1`
calls of `getNextFrame` with closures make exactly one `provider->request` and retain
exactly one registry entry, and queue the callbacks in order.  When the provider then
delivers a single-frame image with a handle and the pipeline runs to its end (decode
thunk; then upload and completion closure, or the failure closure when decode fails)
without a `cancel`, and the Dart VM state can be locked in the closure that delivers,
every callback is invoked exactly once, in insertion order, all with the same frame or
null, and the queue is empty afterwards. -/
theorem fan_in (s : System) (c : CodecId) (cb : Nat) (cbs : List Nat) (image : PlatformImage)
    (release : ReleaseImageCallback) (e1 e2 e3 : Env)
    (hnc : (s.codecs c).canceled_ = false) (hnew : (s.codecs c).status_ = Status.New)
    (hq : (s.codecs c).getFrameCallbacks_ = [])
    (himg : image.handle ≠ 0) (hsingle : ¬ image.frameCount > 1)
    (hvm2 : e2.dartStateValid = true) (hvm3 : e3.dartStateValid = true) :
    ∃ s1, runActions s (getNextFrameCalls c (cb :: cbs))
        = some (s1, [(Thread.uiRunner, Event.newRef s.heapNext),
                     (Thread.uiRunner, Event.request s.requestId RequestKind.frame)])
      ∧ s1.pendingCodec_ = retainCodec s.pendingCodec_ s.requestId ⟨s.heapNext, c⟩
      ∧ s1.outstanding = s.outstanding ++ [(s.requestId, RequestKind.frame)]
      ∧ (s1.codecs c).getFrameCallbacks_ = cb :: cbs
      ∧ ∃ s2 evs frame,
          runActions s1
              (singleFramePipeline s.outstanding.length s.tasks.length image release e1 e2 e3)
            = some (s2, evs)
          ∧ evs.filter isInvoke
              = (cb :: cbs).map (fun x => (Thread.uiRunner, Event.invokeFrame c x frame))
          ∧ (s2.codecs c).getFrameCallbacks_ = [] := by
  have h1 : step s (Action.getNextFrame c ⟨cb, true⟩)
      = some ((getNextFrameEnqueue s c (s.codecs c) ⟨cb, true⟩).1,
              [(Thread.uiRunner, Event.newRef s.heapNext),
               (Thread.uiRunner, Event.request s.requestId RequestKind.frame)]) := by
    simp [step, getNextFrame, hnc, hnew, getNextFrameEnqueue, issueRequest, nextRequestId,
      onThread]
  have hk : ((getNextFrameEnqueue s c (s.codecs c) ⟨cb, true⟩).1.codecs c).canceled_ = false
      ∧ ((getNextFrameEnqueue s c (s.codecs c) ⟨cb, true⟩).1.codecs c).status_
          = Status.Downloading
      ∧ ((getNextFrameEnqueue s c (s.codecs c) ⟨cb, true⟩).1.codecs c).getFrameCallbacks_ = [cb]
      ∧ (getNextFrameEnqueue s c (s.codecs c) ⟨cb, true⟩).1.pendingCodec_
          = retainCodec s.pendingCodec_ s.requestId ⟨s.heapNext, c⟩
      ∧ (getNextFrameEnqueue s c (s.codecs c) ⟨cb, true⟩).1.outstanding
          = s.outstanding ++ [(s.requestId, RequestKind.frame)]
      ∧ (getNextFrameEnqueue s c (s.codecs c) ⟨cb, true⟩).1.tasks = s.tasks := by
    simp [getNextFrameEnqueue, hnc, hnew, hq, issueRequest, nextRequestId]
  obtain ⟨hk1, hk2, hk3, hk4, hk5, hk6⟩ := hk
  generalize (getNextFrameEnqueue s c (s.codecs c) ⟨cb, true⟩).1 = sA at h1 hk1 hk2 hk3 hk4 hk5 hk6
  have h2 := runActions_calls_downloading c cbs sA hk1 hk2
  have h3 := runActions_cons_of_step h1 h2
  have hp := pipeline_delivers
    (sA.setCodec c { sA.codecs c with
      getFrameCallbacks_ := (sA.codecs c).getFrameCallbacks_ ++ cbs }) c s.outstanding
    s.requestId s.heapNext image release e1 e2 e3
    (by simpa [System.setCodec] using hk5)
    (by simp [System.setCodec, hk4, retainCodec, List.lookup])
    (by simpa [System.setCodec] using hk1)
    (by simp [System.setCodec, hk3])
    himg hsingle hvm2 hvm3
  refine ⟨_, h3, by simpa [System.setCodec] using hk4, by simpa [System.setCodec] using hk5,
    by simp [System.setCodec, hk3], ?_⟩
  simpa [System.setCodec, hk3, hk6] using hp

/-- Witness of `fan_in`: scenario S6, three callbacks and the image of scenario S1. -/
theorem fan_in_witness :
    ∃ s1, runActions fresh0 (getNextFrameCalls 0 [1, 2, 3])
        = some (s1, [(Thread.uiRunner, Event.newRef 0),
                     (Thread.uiRunner, Event.request 0 RequestKind.frame)])
      ∧ s1.pendingCodec_ = retainCodec [] 0 ⟨0, 0⟩
      ∧ s1.outstanding = [(0, RequestKind.frame)]
      ∧ (s1.codecs 0).getFrameCallbacks_ = [1, 2, 3]
      ∧ ∃ s2 evs frame,
          runActions s1 (singleFramePipeline 0 0 image42 (some 3) envOk envOk envOk)
            = some (s2, evs)
          ∧ evs.filter isInvoke
              = [1, 2, 3].map (fun x => (Thread.uiRunner, Event.invokeFrame 0 x frame))
          ∧ (s2.codecs 0).getFrameCallbacks_ = [] :=
  fan_in fresh0 0 1 [2, 3] image42 (some 3) envOk envOk envOk rfl rfl rfl (by decide)
    (by decide) rfl rfl

/-! ## C5 -/

/-- C5 fails.  In `twoDecodesRun` the first frame of an animation has been delivered (one
`postTask`, one `finishTask`) and the codec is `Complete`; each of the two `getNextFrame`
calls that follow posts a decode task of its own, so two decode tasks of the codec are
posted and unfinished at the same time. -/
theorem two_decode_tasks_in_flight :
    (runActions fresh0 twoDecodesRun).map
        (fun r => (r.2.filter isCoordinator, r.1.tasks, (r.1.codecs 0).status_))
      = some ([(Thread.uiRunner, Event.postTask 16),
               (Thread.ioRunner, Event.finishTask 16),
               (Thread.uiRunner, Event.postTask 16),
               (Thread.uiRunner, Event.postTask 16)],
              [Task.decodeMulti ⟨2, 0⟩ 16 1, Task.decodeMulti ⟨3, 0⟩ 16 2],
              Status.Complete) := by
  rfl

/-- C5, amended.  A `getNextFrame` with a closure on a codec that is not canceled
(1) while the state is `Downloading` only appends the callback to the queue: no call is
made, no closure is posted, no request is outstanding that was not before and the registry
is as before; (2) on an animated codec in state `Complete` that holds its image it posts
exactly one decode task, for the frame at the cursor, and makes no request, whatever
closures are still pending. -/
theorem getNextFrame_in_flight (s : System) (c : CodecId) (callback : DartHandle)
    (hcl : callback.isClosure = true) (hnc : (s.codecs c).canceled_ = false) :
    ((s.codecs c).status_ = Status.Downloading →
      getNextFrame s c callback
        = some (s.setCodec c { s.codecs c with
                  getFrameCallbacks_ := (s.codecs c).getFrameCallbacks_ ++ [callback.id] }, []))
    ∧ ((s.codecs c).status_ = Status.Complete → (s.codecs c).platformImage_.frameCount > 1 →
        (s.codecs c).platformImage_.handle ≠ 0 →
        ∃ s1, getNextFrame s c callback
            = some (s1, [Event.newRef s.heapNext,
                         Event.postTask (imageDecodingCost (s.codecs c).platformImage_.width
                                           (s.codecs c).platformImage_.height)])
          ∧ s1.tasks = s.tasks ++
              [Task.decodeMulti ⟨s.heapNext, c⟩
                (imageDecodingCost (s.codecs c).platformImage_.width
                   (s.codecs c).platformImage_.height) (s.codecs c).nextFrameIndex_]
          ∧ s1.outstanding = s.outstanding ∧ s1.pendingCodec_ = s.pendingCodec_) := by
  constructor
  · intro hd
    simp [getNextFrame, hcl, hnc, hd, getNextFrameEnqueue]
  · intro hst hfc hh
    have hfc0 : (s.codecs c).platformImage_.frameCount ≠ 0 := by omega
    simp [getNextFrame, hcl, hnc, hst, hfc, hh, getNextMultiframe, hfc0, System.post,
      System.setCodec]

/-- Witness of `getNextFrame_in_flight`, on the codec of `twoDecodesRun` before and after
its first frame. -/
theorem getNextFrame_in_flight_witness :
    getNextFrame (fresh0.setCodec 0 downloadingCodec) 0 (closure 2)
        = some ((fresh0.setCodec 0 downloadingCodec).setCodec 0
                  { downloadingCodec with getFrameCallbacks_ := [1, 2] }, [])
    ∧ ∃ s1, getNextFrame (fresh0.setCodec 0 animatedCodec) 0 (closure 2)
            = some (s1, [Event.newRef 0, Event.postTask 16])
          ∧ s1.tasks = [Task.decodeMulti ⟨0, 0⟩ 16 1]
          ∧ s1.outstanding = [] ∧ s1.pendingCodec_ = [] :=
  have h := getNextFrame_in_flight (fresh0.setCodec 0 downloadingCodec) 0 (closure 2) rfl (by rfl)
  have h2 := getNextFrame_in_flight (fresh0.setCodec 0 animatedCodec) 0 (closure 2) rfl (by rfl)
  ⟨h.1 (by rfl), h2.2 (by rfl) (by decide) (by decide)⟩

/-! ## C6 -/

/-- C6.  Let `getNextFrame` issue a request on a codec that is not canceled (the state
is `New`, or it is `Complete` with neither an animation nor a cached frame): it takes the
id `s.requestId` and retains the codec under it.  A `cancel` that comes before the
provider answers removes that registry entry and invokes no callback.  When the provider
then invokes the request callback, with whatever image and release callback, the step runs
on the provider's thread, calls the release callback on the image exactly once and does
nothing else: no callback of the codec is invoked and, but for the request callback being
used up, the state (every codec included) is as `cancel` left it. -/
theorem cancel_wins_race (s : System) (c : CodecId) (callback : DartHandle)
    (image : PlatformImage) (release : Nat)
    (hcl : callback.isClosure = true) (hnc : (s.codecs c).canceled_ = false)
    (hissue : (s.codecs c).status_ = Status.New
      ∨ ((s.codecs c).status_ = Status.Complete ∧ ¬ (s.codecs c).platformImage_.frameCount > 1
          ∧ (s.codecs c).cachedFrame_ = none)) :
    ∃ s1, getNextFrame s c callback
        = some (s1, [Event.newRef s.heapNext, Event.request s.requestId RequestKind.frame])
      ∧ s1.pendingCodec_.lookup s.requestId = some ⟨s.heapNext, c⟩
      ∧ s1.outstanding = s.outstanding ++ [(s.requestId, RequestKind.frame)]
      ∧ (cancel s1 c).1.pendingCodec_.lookup s.requestId = none
      ∧ (cancel s1 c).2.filter (fun e => isInvoke (Thread.uiRunner, e)) = []
      ∧ step (cancel s1 c).1 (Action.answer s.outstanding.length image (some release))
          = some ({ (cancel s1 c).1 with outstanding := s.outstanding },
                  [(Thread.provider, Event.releaseImage release image)]) := by
  obtain ⟨k, hk, hget⟩ : ∃ k : Codec, k.status_ = Status.New
      ∧ getNextFrame s c callback = some (getNextFrameEnqueue s c k callback) := by
    rcases hissue with h | ⟨h1, h2, h3⟩
    · exact ⟨s.codecs c, h, by simp [getNextFrame, hcl, hnc, h]⟩
    · exact ⟨{ s.codecs c with status_ := Status.New }, rfl,
        by simp [getNextFrame, hcl, hnc, h1, h2, h3]⟩
  have hE : getNextFrameEnqueue s c k callback
      = ((getNextFrameEnqueue s c k callback).1,
         [Event.newRef s.heapNext, Event.request s.requestId RequestKind.frame]) := by
    simp [getNextFrameEnqueue, hk, issueRequest, nextRequestId]
  have hreq : ((getNextFrameEnqueue s c k callback).1.codecs c).requestId_ = s.requestId := by
    simp [getNextFrameEnqueue, hk, issueRequest, nextRequestId]
  have hout : (getNextFrameEnqueue s c k callback).1.outstanding
      = s.outstanding ++ [(s.requestId, RequestKind.frame)] := by
    simp [getNextFrameEnqueue, hk, issueRequest, nextRequestId]
  have hreg : (getNextFrameEnqueue s c k callback).1.pendingCodec_.lookup s.requestId
      = some ⟨s.heapNext, c⟩ := by
    simp [getNextFrameEnqueue, hk, issueRequest, nextRequestId, retainCodec, List.lookup]
  rw [hE] at hget
  generalize (getNextFrameEnqueue s c k callback).1 = s1 at hget hreq hout hreg
  have hl : (cancel s1 c).1.pendingCodec_.lookup s.requestId = none := by
    simp only [cancel, System.setCodec, hreq]
    exact retrieveCodec_fst_lookup _ _
  have ho : (cancel s1 c).1.outstanding = s.outstanding ++ [(s.requestId, RequestKind.frame)] := by
    simp [cancel, System.setCodec, hout]
  refine ⟨s1, hget, hreg, hout, hl, ?_, ?_⟩
  · simp only [cancel, releasePlatformImage]
    cases (retrieveCodec s1.pendingCodec_ (s1.codecs c).requestId_).2 <;>
      cases (s1.codecs c).releasePlatformImageCallback_ <;>
      by_cases hh : (s1.codecs c).platformImage_.handle = 0 <;>
      by_cases hd : (s1.codecs c).status_ = Status.Downloading <;>
      simp [hh, hd, isInvoke]
  · simp [step, ho, runCallback, onFrameFetched, retrieveCodec, hl, onThread, callRelease,
      eraseIdx_append_singleton]

/-- Witness of `cancel_wins_race`: scenario S3, the late image has handle 7. -/
theorem cancel_wins_race_witness :
    ∃ s1, getNextFrame fresh0 0 (closure 1)
        = some (s1, [Event.newRef 0, Event.request 0 RequestKind.frame])
      ∧ s1.pendingCodec_.lookup 0 = some ⟨0, 0⟩
      ∧ s1.outstanding = [(0, RequestKind.frame)]
      ∧ (cancel s1 0).1.pendingCodec_.lookup 0 = none
      ∧ (cancel s1 0).2.filter (fun e => isInvoke (Thread.uiRunner, e)) = []
      ∧ step (cancel s1 0).1 (Action.answer 0 image7 (some 70))
          = some ({ (cancel s1 0).1 with outstanding := [] },
                  [(Thread.provider, Event.releaseImage 70 image7)]) :=
  cancel_wins_race fresh0 0 (closure 1) image7 70 rfl (by rfl) (Or.inl (by rfl))

/-! ## C7 -/

theorem silent_nil (c cb) : Silent c cb [] := by simp [Silent]

theorem silent_cons (c cb e evs) : Silent c cb (e :: evs) ↔ e.invokes c cb = false ∧ Silent c cb evs := by
  simp [Silent]

theorem silent_append (c cb evs evs2) : Silent c cb (evs ++ evs2) ↔ Silent c cb evs ∧ Silent c cb evs2 := by
  simp [Silent, or_imp, forall_and]

theorem silent_invokeFrames (c cb d q f) (h : d = c → q = []) : Silent c cb (invokeFrames d q f) := by
  by_cases hd : d = c
  · simp [Silent, invokeFrames, h hd]
  · simp [Silent, invokeFrames, Event.invokes, hd]

theorem silent_invokeInfos (c cb d q f) (h : d = c → q = []) : Silent c cb (invokeInfos d q f) := by
  by_cases hd : d = c
  · simp [Silent, invokeInfos, h hd]
  · simp [Silent, invokeInfos, Event.invokes, hd]

theorem silent_callRelease (c cb r i) : Silent c cb (callRelease r i) := by
  cases r <;> simp [Silent, callRelease, Event.invokes]

theorem silent_callReleaseBitmap (c cb r i) : Silent c cb (callReleaseBitmap r i) := by
  cases r <;> simp [Silent, callReleaseBitmap, Event.invokes]

theorem silent_releasePlatformImage (c cb k) : Silent c cb (releasePlatformImage k).2 := by
  simp only [releasePlatformImage]
  split
  · split <;> simp [Silent, Event.invokes]
  · simp [Silent]

theorem quietCodec_releasePlatformImage (k : Codec) (h : QuietCodec k) :
    QuietCodec (releasePlatformImage k).1 := by
  simpa [QuietCodec, releasePlatformImage] using h

theorem quiet_setCodec (c d : CodecId) (s : System) (k : Codec) (hq : Quiet c s)
    (hk : d = c → QuietCodec k) : Quiet c (s.setCodec d k) := by
  by_cases hd : d = c
  · subst hd
    simpa [Quiet, System.setCodec] using hk rfl
  · simpa [Quiet, System.setCodec, Function.update_noteq (Ne.symm hd)] using hq

theorem quiet_post (c : CodecId) (s : System) (t : Task) : Quiet c (s.post t) ↔ Quiet c s :=
  Iff.rfl

theorem good_mk (c cb : Nat) (s : System) (evs : List Event) (h1 : Quiet c s)
    (h2 : Silent c cb evs) : Good c cb (s, evs) := ⟨h1, h2⟩

theorem goodOpt_some (c cb : Nat) (s : System) (evs : List Event) (h1 : Quiet c s)
    (h2 : Silent c cb evs) : GoodOpt c cb (some (s, evs)) := by
  intro x hx
  cases hx
  exact ⟨h1, h2⟩

theorem goodOpt_none (c cb : Nat) : GoodOpt c cb none := by
  intro x hx
  cases hx

theorem good_failClosure (c cb : Nat) (s : System) ref env (hq : Quiet c s) :
    Good c cb (failClosure s ref env) := by
  have hF : ∀ d f, Silent c cb (invokeFrames d (s.codecs d).getFrameCallbacks_ f) :=
    fun d f => silent_invokeFrames _ _ _ _ _ (fun h => by subst h; exact hq.2.1)
  have hI : ∀ d f, Silent c cb (invokeInfos d (s.codecs d).getInfoCallbacks_ f) :=
    fun d f => silent_invokeInfos _ _ _ _ _ (fun h => by subst h; exact hq.2.2)
  unfold failClosure
  try dsimp only
  repeat' split
  all_goals refine good_mk _ _ _ _ (quiet_setCodec _ _ _ _ hq (fun h => ?_)) ?_
  all_goals first
    | (subst h; obtain ⟨h1, h2, h3⟩ := hq
       simp_all [QuietCodec, releasePlatformImage, assignPlatformImage])
    | simp [silent_append, silent_cons, silent_nil, Event.invokes, hF, hI, silent_callRelease,
        silent_callReleaseBitmap, silent_releasePlatformImage]

theorem good_runCompleteSingle (c cb : Nat) (s : System) ref tex env (hq : Quiet c s) :
    Good c cb (runCompleteSingle s ref tex env) := by
  have hF : ∀ d f, Silent c cb (invokeFrames d (s.codecs d).getFrameCallbacks_ f) :=
    fun d f => silent_invokeFrames _ _ _ _ _ (fun h => by subst h; exact hq.2.1)
  have hI : ∀ d f, Silent c cb (invokeInfos d (s.codecs d).getInfoCallbacks_ f) :=
    fun d f => silent_invokeInfos _ _ _ _ _ (fun h => by subst h; exact hq.2.2)
  unfold runCompleteSingle
  try dsimp only
  repeat' split
  all_goals first
    | refine good_mk _ _ _ _ (quiet_setCodec _ _ _ _ hq (fun h => ?_)) ?_
    | refine good_mk _ _ _ _ hq ?_
  all_goals first
    | (subst h; obtain ⟨h1, h2, h3⟩ := hq
       simp_all [QuietCodec, releasePlatformImage, assignPlatformImage])
    | simp [silent_append, silent_cons, silent_nil, Event.invokes, hF, hI, silent_callRelease,
        silent_callReleaseBitmap, silent_releasePlatformImage]

theorem good_runDropRef (c cb : Nat) (s : System) ref (hq : Quiet c s) :
    Good c cb (runDropRef s ref) := by
  have hF : ∀ d f, Silent c cb (invokeFrames d (s.codecs d).getFrameCallbacks_ f) :=
    fun d f => silent_invokeFrames _ _ _ _ _ (fun h => by subst h; exact hq.2.1)
  have hI : ∀ d f, Silent c cb (invokeInfos d (s.codecs d).getInfoCallbacks_ f) :=
    fun d f => silent_invokeInfos _ _ _ _ _ (fun h => by subst h; exact hq.2.2)
  unfold runDropRef
  try dsimp only
  all_goals refine good_mk _ _ _ _ hq ?_
  all_goals simp [silent_append, silent_cons, silent_nil, Event.invokes, silent_callRelease,
    silent_callReleaseBitmap]

theorem good_runDecodeSingle (c cb : Nat) (s : System) ref cost env (hq : Quiet c s) :
    Good c cb (runDecodeSingle s ref cost env) := by
  have hF : ∀ d f, Silent c cb (invokeFrames d (s.codecs d).getFrameCallbacks_ f) :=
    fun d f => silent_invokeFrames _ _ _ _ _ (fun h => by subst h; exact hq.2.1)
  have hI : ∀ d f, Silent c cb (invokeInfos d (s.codecs d).getInfoCallbacks_ f) :=
    fun d f => silent_invokeInfos _ _ _ _ _ (fun h => by subst h; exact hq.2.2)
  unfold runDecodeSingle
  try dsimp only
  repeat' split
  all_goals first
    | refine good_mk _ _ _ _ (quiet_setCodec _ _ _ _ hq (fun h => ?_)) ?_
    | refine good_mk _ _ _ _ hq ?_
  all_goals first
    | (subst h; obtain ⟨h1, h2, h3⟩ := hq
       simp_all [QuietCodec, releasePlatformImage, assignPlatformImage])
    | simp [silent_append, silent_cons, silent_nil, Event.invokes, hF, hI, silent_callRelease,
        silent_callReleaseBitmap, silent_releasePlatformImage]

theorem good_runUploadSingle (c cb : Nat) (s : System) ref cost bitmap rb env (hq : Quiet c s) :
    Good c cb (runUploadSingle s ref cost bitmap rb env) := by
  have hF : ∀ d f, Silent c cb (invokeFrames d (s.codecs d).getFrameCallbacks_ f) :=
    fun d f => silent_invokeFrames _ _ _ _ _ (fun h => by subst h; exact hq.2.1)
  have hI : ∀ d f, Silent c cb (invokeInfos d (s.codecs d).getInfoCallbacks_ f) :=
    fun d f => silent_invokeInfos _ _ _ _ _ (fun h => by subst h; exact hq.2.2)
  unfold runUploadSingle
  try dsimp only
  repeat' split
  all_goals first
    | refine good_mk _ _ _ _ (quiet_setCodec _ _ _ _ hq (fun h => ?_)) ?_
    | refine good_mk _ _ _ _ hq ?_
  all_goals first
    | (subst h; obtain ⟨h1, h2, h3⟩ := hq
       simp_all [QuietCodec, releasePlatformImage, assignPlatformImage])
    | simp [silent_append, silent_cons, silent_nil, Event.invokes, hF, hI, silent_callRelease,
        silent_callReleaseBitmap, silent_releasePlatformImage]

theorem good_runDecodeMulti (c cb : Nat) (s : System) ref cost idx env (hq : Quiet c s) :
    Good c cb (runDecodeMulti s ref cost idx env) := by
  have hF : ∀ d f, Silent c cb (invokeFrames d (s.codecs d).getFrameCallbacks_ f) :=
    fun d f => silent_invokeFrames _ _ _ _ _ (fun h => by subst h; exact hq.2.1)
  have hI : ∀ d f, Silent c cb (invokeInfos d (s.codecs d).getInfoCallbacks_ f) :=
    fun d f => silent_invokeInfos _ _ _ _ _ (fun h => by subst h; exact hq.2.2)
  unfold runDecodeMulti
  try dsimp only
  repeat' split
  all_goals first
    | refine good_mk _ _ _ _ (quiet_setCodec _ _ _ _ hq (fun h => ?_)) ?_
    | refine good_mk _ _ _ _ hq ?_
  all_goals first
    | (subst h; obtain ⟨h1, h2, h3⟩ := hq
       simp_all [QuietCodec, releasePlatformImage, assignPlatformImage])
    | simp [silent_append, silent_cons, silent_nil, Event.invokes, hF, hI, silent_callRelease,
        silent_callReleaseBitmap, silent_releasePlatformImage]

theorem good_runUploadMulti (c cb : Nat) (s : System) ref cost bitmap rb env (hq : Quiet c s) :
    Good c cb (runUploadMulti s ref cost bitmap rb env) := by
  have hF : ∀ d f, Silent c cb (invokeFrames d (s.codecs d).getFrameCallbacks_ f) :=
    fun d f => silent_invokeFrames _ _ _ _ _ (fun h => by subst h; exact hq.2.1)
  have hI : ∀ d f, Silent c cb (invokeInfos d (s.codecs d).getInfoCallbacks_ f) :=
    fun d f => silent_invokeInfos _ _ _ _ _ (fun h => by subst h; exact hq.2.2)
  unfold runUploadMulti
  try dsimp only
  repeat' split
  all_goals refine good_mk _ _ _ _ hq ?_
  all_goals simp [silent_append, silent_cons, silent_nil, Event.invokes, silent_callRelease,
    silent_callReleaseBitmap]

theorem good_runInfoFlush (c cb : Nat) (s : System) ref image release env (hq : Quiet c s) :
    Good c cb (runInfoFlush s ref image release env) := by
  have hF : ∀ d f, Silent c cb (invokeFrames d (s.codecs d).getFrameCallbacks_ f) :=
    fun d f => silent_invokeFrames _ _ _ _ _ (fun h => by subst h; exact hq.2.1)
  have hI : ∀ d f, Silent c cb (invokeInfos d (s.codecs d).getInfoCallbacks_ f) :=
    fun d f => silent_invokeInfos _ _ _ _ _ (fun h => by subst h; exact hq.2.2)
  unfold runInfoFlush
  try dsimp only
  repeat' split
  all_goals refine good_mk _ _ _ _ (quiet_setCodec _ _ _ _ hq (fun h => ?_)) ?_
  all_goals first
    | (subst h; obtain ⟨h1, h2, h3⟩ := hq
       simp_all [QuietCodec, releasePlatformImage, assignPlatformImage])
    | simp [silent_append, silent_cons, silent_nil, Event.invokes, hF, hI, silent_callRelease,
        silent_callReleaseBitmap, silent_releasePlatformImage]

theorem good_onInfoFetched (c cb : Nat) (s : System) rid image release (hq : Quiet c s) :
    Good c cb (onInfoFetched s rid image release) := by
  have hF : ∀ d f, Silent c cb (invokeFrames d (s.codecs d).getFrameCallbacks_ f) :=
    fun d f => silent_invokeFrames _ _ _ _ _ (fun h => by subst h; exact hq.2.1)
  have hI : ∀ d f, Silent c cb (invokeInfos d (s.codecs d).getInfoCallbacks_ f) :=
    fun d f => silent_invokeInfos _ _ _ _ _ (fun h => by subst h; exact hq.2.2)
  unfold onInfoFetched
  try dsimp only
  repeat' split
  all_goals refine good_mk _ _ _ _ hq ?_
  all_goals simp [silent_append, silent_cons, silent_nil, Event.invokes, silent_callRelease,
    silent_callReleaseBitmap]

theorem good_onFrameFetched (c cb : Nat) (s : System) rid image release (hq : Quiet c s) :
    Good c cb (onFrameFetched s rid image release) := by
  have hF : ∀ d f, Silent c cb (invokeFrames d (s.codecs d).getFrameCallbacks_ f) :=
    fun d f => silent_invokeFrames _ _ _ _ _ (fun h => by subst h; exact hq.2.1)
  have hI : ∀ d f, Silent c cb (invokeInfos d (s.codecs d).getInfoCallbacks_ f) :=
    fun d f => silent_invokeInfos _ _ _ _ _ (fun h => by subst h; exact hq.2.2)
  unfold onFrameFetched
  try dsimp only
  repeat' split
  all_goals first
    | refine good_mk _ _ _ _ (quiet_setCodec _ _ _ _ hq (fun h => ?_)) ?_
    | refine good_mk _ _ _ _ hq ?_
  all_goals first
    | (subst h; obtain ⟨h1, h2, h3⟩ := hq
       simp_all [QuietCodec, releasePlatformImage, assignPlatformImage])
    | simp [silent_append, silent_cons, silent_nil, Event.invokes, hF, hI, silent_callRelease,
        silent_callReleaseBitmap, silent_releasePlatformImage]

theorem good_cancel (c cb : Nat) (s : System) d (hq : Quiet c s) :
    Good c cb (cancel s d) := by
  have hF : ∀ d f, Silent c cb (invokeFrames d (s.codecs d).getFrameCallbacks_ f) :=
    fun d f => silent_invokeFrames _ _ _ _ _ (fun h => by subst h; exact hq.2.1)
  have hI : ∀ d f, Silent c cb (invokeInfos d (s.codecs d).getInfoCallbacks_ f) :=
    fun d f => silent_invokeInfos _ _ _ _ _ (fun h => by subst h; exact hq.2.2)
  unfold cancel
  try dsimp only
  repeat' split
  all_goals refine good_mk _ _ _ _ (quiet_setCodec _ _ _ _ hq (fun h => ?_)) ?_
  all_goals first
    | (subst h; obtain ⟨h1, h2, h3⟩ := hq
       simp_all [QuietCodec, releasePlatformImage, assignPlatformImage])
    | simp [silent_append, silent_cons, silent_nil, Event.invokes, hF, hI, silent_callRelease,
        silent_callReleaseBitmap, silent_releasePlatformImage]

theorem good_runCompleteMulti (c cb : Nat) (s : System) ref tex env (hq : Quiet c s) :
    GoodOpt c cb (runCompleteMulti s ref tex env) := by
  have hF : ∀ d f, Silent c cb (invokeFrames d (s.codecs d).getFrameCallbacks_ f) :=
    fun d f => silent_invokeFrames _ _ _ _ _ (fun h => by subst h; exact hq.2.1)
  have hI : ∀ d f, Silent c cb (invokeInfos d (s.codecs d).getInfoCallbacks_ f) :=
    fun d f => silent_invokeInfos _ _ _ _ _ (fun h => by subst h; exact hq.2.2)
  unfold runCompleteMulti
  try dsimp only
  repeat' split
  all_goals first
    | exact goodOpt_none _ _
    | refine goodOpt_some _ _ _ _ (quiet_setCodec _ _ _ _ hq (fun h => ?_)) ?_
    | refine goodOpt_some _ _ _ _ hq ?_
  all_goals first
    | (subst h; obtain ⟨h1, h2, h3⟩ := hq
       simp_all [QuietCodec, releasePlatformImage, assignPlatformImage])
    | simp [silent_append, silent_cons, silent_nil, Event.invokes, hF, hI, silent_callRelease,
        silent_callReleaseBitmap, silent_releasePlatformImage]

theorem good_getNextMultiframe (c cb : Nat) (s : System) d callback (hq : Quiet c s) :
    GoodOpt c cb (getNextMultiframe s d callback) := by
  have hF : ∀ d f, Silent c cb (invokeFrames d (s.codecs d).getFrameCallbacks_ f) :=
    fun d f => silent_invokeFrames _ _ _ _ _ (fun h => by subst h; exact hq.2.1)
  have hI : ∀ d f, Silent c cb (invokeInfos d (s.codecs d).getInfoCallbacks_ f) :=
    fun d f => silent_invokeInfos _ _ _ _ _ (fun h => by subst h; exact hq.2.2)
  unfold getNextMultiframe
  try dsimp only
  repeat' split
  all_goals first
    | exact goodOpt_none _ _
    | refine goodOpt_some _ _ _ _ (quiet_setCodec _ _ _ _ hq (fun h => ?_)) ?_
    | refine goodOpt_some _ _ _ _ hq ?_
  all_goals first
    | (subst h; obtain ⟨h1, h2, h3⟩ := hq
       simp_all [QuietCodec, releasePlatformImage, assignPlatformImage])
    | simp [silent_append, silent_cons, silent_nil, Event.invokes, hF, hI, silent_callRelease,
        silent_callReleaseBitmap, silent_releasePlatformImage]

theorem good_getNextFrameEnqueue (c cb : Nat) (s : System) (d : CodecId) (k : Codec)
    (callback : DartHandle) (hq : Quiet c s) (hd : d ≠ c) :
    Good c cb (getNextFrameEnqueue s d k callback) := by
  unfold getNextFrameEnqueue issueRequest
  dsimp only
  split
  · exact good_mk _ _ _ _ (quiet_setCodec _ _ _ _ hq (fun h => absurd h hd))
      (silent_nil _ _)
  · refine good_mk _ _ _ _ ?_ ?_
    · simpa [Quiet, Function.update_noteq (Ne.symm hd)] using hq
    · simp [silent_cons, silent_nil, Event.invokes]

theorem good_getNextFrame (c cb : Nat) (s : System) (d : CodecId) (callback : DartHandle)
    (hq : Quiet c s) (hh : (Action.getNextFrame d callback).hands c cb = false) :
    GoodOpt c cb (getNextFrame s d callback) := by
  have hh2 : d = c → ¬ callback.id = cb := by simpa [Action.hands] using hh
  by_cases hd : d = c
  · subst hd
    obtain ⟨h1, h2, h3⟩ := hq
    unfold getNextFrame
    dsimp only
    split
    · exact goodOpt_some _ _ _ _ ⟨h1, h2, h3⟩ (by simp [silent_cons, silent_nil, Event.invokes])
    · exact goodOpt_some _ _ _ _ ⟨h1, h2, h3⟩
        (by simp [silent_cons, silent_nil, Event.invokes, hh2 rfl])
  · unfold getNextFrame
    dsimp only
    repeat' split
    all_goals first
      | exact good_getNextMultiframe _ _ _ _ _ hq
      | exact fun x hx => by cases hx; exact good_getNextFrameEnqueue _ _ _ _ _ _ hq hd
      | exact goodOpt_some _ _ _ _ hq (by simp [silent_cons, silent_nil, Event.invokes, hd])

theorem good_getImageInfo (c cb : Nat) (s : System) (d : CodecId) (callback : DartHandle)
    (hq : Quiet c s) (hh : (Action.getImageInfo d callback).hands c cb = false) :
    Good c cb (getImageInfo s d callback) := by
  have hh2 : d = c → ¬ callback.id = cb := by simpa [Action.hands] using hh
  by_cases hd : d = c
  · subst hd
    obtain ⟨h1, h2, h3⟩ := hq
    unfold getImageInfo
    dsimp only
    split
    · exact good_mk _ _ _ _ ⟨h1, h2, h3⟩ (by simp [silent_cons, silent_nil, Event.invokes])
    · exact good_mk _ _ _ _ ⟨h1, h2, h3⟩
        (by simp [silent_cons, silent_nil, Event.invokes, hh2 rfl])
  · unfold getImageInfo issueRequest
    dsimp only
    repeat' split
    all_goals first
      | exact good_mk _ _ _ _ hq (by simp [silent_cons, silent_nil, Event.invokes, hd])
      | exact good_mk _ _ _ _ (quiet_setCodec _ _ _ _ hq (fun h => absurd h hd)) (silent_nil _ _)
      | (refine good_mk _ _ _ _ ?_ ?_
         · simpa [Quiet, Function.update_noteq (Ne.symm hd)] using hq
         · simp [silent_cons, silent_nil, Event.invokes])

theorem good_runGifKickoff (c cb : Nat) (s : System) (ref : CodecRef) (hq : Quiet c s) :
    GoodOpt c cb (runGifKickoff s ref) := by
  unfold runGifKickoff
  have h := good_getNextMultiframe c cb s ref.codec none hq
  split
  · rename_i s1 evs heq
    obtain ⟨g1, g2⟩ := h _ heq
    exact goodOpt_some _ _ _ _ g1
      (by simp [silent_append, silent_cons, silent_nil, Event.invokes]; exact g2)
  · exact goodOpt_none _ _

theorem good_runTask (c cb : Nat) (s : System) (t : Task) (env : Env) (hq : Quiet c s) :
    GoodOpt c cb (runTask s t env) := by
  cases t <;> unfold runTask <;> dsimp only
  case gifKickoff ref => exact good_runGifKickoff _ _ _ _ hq
  case completeMulti ref tex => exact good_runCompleteMulti _ _ _ _ _ _ hq
  all_goals intro x hx; cases hx
  · exact good_runDropRef _ _ _ _ hq
  · exact good_failClosure _ _ _ _ _ hq
  · exact good_runDecodeSingle _ _ _ _ _ _ hq
  · exact good_runUploadSingle _ _ _ _ _ _ _ _ hq
  · exact good_runCompleteSingle _ _ _ _ _ _ hq
  · exact good_runDecodeMulti _ _ _ _ _ _ _ hq
  · exact good_runUploadMulti _ _ _ _ _ _ _ _ hq
  · exact good_runInfoFlush _ _ _ _ _ _ _ hq

theorem good_step (c cb : Nat) (s s1 : System) (a : Action) (evs : List (Thread × Event))
    (hq : Quiet c s) (hh : a.hands c cb = false) (hs : step s a = some (s1, evs)) :
    Quiet c s1 ∧ ∀ e ∈ evs, e.2.invokes c cb = false := by
  have key : ∀ (t : Thread) (r : Option (System × List Event)), GoodOpt c cb r →
      r.map (onThread t) = some (s1, evs) → Quiet c s1 ∧ ∀ e ∈ evs, e.2.invokes c cb = false := by
    intro t r hr hm
    cases r with
    | none => cases hm
    | some x =>
      obtain ⟨g1, g2⟩ := hr x rfl
      simp only [Option.map, onThread, Option.some.injEq, Prod.mk.injEq] at hm
      obtain ⟨hm1, hm2⟩ := hm
      subst hm1 hm2
      refine ⟨g1, ?_⟩
      intro e he
      simp only [List.mem_map] at he
      obtain ⟨e0, he0, rfl⟩ := he
      exact g2 e0 he0
  cases a with
  | getNextFrame d callback => exact key _ _ (good_getNextFrame c cb s d callback hq hh) hs
  | getImageInfo d callback =>
    exact key Thread.uiRunner (some (getImageInfo s d callback))
      (fun x hx => by cases hx; exact good_getImageInfo c cb s d callback hq hh) hs
  | cancel d =>
    exact key Thread.uiRunner (some (cancel s d))
      (fun x hx => by cases hx; exact good_cancel c cb s d hq) hs
  | answer i image release =>
    simp only [step] at hs
    split at hs
    · rename_i rid kind heq
      refine key Thread.provider (some _) (fun x hx => ?_) hs
      cases hx
      cases kind
      · exact good_onFrameFetched c cb _ rid image release hq
      · exact good_onInfoFetched c cb _ rid image release hq
    · cases hs
      exact ⟨hq, by simp⟩
  | run i env =>
    simp only [step] at hs
    split at hs
    · rename_i t heq
      exact key t.thread _
        (good_runTask c cb { s with tasks := s.tasks.eraseIdx i } t env hq) hs
    · cases hs
      exact ⟨hq, by simp⟩

theorem quiet_run (c : CodecId) (cb : Nat) (acts : List Action) :
    ∀ (s1 s2 : System) (evs : List (Thread × Event)), Quiet c s1 →
      (∀ a ∈ acts, a.hands c cb = false) → runActions s1 acts = some (s2, evs) →
      Quiet c s2 ∧ ∀ e ∈ evs, e.2.invokes c cb = false := by
  induction acts with
  | nil =>
    intro s1 s2 evs hq _ hrun
    simp only [runActions, Option.some.injEq, Prod.mk.injEq] at hrun
    obtain ⟨h1, h2⟩ := hrun
    subst h1 h2
    exact ⟨hq, by simp⟩
  | cons a rest ih =>
    intro s1 s2 evs hq hacts hrun
    simp only [runActions] at hrun
    split at hrun
    · cases hrun
    · rename_i sA evA hA
      split at hrun
      · cases hrun
      · rename_i sB evB hB
        simp only [Option.some.injEq, Prod.mk.injEq] at hrun
        obtain ⟨h1, h2⟩ := hrun
        subst h1 h2
        obtain ⟨g1, g2⟩ := good_step c cb s1 sA a evA hq (hacts a (List.mem_cons_self _ _)) hA
        obtain ⟨g3, g4⟩ := ih sA sB evB g1 (fun x hx => hacts x (List.mem_cons_of_mem _ hx)) hB
        refine ⟨g3, ?_⟩
        intro e he
        rcases List.mem_append.1 he with h | h
        · exact g2 e h
        · exact g4 e h

/-- C8.  After `cancel` on codec `c`, whatever happens next (request callbacks arriving,
posted closures running with whatever the surroundings decide, further calls of the
binding layer, in any order and on any codec) no step invokes a closure `cb` as a callback
of `c`, unless the binding layer itself hands `cb` to `c` again in a later `getNextFrame`
or `getImageInfo` call.  In particular no callback that was queued when `cancel` was
called is invoked by the fetch completion or by any closure of the pipeline. -/
theorem canceled_never_delivers (s : System) (c : CodecId) (cb : Nat) (acts : List Action)
    (s2 : System) (evs : List (Thread × Event))
    (hacts : ∀ a ∈ acts, a.hands c cb = false)
    (hrun : runActions (cancel s c).1 acts = some (s2, evs)) :
    ∀ e ∈ evs, e.2.invokes c cb = false := by
  have hq0 : Quiet c (cancel s c).1 := by
    simp [Quiet, QuietCodec, cancel, System.setCodec, releasePlatformImage]
  exact (quiet_run c cb acts _ s2 evs hq0 hacts hrun).2

/-- Witness of `canceled_never_delivers`: codec 0 has closure 1 queued for a frame and
closure 2 for the image info when it is canceled; then both requests are answered. -/
theorem canceled_never_delivers_witness :
    (∀ a ∈ lateAnswers, a.hands 0 1 = false)
    ∧ ∃ s2 evs, runActions (cancel twoRequestsSystem 0).1 lateAnswers = some (s2, evs)
        ∧ evs.length = 3 ∧ ∀ e ∈ evs, e.2.invokes 0 1 = false :=
  ⟨by decide, _, _, rfl, rfl,
   canceled_never_delivers twoRequestsSystem 0 1 lateAnswers _ _ (by decide) rfl⟩

/-! ## C9 -/

theorem count_invokeFrames (e : Event) (c q f) (h : ∀ x, e ≠ Event.invokeFrame c x f) :
    (invokeFrames c q f).count e = 0 := by
  simp only [List.count_eq_zero, invokeFrames, List.mem_map, not_exists, not_and]
  intro x _ hx
  exact h x hx.symm

theorem count_invokeInfos (e : Event) (c q f) (h : ∀ x, e ≠ Event.invokeInfo c x f) :
    (invokeInfos c q f).count e = 0 := by
  simp only [List.count_eq_zero, invokeInfos, List.mem_map, not_exists, not_and]
  intro x _ hx
  exact h x hx.symm

theorem count_callRelease (e : Event) (r i) (h : ∀ x y, e ≠ Event.releaseImage x y) :
    (callRelease r i).count e = 0 := by
  cases r with
  | none => simp [callRelease]
  | some x => simp [callRelease, List.count_cons, Ne.symm (h x i)]

theorem count_callReleaseBitmap (e : Event) (r i) (h : ∀ x y, e ≠ Event.releaseBitmap x y) :
    (callReleaseBitmap r i).count e = 0 := by
  cases r with
  | none => simp [callReleaseBitmap]
  | some x => simp [callReleaseBitmap, List.count_cons, Ne.symm (h x i)]

theorem count_releasePlatformImage (e : Event) (k) (h : ∀ x y, e ≠ Event.releaseImage x y) :
    (releasePlatformImage k).2.count e = 0 := by
  simp only [releasePlatformImage]
  split
  · split
    · rename_i r hr
      simp [List.count_cons, Ne.symm (h r k.platformImage_)]
    · simp
  · simp

@[simp] theorem ref_dropRef (r : CodecRef) : (Task.dropRef r).ref = r := rfl

@[simp] theorem ref_failClosure (r : CodecRef) : (Task.failClosure r).ref = r := rfl

@[simp] theorem ref_gifKickoff (r : CodecRef) : (Task.gifKickoff r).ref = r := rfl

@[simp] theorem ref_decodeSingle (r : CodecRef) (x) : (Task.decodeSingle r x).ref = r := rfl

@[simp] theorem ref_uploadSingle (r : CodecRef) (x y z) :
    (Task.uploadSingle r x y z).ref = r := rfl

@[simp] theorem ref_completeSingle (r : CodecRef) (x) : (Task.completeSingle r x).ref = r := rfl

@[simp] theorem ref_decodeMulti (r : CodecRef) (x y) : (Task.decodeMulti r x y).ref = r := rfl

@[simp] theorem ref_uploadMulti (r : CodecRef) (x y z) :
    (Task.uploadMulti r x y z).ref = r := rfl

@[simp] theorem ref_completeMulti (r : CodecRef) (x) : (Task.completeMulti r x).ref = r := rfl

@[simp] theorem ref_infoFlush (r : CodecRef) (x y) : (Task.infoFlush r x y).ref = r := rfl

theorem conserves_of_same (s : System) (own : Nat → Nat) (r : System × List Event)
    (hl : ∀ p, heldBy p r.1 + deletions p r.2 = heldBy p s + own p + creations p r.2)
    (ha : (r.1.heapNext = s.heapNext ∧ ∀ p, creations p r.2 = 0)
       ∨ (r.1.heapNext = s.heapNext + 1
          ∧ ∀ p, creations p r.2 = if p = s.heapNext then 1 else 0))
    (hr : r.1.pendingCodec_ = s.pendingCodec_) (hi : r.1.requestId = s.requestId) :
    Conserves s own r := by
  intro hok _
  refine ⟨hl, ha, ?_, by rw [hi]; exact Nat.le_succ _⟩
  unfold RegOk at hok ⊢
  rw [hr, hi]
  exact hok

theorem conserves_failClosure (s : System) ref env :
    Conserves s (ownOf ref) (failClosure s ref env) := by
  refine conserves_of_same _ _ _ (fun p => ?_) (Or.inl ⟨?_, fun p => ?_⟩) ?_ ?_
  all_goals unfold failClosure
  all_goals try dsimp only
  all_goals repeat' split
  all_goals simp [*, ownOf, heldBy, deletions, creations, System.setCodec, System.post,
    List.count_cons, count_invokeFrames, count_invokeInfos, count_releasePlatformImage,
    count_callRelease, count_callReleaseBitmap]

theorem conserves_runCompleteSingle (s : System) ref tex env :
    Conserves s (ownOf ref) (runCompleteSingle s ref tex env) := by
  refine conserves_of_same _ _ _ (fun p => ?_) (Or.inl ⟨?_, fun p => ?_⟩) ?_ ?_
  all_goals unfold runCompleteSingle
  all_goals try dsimp only
  all_goals repeat' split
  all_goals simp [*, ownOf, heldBy, deletions, creations, System.setCodec, System.post,
    List.count_cons, count_invokeFrames, count_invokeInfos, count_releasePlatformImage,
    count_callRelease, count_callReleaseBitmap]

theorem conserves_runDropRef (s : System) ref :
    Conserves s (ownOf ref) (runDropRef s ref) := by
  refine conserves_of_same _ _ _ (fun p => ?_) (Or.inl ⟨?_, fun p => ?_⟩) ?_ ?_
  all_goals unfold runDropRef
  all_goals try dsimp only
  all_goals simp [*, ownOf, heldBy, deletions, creations, System.setCodec, System.post,
    List.count_cons, count_invokeFrames, count_invokeInfos, count_releasePlatformImage,
    count_callRelease, count_callReleaseBitmap]

theorem conserves_runDecodeSingle (s : System) ref cost env :
    Conserves s (ownOf ref) (runDecodeSingle s ref cost env) := by
  refine conserves_of_same _ _ _ (fun p => ?_) (Or.inl ⟨?_, fun p => ?_⟩) ?_ ?_
  all_goals unfold runDecodeSingle
  all_goals try dsimp only
  all_goals repeat' split
  all_goals simp [*, ownOf, heldBy, deletions, creations, System.setCodec, System.post,
    List.count_cons, count_invokeFrames, count_invokeInfos, count_releasePlatformImage,
    count_callRelease, count_callReleaseBitmap]
  all_goals try omega

theorem conserves_runUploadSingle (s : System) ref cost bitmap rb env :
    Conserves s (ownOf ref) (runUploadSingle s ref cost bitmap rb env) := by
  refine conserves_of_same _ _ _ (fun p => ?_) (Or.inl ⟨?_, fun p => ?_⟩) ?_ ?_
  all_goals unfold runUploadSingle
  all_goals try dsimp only
  all_goals repeat' split
  all_goals simp [*, ownOf, heldBy, deletions, creations, System.setCodec, System.post,
    List.count_cons, count_invokeFrames, count_invokeInfos, count_releasePlatformImage,
    count_callRelease, count_callReleaseBitmap]
  all_goals try omega

theorem conserves_runDecodeMulti (s : System) ref cost idx env :
    Conserves s (ownOf ref) (runDecodeMulti s ref cost idx env) := by
  refine conserves_of_same _ _ _ (fun p => ?_) (Or.inl ⟨?_, fun p => ?_⟩) ?_ ?_
  all_goals unfold runDecodeMulti
  all_goals try dsimp only
  all_goals repeat' split
  all_goals simp [*, ownOf, heldBy, deletions, creations, System.setCodec, System.post,
    List.count_cons, count_invokeFrames, count_invokeInfos, count_releasePlatformImage,
    count_callRelease, count_callReleaseBitmap]
  all_goals try omega

theorem conserves_runUploadMulti (s : System) ref cost bitmap rb env :
    Conserves s (ownOf ref) (runUploadMulti s ref cost bitmap rb env) := by
  refine conserves_of_same _ _ _ (fun p => ?_) (Or.inl ⟨?_, fun p => ?_⟩) ?_ ?_
  all_goals unfold runUploadMulti
  all_goals try dsimp only
  all_goals repeat' split
  all_goals simp [*, ownOf, heldBy, deletions, creations, System.setCodec, System.post,
    List.count_cons, count_invokeFrames, count_invokeInfos, count_releasePlatformImage,
    count_callRelease, count_callReleaseBitmap]
  all_goals try omega

theorem conserves_runInfoFlush (s : System) ref image release env :
    Conserves s (ownOf ref) (runInfoFlush s ref image release env) := by
  refine conserves_of_same _ _ _ (fun p => ?_) (Or.inl ⟨?_, fun p => ?_⟩) ?_ ?_
  all_goals unfold runInfoFlush
  all_goals try dsimp only
  all_goals repeat' split
  all_goals simp [*, ownOf, heldBy, deletions, creations, System.setCodec, System.post,
    List.count_cons, count_invokeFrames, count_invokeInfos, count_releasePlatformImage,
    count_callRelease, count_callReleaseBitmap]

theorem eraseId_of_fresh (m : List (RequestId × CodecRef)) (rid : RequestId)
    (h : ∀ e ∈ m, e.1 < rid) : eraseId m rid = m := by
  unfold eraseId
  rw [List.filter_eq_self]
  intro e he
  have := h e he
  have h2 : e.1 ≠ rid := Nat.ne_of_lt this
  simpa using h2

theorem eraseId_of_not_mem (m : List (RequestId × CodecRef)) (rid : RequestId)
    (h : rid ∉ m.map (fun e => e.1)) : eraseId m rid = m := by
  unfold eraseId
  rw [List.filter_eq_self]
  intro e he
  have h2 : e.1 ≠ rid := fun h3 => h (List.mem_map.2 ⟨e, he, h3⟩)
  simpa using h2

theorem count_eraseId (m : List (RequestId × CodecRef)) (rid : RequestId) (ref : CodecRef)
    (p : Nat) (hn : (m.map (fun e => e.1)).Nodup) (hl : m.lookup rid = some ref) :
    ((eraseId m rid).map (fun e => e.2.ptr)).count p + (if ref.ptr = p then 1 else 0)
      = (m.map (fun e => e.2.ptr)).count p := by
  induction m with
  | nil => cases hl
  | cons e m ih =>
    obtain ⟨a, b⟩ := e
    simp only [List.map_cons, List.nodup_cons] at hn
    by_cases ha : a = rid
    · subst ha
      have hb : b = ref := by simpa [List.lookup] using hl
      subst hb
      have h1 : eraseId ((a, b) :: m) a = m := by
        have h2 := eraseId_of_not_mem m a hn.1
        unfold eraseId at h2 ⊢
        rw [List.filter_cons_of_neg (by simp), h2]
      rw [h1]
      simp only [List.map_cons, List.count_cons, beq_iff_eq]
    · have hr : (rid == a) = false := by
        have : rid ≠ a := fun h => ha h.symm
        simpa using this
      have hl2 : m.lookup rid = some ref := by simpa [List.lookup, hr] using hl
      have h1 : eraseId ((a, b) :: m) rid = (a, b) :: eraseId m rid := by
        unfold eraseId
        rw [List.filter_cons_of_pos (by simpa using ha)]
      rw [h1]
      simp only [List.map_cons, List.count_cons, beq_iff_eq]
      have := ih hn.2 hl2
      omega

theorem regOk_eraseId (s : System) (rid : RequestId) (h : RegOk s) :
    ((eraseId s.pendingCodec_ rid).map (fun e => e.1)).Nodup
      ∧ ∀ e ∈ eraseId s.pendingCodec_ rid, e.1 < s.requestId := by
  refine ⟨?_, ?_⟩
  · exact List.Nodup.sublist (List.Sublist.map _ (List.filter_sublist _)) h.1
  · intro e he
    exact h.2 e (List.mem_of_mem_filter he)

theorem retrieveCodec_cases (m : List (RequestId × CodecRef)) (rid : RequestId) :
    (m.lookup rid = none ∧ retrieveCodec m rid = (m, none))
    ∨ ∃ ref, m.lookup rid = some ref ∧ retrieveCodec m rid = (eraseId m rid, some ref) := by
  unfold retrieveCodec
  cases h : m.lookup rid with
  | none => exact Or.inl ⟨rfl, rfl⟩
  | some ref => exact Or.inr ⟨ref, rfl, rfl⟩

theorem conserves_cancel (s : System) (c : CodecId) :
    Conserves s ownNone (cancel s c) := by
  intro hok _
  rcases retrieveCodec_cases s.pendingCodec_ (s.codecs c).requestId_ with
    ⟨_, h2⟩ | ⟨ref, h1, h2⟩
  · refine ⟨fun p => ?_, Or.inl ⟨?_, fun p => ?_⟩, ?_, ?_⟩
    all_goals simp only [cancel, h2]
    · split <;>
        simp [ownNone, heldBy, deletions, creations, System.setCodec, List.count_cons,
          count_releasePlatformImage]
    · rfl
    · split <;> simp [creations, List.count_cons, count_releasePlatformImage]
    · exact hok
    · exact Nat.le_succ _
  · have hc := count_eraseId s.pendingCodec_ (s.codecs c).requestId_ ref
    refine ⟨fun p => ?_, Or.inl ⟨?_, fun p => ?_⟩, ?_, ?_⟩
    all_goals simp only [cancel, h2]
    · have := hc p hok.1 h1
      split <;>
        simp [ownNone, heldBy, deletions, creations, System.setCodec, List.count_cons,
          count_releasePlatformImage] <;> omega
    · rfl
    · split <;> simp [creations, List.count_cons, count_releasePlatformImage]
    · exact regOk_eraseId s _ hok
    · exact Nat.le_succ _

theorem conserves_onInfoFetched (s : System) (rid image release) :
    Conserves s ownNone (onInfoFetched s rid image release) := by
  intro hok _
  rcases retrieveCodec_cases s.pendingCodec_ rid with ⟨_, h2⟩ | ⟨ref, h1, h2⟩
  · refine ⟨fun p => ?_, Or.inl ⟨?_, fun p => ?_⟩, ?_, ?_⟩
    all_goals simp only [onInfoFetched, h2]
    · simp [ownNone, deletions, creations, count_callRelease]
    · simp [creations, count_callRelease]
    · exact hok
    · exact Nat.le_succ _
  · have hc := count_eraseId s.pendingCodec_ rid ref
    refine ⟨fun p => ?_, Or.inl ⟨?_, fun p => ?_⟩, ?_, ?_⟩
    all_goals simp only [onInfoFetched, h2]
    · have := hc p hok.1 h1
      simp [ownNone, heldBy, deletions, creations, System.post, List.count_cons]
      omega
    · rfl
    · simp [creations]
    · exact regOk_eraseId s _ hok
    · exact Nat.le_succ _

theorem conserves_onFrameFetched (s : System) (rid image release) :
    Conserves s ownNone (onFrameFetched s rid image release) := by
  intro hok _
  rcases retrieveCodec_cases s.pendingCodec_ rid with ⟨_, h2⟩ | ⟨ref, h1, h2⟩
  · refine ⟨fun p => ?_, Or.inl ⟨?_, fun p => ?_⟩, ?_, ?_⟩
    all_goals simp only [onFrameFetched, h2]
    · simp [ownNone, deletions, creations, count_callRelease]
    · simp [creations, count_callRelease]
    · exact hok
    · exact Nat.le_succ _
  · have hc : ∀ p, ((eraseId s.pendingCodec_ rid).map (fun e => e.2.ptr)).count p
          + (if ref.ptr = p then 1 else 0) = (s.pendingCodec_.map (fun e => e.2.ptr)).count p :=
      fun p => count_eraseId s.pendingCodec_ rid ref p hok.1 h1
    refine ⟨fun p => ?_, Or.inl ⟨?_, fun p => ?_⟩, ?_, ?_⟩
    all_goals simp only [onFrameFetched, h2]
    all_goals repeat' split
    all_goals first
      | exact regOk_eraseId s _ hok
      | exact Nat.le_succ _
      | rfl
      | (simp [ownNone, heldBy, deletions, creations, System.post, System.setCodec,
           List.count_cons, count_callRelease]
         try specialize hc p
         try omega)

theorem conserves_issueRequest (s : System) (c : CodecId) (k : Codec) (kind : RequestKind) :
    Conserves s ownNone (issueRequest s c k kind (nextRequestId s.requestId).1) := by
  intro hok hlt
  have he := eraseId_of_fresh s.pendingCodec_ s.requestId hok.2
  have hm : (s.requestId + 1) % 2 ^ 32 = s.requestId + 1 := Nat.mod_eq_of_lt hlt
  refine ⟨fun p => ?_, Or.inr ⟨?_, fun p => ?_⟩, ⟨?_, ?_⟩, ?_⟩
  all_goals simp only [issueRequest, nextRequestId, retainCodec, he, hm]
  · by_cases h : s.heapNext = p
    · subst h
      simp [ownNone, heldBy, deletions, creations, List.count_cons]
      omega
    · have h2 : ¬ p = s.heapNext := fun e => h e.symm
      simp [ownNone, heldBy, deletions, creations, List.count_cons, h, h2]
  · by_cases h : s.heapNext = p
    · subst h
      simp [creations, List.count_cons]
    · have h2 : ¬ p = s.heapNext := fun e => h e.symm
      simp [creations, List.count_cons, h, h2]
  · simp only [List.map_cons, List.nodup_cons]
    refine ⟨?_, hok.1⟩
    intro hmem
    obtain ⟨e, he1, he2⟩ := List.mem_map.1 hmem
    have := hok.2 e he1
    rw [he2] at this
    exact Nat.lt_irrefl _ this
  · intro e hmem
    rcases List.mem_cons.1 hmem with h | h
    · subst h
      exact Nat.lt_succ_self _
    · exact Nat.lt_succ_of_lt (hok.2 e h)
  · exact Nat.le_refl _

theorem conserves_getNextFrameEnqueue (s : System) (c : CodecId) (k : Codec)
    (callback : DartHandle) :
    Conserves s ownNone (getNextFrameEnqueue s c k callback) := by
  unfold getNextFrameEnqueue
  dsimp only
  split
  · refine conserves_of_same _ _ _ (fun p => ?_) (Or.inl ⟨rfl, fun p => ?_⟩) rfl rfl
    · simp [ownNone, heldBy, deletions, creations, System.setCodec]
    · simp [creations]
  · exact conserves_issueRequest s c _ _

theorem conserves_getNextMultiframe (s : System) (c : CodecId) (callback : Option DartHandle) :
    ConservesOpt s ownNone (getNextMultiframe s c callback) := by
  intro x hx
  unfold getNextMultiframe at hx
  dsimp only at hx
  split at hx
  · cases hx
    refine conserves_of_same _ _ _ (fun p => ?_) (Or.inl ⟨rfl, fun p => ?_⟩) rfl rfl
    · simp [ownNone, heldBy, deletions, creations]
    · simp [creations]
  · split at hx
    · cases hx
    · cases hx
      refine conserves_of_same _ _ _ (fun p => ?_) (Or.inr ⟨rfl, fun p => ?_⟩) rfl rfl
      · by_cases h : s.heapNext = p
        · subst h
          simp [ownNone, heldBy, deletions, creations, System.setCodec, System.post,
            List.count_cons]
          omega
        · have h2 : ¬ p = s.heapNext := fun e => h e.symm
          simp [ownNone, heldBy, deletions, creations, System.setCodec, System.post,
            List.count_cons, h, h2]
      · by_cases h : s.heapNext = p
        · subst h
          simp [creations, List.count_cons]
        · have h2 : ¬ p = s.heapNext := fun e => h e.symm
          simp [creations, List.count_cons, h, h2]

theorem conserves_getNextFrame (s : System) (c : CodecId) (callback : DartHandle) :
    ConservesOpt s ownNone (getNextFrame s c callback) := by
  unfold getNextFrame
  dsimp only
  repeat' split
  all_goals first
    | exact conserves_getNextMultiframe s c _
    | exact fun x hx => by cases hx; exact conserves_getNextFrameEnqueue s c _ _
    | (intro x hx
       cases hx
       refine conserves_of_same _ _ _ (fun p => ?_) (Or.inl ⟨rfl, fun p => ?_⟩) rfl rfl
       · simp [ownNone, heldBy, deletions, creations, List.count_cons]
       · simp [creations, List.count_cons])

theorem conserves_getImageInfo (s : System) (c : CodecId) (callback : DartHandle) :
    Conserves s ownNone (getImageInfo s c callback) := by
  unfold getImageInfo
  dsimp only
  repeat' split
  all_goals first
    | exact conserves_issueRequest s c _ _
    | (refine conserves_of_same _ _ _ (fun p => ?_) (Or.inl ⟨rfl, fun p => ?_⟩) rfl rfl
       · simp [ownNone, heldBy, deletions, creations, List.count_cons, System.setCodec]
       · simp [creations, List.count_cons])

theorem conserves_runGifKickoff (s : System) (ref : CodecRef) :
    ConservesOpt s (ownOf ref) (runGifKickoff s ref) := by
  intro x hx
  unfold runGifKickoff at hx
  have h := conserves_getNextMultiframe s ref.codec none
  split at hx
  · rename_i s1 evs heq
    cases hx
    intro hok hlt
    obtain ⟨g1, g2, g3, g4⟩ := h _ heq hok hlt
    refine ⟨fun p => ?_, ?_, g3, g4⟩
    · have := g1 p
      simp only [deletions, creations, ownNone, ownOf, List.count_append, List.count_cons,
        List.count_nil, beq_iff_eq, Event.deleteRef.injEq] at this ⊢
      simp only [reduceCtorEq, if_false] at this ⊢
      omega
    · rcases g2 with ⟨a1, a2⟩ | ⟨a1, a2⟩
      · refine Or.inl ⟨a1, fun p => ?_⟩
        have := a2 p
        simp only [creations, List.count_append, List.count_cons, List.count_nil, beq_iff_eq,
          reduceCtorEq, if_false] at this ⊢
        omega
      · refine Or.inr ⟨a1, fun p => ?_⟩
        have := a2 p
        simp only [creations, List.count_append, List.count_cons, List.count_nil, beq_iff_eq,
          reduceCtorEq, if_false] at this ⊢
        omega
  · cases hx

theorem conserves_runCompleteMulti (s : System) (ref tex env) :
    ConservesOpt s (ownOf ref) (runCompleteMulti s ref tex env) := by
  intro x hx
  unfold runCompleteMulti at hx
  dsimp only at hx
  repeat' split at hx
  all_goals first
    | cases hx; done
    | (cases hx
       refine conserves_of_same _ _ _ (fun p => ?_) (Or.inl ⟨rfl, fun p => ?_⟩) rfl rfl
       · simp [*, ownOf, heldBy, deletions, creations, System.setCodec, List.count_cons,
           count_invokeFrames, count_releasePlatformImage]
       · simp [creations, List.count_cons, count_invokeFrames, count_releasePlatformImage])

theorem conserves_runTask (s : System) (t : Task) (env : Env) :
    ConservesOpt s (ownOf t.ref) (runTask s t env) := by
  cases t <;> unfold runTask <;> dsimp only
  case gifKickoff ref => exact conserves_runGifKickoff _ _
  case completeMulti ref tex => exact conserves_runCompleteMulti _ _ _ _
  all_goals intro x hx; cases hx
  · exact conserves_runDropRef _ _
  · exact conserves_failClosure _ _ _
  · exact conserves_runDecodeSingle _ _ _ _
  · exact conserves_runUploadSingle _ _ _ _ _ _
  · exact conserves_runCompleteSingle _ _ _ _
  · exact conserves_runDecodeMulti _ _ _ _ _
  · exact conserves_runUploadMulti _ _ _ _ _ _
  · exact conserves_runInfoFlush _ _ _ _ _

theorem count_eraseIdx (l : List Task) (i : Nat) (t : Task) (p : Nat)
    (h : l.get? i = some t) :
    ((l.eraseIdx i).map (fun t => t.ref.ptr)).count p + ownOf t.ref p
      = (l.map (fun t => t.ref.ptr)).count p := by
  induction l generalizing i with
  | nil => cases h
  | cons a l ih =>
    cases i with
    | zero =>
      simp only [List.get?_cons_zero, Option.some.injEq] at h
      subst h
      simp only [List.eraseIdx_cons_zero, List.map_cons, List.count_cons, beq_iff_eq, ownOf]
    | succ i =>
      simp only [List.get?_cons_succ] at h
      have := ih i h
      simp only [List.eraseIdx_cons_succ, List.map_cons, List.count_cons, beq_iff_eq]
      omega

theorem noDelete_onFrameFetched (s : System) rid image release :
    NoDelete (onFrameFetched s rid image release).2 := by
  intro p
  rw [← List.count_eq_zero]
  unfold onFrameFetched
  dsimp only
  repeat' split
  all_goals simp [List.count_cons, count_releasePlatformImage, count_callRelease,
    count_callReleaseBitmap]

theorem noDelete_onInfoFetched (s : System) rid image release :
    NoDelete (onInfoFetched s rid image release).2 := by
  intro p
  rw [← List.count_eq_zero]
  unfold onInfoFetched
  dsimp only
  repeat' split
  all_goals simp [List.count_cons, count_releasePlatformImage, count_callRelease,
    count_callReleaseBitmap]

theorem noDelete_runDecodeSingle (s : System) ref cost env :
    NoDelete (runDecodeSingle s ref cost env).2 := by
  intro p
  rw [← List.count_eq_zero]
  unfold runDecodeSingle
  dsimp only
  repeat' split
  all_goals simp [List.count_cons, count_releasePlatformImage, count_callRelease,
    count_callReleaseBitmap]

theorem noDelete_runUploadSingle (s : System) ref cost bitmap rb env :
    NoDelete (runUploadSingle s ref cost bitmap rb env).2 := by
  intro p
  rw [← List.count_eq_zero]
  unfold runUploadSingle
  dsimp only
  repeat' split
  all_goals simp [List.count_cons, count_releasePlatformImage, count_callRelease,
    count_callReleaseBitmap]

theorem noDelete_runDecodeMulti (s : System) ref cost idx env :
    NoDelete (runDecodeMulti s ref cost idx env).2 := by
  intro p
  rw [← List.count_eq_zero]
  unfold runDecodeMulti
  dsimp only
  repeat' split
  all_goals simp [List.count_cons, count_releasePlatformImage, count_callRelease,
    count_callReleaseBitmap]

theorem noDelete_runUploadMulti (s : System) ref cost bitmap rb env :
    NoDelete (runUploadMulti s ref cost bitmap rb env).2 := by
  intro p
  rw [← List.count_eq_zero]
  unfold runUploadMulti
  dsimp only
  repeat' split
  all_goals simp [List.count_cons, count_releasePlatformImage, count_callRelease,
    count_callReleaseBitmap]

theorem untag_onThread (t : Thread) (r : System × List Event) : untag (onThread t r).2 = r.2 := by
  simp [untag, onThread]

theorem deletesOnUi_ui (r : System × List Event) : DeletesOnUi (onThread Thread.uiRunner r).2 := by
  intro e he p _
  simp only [onThread, List.mem_map] at he
  obtain ⟨e0, _, rfl⟩ := he
  rfl

theorem deletesOnUi_noDelete (t : Thread) (r : System × List Event) (h : NoDelete r.2) :
    DeletesOnUi (onThread t r).2 := by
  intro e he p hp
  simp only [onThread, List.mem_map] at he
  obtain ⟨e0, he0, rfl⟩ := he
  simp only at hp
  subst hp
  exact absurd he0 (h p)

theorem deletesOnUi_runTask (s : System) (t : Task) (env : Env) (x : System × List Event)
    (hx : runTask s t env = some x) : DeletesOnUi (onThread t.thread x).2 := by
  cases t
  case decodeSingle ref cost =>
    cases hx
    exact deletesOnUi_noDelete _ _ (noDelete_runDecodeSingle _ _ _ _)
  case uploadSingle ref cost bitmap rb =>
    cases hx
    exact deletesOnUi_noDelete _ _ (noDelete_runUploadSingle _ _ _ _ _ _)
  case decodeMulti ref cost idx =>
    cases hx
    exact deletesOnUi_noDelete _ _ (noDelete_runDecodeMulti _ _ _ _ _)
  case uploadMulti ref cost bitmap rb =>
    cases hx
    exact deletesOnUi_noDelete _ _ (noDelete_runUploadMulti _ _ _ _ _ _)
  all_goals exact deletesOnUi_ui x

theorem stepConserves_of (s s0 : System) (own : Nat → Nat) (t : Thread)
    (r : System × List Event) (hc : Conserves s0 own r) (hok : RegOk s)
    (hlt : s.requestId + 1 < 2 ^ 32)
    (hp : s0.pendingCodec_ = s.pendingCodec_) (hi : s0.requestId = s.requestId)
    (hh : s0.heapNext = s.heapNext)
    (hheld : ∀ p, heldBy p s0 + own p = heldBy p s) :
    StepConserves s (onThread t r).1 (onThread t r).2 := by
  have hok0 : RegOk s0 := by
    unfold RegOk at hok ⊢
    rw [hp, hi]
    exact hok
  obtain ⟨g1, g2, g3, g4⟩ := hc hok0 (by rw [hi]; exact hlt)
  rw [hi] at g4
  rw [hh] at g2
  refine ⟨fun p => ?_, ?_, g3, g4⟩
  · rw [untag_onThread]
    have := g1 p
    have := hheld p
    show heldBy p r.1 + _ = _
    omega
  · rw [untag_onThread]
    exact g2

theorem step_conserves (s s1 : System) (a : Action) (evs : List (Thread × Event))
    (hok : RegOk s) (hlt : s.requestId + 1 < 2 ^ 32) (hs : step s a = some (s1, evs)) :
    StepConserves s s1 evs ∧ DeletesOnUi evs := by
  have key : ∀ (s0 : System) (own : Nat → Nat) (t : Thread) (r : System × List Event),
      Conserves s0 own r → s0.pendingCodec_ = s.pendingCodec_ → s0.requestId = s.requestId →
      s0.heapNext = s.heapNext → (∀ p, heldBy p s0 + own p = heldBy p s) →
      some (onThread t r) = some (s1, evs) → StepConserves s s1 evs := by
    intro s0 own t r hc hp hi hh hheld he
    have := stepConserves_of s s0 own t r hc hok hlt hp hi hh hheld
    simp only [Option.some.injEq] at he
    rw [he] at this
    exact this
  cases a with
  | getNextFrame d callback =>
    simp only [step] at hs
    cases hr : getNextFrame s d callback with
    | none => rw [hr] at hs; cases hs
    | some x =>
      rw [hr] at hs
      refine ⟨key s ownNone _ x (conserves_getNextFrame s d callback x hr) rfl rfl rfl
        (fun p => rfl) hs, ?_⟩
      simp only [Option.map, Option.some.injEq] at hs
      have := deletesOnUi_ui x
      rw [hs] at this
      exact this
  | getImageInfo d callback =>
    simp only [step] at hs
    refine ⟨key s ownNone _ _ (conserves_getImageInfo s d callback) rfl rfl rfl
      (fun p => rfl) hs, ?_⟩
    simp only [Option.some.injEq] at hs
    have := deletesOnUi_ui (getImageInfo s d callback)
    rw [hs] at this
    exact this
  | cancel d =>
    simp only [step] at hs
    refine ⟨key s ownNone _ _ (conserves_cancel s d) rfl rfl rfl (fun p => rfl) hs, ?_⟩
    simp only [Option.some.injEq] at hs
    have := deletesOnUi_ui (cancel s d)
    rw [hs] at this
    exact this
  | answer i image release =>
    simp only [step] at hs
    split at hs
    · rename_i rid kind heq
      cases kind
      · refine ⟨key { s with outstanding := s.outstanding.eraseIdx i } ownNone _ _
          (conserves_onFrameFetched _ rid image release) rfl rfl rfl (fun p => rfl) hs, ?_⟩
        simp only [Option.some.injEq] at hs
        have := deletesOnUi_noDelete Thread.provider _
          (noDelete_onFrameFetched { s with outstanding := s.outstanding.eraseIdx i } rid image
            release)
        simp only [runCallback] at hs
        rw [hs] at this
        exact this
      · refine ⟨key { s with outstanding := s.outstanding.eraseIdx i } ownNone _ _
          (conserves_onInfoFetched _ rid image release) rfl rfl rfl (fun p => rfl) hs, ?_⟩
        simp only [Option.some.injEq] at hs
        have := deletesOnUi_noDelete Thread.provider _
          (noDelete_onInfoFetched { s with outstanding := s.outstanding.eraseIdx i } rid image
            release)
        simp only [runCallback] at hs
        rw [hs] at this
        exact this
    · simp only [Option.some.injEq, Prod.mk.injEq] at hs
      obtain ⟨h1, h2⟩ := hs
      subst h1 h2
      refine ⟨⟨fun p => rfl, Or.inl ⟨rfl, fun p => rfl⟩, hok, Nat.le_succ _⟩, ?_⟩
      intro e he
      cases he
  | run i env =>
    simp only [step] at hs
    split at hs
    · rename_i t heq
      cases hr : runTask { s with tasks := s.tasks.eraseIdx i } t env with
      | none => rw [hr] at hs; cases hs
      | some x =>
        rw [hr] at hs
        refine ⟨key { s with tasks := s.tasks.eraseIdx i } (ownOf t.ref) _ x
          (conserves_runTask _ t env x hr) rfl rfl rfl (fun p => ?_) hs, ?_⟩
        · have := count_eraseIdx s.tasks i t p heq
          simp only [heldBy]
          omega
        · simp only [Option.map, Option.some.injEq] at hs
          have := deletesOnUi_runTask _ t env x hr
          rw [hs] at this
          exact this
    · simp only [Option.some.injEq, Prod.mk.injEq] at hs
      obtain ⟨h1, h2⟩ := hs
      subst h1 h2
      refine ⟨⟨fun p => rfl, Or.inl ⟨rfl, fun p => rfl⟩, hok, Nat.le_succ _⟩, ?_⟩
      intro e he
      cases he

theorem run_conserves (acts : List Action) :
    ∀ (s s2 : System) (evs : List (Thread × Event)), RegOk s →
      s.requestId + acts.length < 2 ^ 32 → runActions s acts = some (s2, evs) →
      DeletesOnUi evs
      ∧ (∀ p, heldBy p s2 + deletions p (untag evs) = heldBy p s + creations p (untag evs))
      ∧ s.heapNext ≤ s2.heapNext
      ∧ (∀ p, creations p (untag evs) = if s.heapNext ≤ p ∧ p < s2.heapNext then 1 else 0)
      ∧ RegOk s2 ∧ s2.requestId ≤ s.requestId + acts.length := by
  induction acts with
  | nil =>
    intro s s2 evs hok _ hrun
    simp only [runActions, Option.some.injEq, Prod.mk.injEq] at hrun
    obtain ⟨h1, h2⟩ := hrun
    subst h1 h2
    refine ⟨?_, fun p => rfl, Nat.le_refl _, fun p => ?_, hok, Nat.le_refl _⟩
    · intro e he
      cases he
    · have : ¬ (s.heapNext ≤ p ∧ p < s.heapNext) := by omega
      simp [creations, untag, this]
  | cons a rest ih =>
    intro s s2 evs hok hlen hrun
    simp only [List.length_cons] at hlen
    simp only [runActions] at hrun
    split at hrun
    · cases hrun
    · rename_i sA evA hA
      split at hrun
      · cases hrun
      · rename_i sB evB hB
        simp only [Option.some.injEq, Prod.mk.injEq] at hrun
        obtain ⟨h1, h2⟩ := hrun
        subst h1 h2
        obtain ⟨⟨g1, g2, g3, g4⟩, g5⟩ := step_conserves s sA a evA hok (by omega) hA
        obtain ⟨k1, k2, k3, k4, k5, k6⟩ := ih sA sB evB g3 (by omega) hB
        refine ⟨?_, fun p => ?_, ?_, fun p => ?_, k5, ?_⟩
        · intro e he
          rcases List.mem_append.1 he with h | h
          · exact g5 e h
          · exact k1 e h
        · have := g1 p
          have := k2 p
          simp only [untag, deletions, creations, List.map_append, List.count_append] at *
          omega
        · rcases g2 with ⟨a1, _⟩ | ⟨a1, _⟩ <;> omega
        · have hk := k4 p
          simp only [untag, creations, List.map_append, List.count_append] at *
          rcases g2 with ⟨a1, a2⟩ | ⟨a1, a2⟩
          · rw [a2 p, hk, a1]
            simp
          · rw [a2 p, hk, a1]
            split_ifs <;> omega
        · simp only [List.length_cons]
          omega

theorem noDelete_getNextFrameEnqueue (s : System) (c k callback) :
    NoDelete (getNextFrameEnqueue s c k callback).2 := by
  intro p
  rw [← List.count_eq_zero]
  unfold getNextFrameEnqueue issueRequest
  dsimp only
  split <;> simp [List.count_cons]

theorem noDelete_getNextMultiframe (s : System) (c callback) (x : System × List Event)
    (hx : getNextMultiframe s c callback = some x) : NoDelete x.2 := by
  intro p
  rw [← List.count_eq_zero]
  unfold getNextMultiframe at hx
  dsimp only at hx
  split at hx
  · cases hx
    simp
  · split at hx
    · cases hx
    · cases hx
      simp [List.count_cons]

theorem noDelete_getNextFrame (s : System) (c callback) (x : System × List Event)
    (hx : getNextFrame s c callback = some x) : NoDelete x.2 := by
  unfold getNextFrame at hx
  dsimp only at hx
  repeat' split at hx
  all_goals first
    | exact noDelete_getNextMultiframe s c _ x hx
    | (cases hx; exact noDelete_getNextFrameEnqueue s c _ _)
    | (cases hx; intro p; simp)

theorem noDelete_getImageInfo (s : System) (c callback) :
    NoDelete (getImageInfo s c callback).2 := by
  intro p
  rw [← List.count_eq_zero]
  unfold getImageInfo issueRequest
  dsimp only
  repeat' split
  all_goals simp [List.count_cons]

theorem mem_onThread_noDelete (t : Thread) (r : System × List Event) (h : NoDelete r.2)
    (e : Thread × Event) (he : e ∈ (onThread t r).2) (p : Nat) : e.2 ≠ Event.deleteRef p := by
  intro hp
  simp only [onThread, List.mem_map] at he
  obtain ⟨e0, he0, rfl⟩ := he
  simp only at hp
  subst hp
  exact h p he0

theorem noDelete_of_onThread_eq (t : Thread) (r : System × List Event) (s1 : System)
    (evs : List (Thread × Event)) (hs : onThread t r = (s1, evs)) (h : NoDelete r.2) :
    ∀ e ∈ evs, ∀ p, e.2 ≠ Event.deleteRef p := by
  intro e he p
  have hev : (onThread t r).2 = evs := by rw [hs]
  rw [← hev] at he
  exact mem_onThread_noDelete t r h e he p

theorem step_deletes_only_in_ui_task (s s1 : System) (a : Action)
    (evs : List (Thread × Event)) (hs : step s a = some (s1, evs))
    (hm : a.mayDelete s = false) : ∀ e ∈ evs, ∀ p, e.2 ≠ Event.deleteRef p := by
  cases a with
  | getNextFrame d callback =>
    simp only [step] at hs
    cases hr : getNextFrame s d callback with
    | none => rw [hr] at hs; cases hs
    | some x =>
      rw [hr] at hs
      simp only [Option.map, Option.some.injEq] at hs
      exact noDelete_of_onThread_eq _ x _ _ hs (noDelete_getNextFrame s d callback x hr)
  | getImageInfo d callback =>
    simp only [step, Option.some.injEq] at hs
    exact noDelete_of_onThread_eq _ _ _ _ hs (noDelete_getImageInfo s d callback)
  | cancel d => cases hm
  | answer i image release =>
    simp only [step] at hs
    split at hs
    · rename_i rid kind heq
      simp only [Option.some.injEq] at hs
      cases kind
      · exact noDelete_of_onThread_eq _ _ _ _ hs (noDelete_onFrameFetched _ rid image release)
      · exact noDelete_of_onThread_eq _ _ _ _ hs (noDelete_onInfoFetched _ rid image release)
    · simp only [Option.some.injEq, Prod.mk.injEq] at hs
      intro e he
      rw [← hs.2] at he
      cases he
  | run i env =>
    simp only [step] at hs
    simp only [Action.mayDelete] at hm
    split at hs
    · rename_i t heq
      rw [heq] at hm
      simp only [decide_eq_false_iff_not] at hm
      cases hr : runTask { s with tasks := s.tasks.eraseIdx i } t env with
      | none => rw [hr] at hs; cases hs
      | some x =>
        rw [hr] at hs
        simp only [Option.map, Option.some.injEq] at hs
        cases t
        case decodeSingle ref cost =>
          cases hr
          exact noDelete_of_onThread_eq _ _ _ _ hs (noDelete_runDecodeSingle _ _ _ _)
        case uploadSingle ref cost bitmap rb =>
          cases hr
          exact noDelete_of_onThread_eq _ _ _ _ hs (noDelete_runUploadSingle _ _ _ _ _ _)
        case decodeMulti ref cost idx =>
          cases hr
          exact noDelete_of_onThread_eq _ _ _ _ hs (noDelete_runDecodeMulti _ _ _ _ _)
        case uploadMulti ref cost bitmap rb =>
          cases hr
          exact noDelete_of_onThread_eq _ _ _ _ hs (noDelete_runUploadMulti _ _ _ _ _ _)
        all_goals exact absurd rfl hm
    · simp only [Option.some.injEq, Prod.mk.injEq] at hs
      intro e he
      rw [← hs.2] at he
      cases he

/-- C9.  Along every run from a state whose registry is a map of handed-out ids (and
during which the 32-bit request counter does not wrap): (1) every `delete` of a heap
reference happens in a step on the UI thread, never on the provider's, a worker or the IO
thread; (2) for every address `p`, the owners of `p` at the end (registry entries and
posted closures) plus the deletions of `p` are the owners at the start plus the
allocations of `p`, so a reference taken from the registry or made by
`getNextMultiframe` is, on every path, either still owned by exactly one pending closure
or deleted exactly once; (3) every address is allocated at most once, and only past the
addresses already in use; (4) in any state, the only steps that delete a reference are
closures posted to the UI runner and `cancel` (which deletes the registry entry it
removes): `getNextFrame`, `getImageInfo`, the request callbacks and the closures of the
worker pool and of the IO runner delete none. -/
theorem refs_dropped_once_on_ui (s s2 : System) (acts : List Action)
    (evs : List (Thread × Event)) (hok : RegOk s)
    (hwrap : s.requestId + acts.length < 2 ^ 32)
    (hrun : runActions s acts = some (s2, evs)) :
    (∀ e ∈ evs, ∀ p, e.2 = Event.deleteRef p → e.1 = Thread.uiRunner)
    ∧ (∀ p, heldBy p s2 + deletions p (untag evs) = heldBy p s + creations p (untag evs))
    ∧ (∀ p, creations p (untag evs) = if s.heapNext ≤ p ∧ p < s2.heapNext then 1 else 0)
    ∧ (∀ (t t1 : System) (a : Action) (ev : List (Thread × Event)),
        step t a = some (t1, ev) → a.mayDelete t = false →
        ∀ e ∈ ev, ∀ p, e.2 ≠ Event.deleteRef p) := by
  obtain ⟨h1, h2, _, h4, _, _⟩ := run_conserves acts s s2 evs hok hwrap hrun
  exact ⟨h1, h2, h4, fun t t1 a ev hs hm => step_deletes_only_in_ui_task t t1 a ev hs hm⟩

/-- Witness of `refs_dropped_once_on_ui`, on the run with a fetch, decode, upload and
completion, a cached answer, a `cancel` and a call on the canceled codec. -/
theorem refs_dropped_once_on_ui_witness :
    RegOk fresh0 ∧ fresh0.requestId + cancelAfterCompleteRun.length < 2 ^ 32
    ∧ ∃ s2 evs, runActions fresh0 cancelAfterCompleteRun = some (s2, evs)
        ∧ (∀ e ∈ evs, ∀ p, e.2 = Event.deleteRef p → e.1 = Thread.uiRunner)
        ∧ (∀ p, heldBy p s2 + deletions p (untag evs)
                  = heldBy p fresh0 + creations p (untag evs))
        ∧ (∀ p, creations p (untag evs)
                  = if fresh0.heapNext ≤ p ∧ p < s2.heapNext then 1 else 0)
        ∧ (∀ (t t1 : System) (a : Action) (ev : List (Thread × Event)),
            step t a = some (t1, ev) → a.mayDelete t = false →
            ∀ e ∈ ev, ∀ p, e.2 ≠ Event.deleteRef p) :=
  have hok : RegOk fresh0 := ⟨List.nodup_nil, fun e he => by cases he⟩
  ⟨hok, by decide, _, _, rfl,
   refs_dropped_once_on_ui fresh0 _ cancelAfterCompleteRun _ hok (by decide) rfl⟩

/-! ## C10 -/

/-- C10.  On a canceled codec `getNextFrame` with a closure invokes the closure once, with
null, and returns `Dart_Null()`; the whole state is as before: nothing is queued, no
request is made, nothing is retained, the codec is unchanged. -/
theorem getNextFrame_canceled (s : System) (c : CodecId) (callback : DartHandle)
    (hcl : callback.isClosure = true) (hc : (s.codecs c).canceled_ = true) :
    getNextFrame s c callback = some (s, [Event.invokeFrame c callback.id none])
    ∧ getNextFrameReturnsError callback = false := by
  simp [getNextFrame, getNextFrameReturnsError, hcl, hc]

/-- Witness of `getNextFrame_canceled`, on the codec `cancel` leaves behind. -/
theorem getNextFrame_canceled_witness :
    getNextFrame (cancel fresh0 0).1 0 (closure 1)
        = some ((cancel fresh0 0).1, [Event.invokeFrame 0 1 none])
    ∧ getNextFrameReturnsError (closure 1) = false :=
  getNextFrame_canceled (cancel fresh0 0).1 0 (closure 1) rfl (by rfl)

/-! ## The stages of the single-frame path, exactly -/

theorem stage_answer_exact (t : System) (c : CodecId) (l : List (RequestId × RequestKind))
    (rid : RequestId) (h : Nat) (image : PlatformImage) (release : ReleaseImageCallback)
    (ho : t.outstanding = l ++ [(rid, RequestKind.frame)])
    (hreg : t.pendingCodec_.lookup rid = some ⟨h, c⟩)
    (hnc : (t.codecs c).canceled_ = false)
    (himg : image.handle ≠ 0) (hsingle : ¬ image.frameCount > 1) :
    ∃ tA, step t (Action.answer l.length image release)
        = some (tA, [(Thread.provider,
                      Event.postTask (imageDecodingCost image.width image.height))])
      ∧ tA.tasks = t.tasks ++
          [Task.decodeSingle ⟨h, c⟩ (imageDecodingCost image.width image.height)]
      ∧ tA.codecs c = assignPlatformImage (t.codecs c) image release := by
  have hA := step_answer_last t l rid RequestKind.frame image release ho
  refine ⟨(runCallback { t with outstanding := l } rid RequestKind.frame image release).1,
    hA.trans ?_, ?_⟩
  · simp [runCallback, onFrameFetched, retrieveCodec, hreg, himg, hnc, hsingle, onThread]
  · simp [runCallback, onFrameFetched, retrieveCodec, hreg, himg, hnc, hsingle,
      System.post, System.setCodec]

theorem stage_decode_fail_exact (t : System) (l : List Task) (ref : CodecRef) (cost : Nat) (e : Env)
    (ht : t.tasks = l ++ [Task.decodeSingle ref cost])
    (hnc : (t.codecs ref.codec).canceled_ = false)
    (hh : (t.codecs ref.codec).platformImage_.handle ≠ 0)
    (hp : e.decodeResult.1.pixels = 0) :
    ∃ tD, step t (Action.run l.length e)
        = some (tD, tagged Thread.worker
            ([Event.decode (t.codecs ref.codec).platformImage_ 0,
              Event.log LogMessage.failToDecodeBitmap, Event.finishTask cost]
             ++ (releasePlatformImage (t.codecs ref.codec)).2))
      ∧ tD.tasks = l ++ [Task.failClosure ref]
      ∧ tD.codecs ref.codec = (releasePlatformImage (t.codecs ref.codec)).1 := by
  have hS := step_run_last t l _ e ht
  refine ⟨(runDecodeSingle { t with tasks := l } ref cost e).1, hS.trans ?_, ?_⟩
  · simp [runTask, onThread, Task.thread, runDecodeSingle, hnc, hh, hp, tagged]
  · simp [runDecodeSingle, hnc, hh, hp, System.post, System.setCodec]

theorem stage_decode_ok_exact (t : System) (l : List Task) (ref : CodecRef) (cost : Nat) (e : Env)
    (ht : t.tasks = l ++ [Task.decodeSingle ref cost])
    (hnc : (t.codecs ref.codec).canceled_ = false)
    (hh : (t.codecs ref.codec).platformImage_.handle ≠ 0)
    (hp : e.decodeResult.1.pixels ≠ 0) :
    ∃ tD, step t (Action.run l.length e)
        = some (tD, tagged Thread.worker
            ([Event.decode (t.codecs ref.codec).platformImage_ 0]
             ++ (if e.decodeResult.1.pixelsCopied
                 then (releasePlatformImage (t.codecs ref.codec)).2 else [])))
      ∧ tD.tasks = l ++ [Task.uploadSingle ref cost e.decodeResult.1 e.decodeResult.2]
      ∧ tD.codecs ref.codec
          = (if e.decodeResult.1.pixelsCopied
             then (releasePlatformImage (t.codecs ref.codec)).1 else t.codecs ref.codec) := by
  have hS := step_run_last t l _ e ht
  refine ⟨(runDecodeSingle { t with tasks := l } ref cost e).1, hS.trans ?_, ?_⟩
  · cases hc : e.decodeResult.1.pixelsCopied <;>
      simp [runTask, onThread, Task.thread, runDecodeSingle, hnc, hh, hp, hc, tagged]
  · cases hc : e.decodeResult.1.pixelsCopied <;>
      simp [runDecodeSingle, hnc, hh, hp, hc, System.post, System.setCodec]

theorem stage_upload_exact (t : System) (l : List Task) (ref : CodecRef) (cost : Nat)
    (bitmap : Bitmap) (rb : ReleaseBitmapCallback) (e : Env)
    (ht : t.tasks = l ++ [Task.uploadSingle ref cost bitmap rb])
    (hnc : (t.codecs ref.codec).canceled_ = false) :
    ∃ tU, step t (Action.run l.length e)
        = some (tU, tagged Thread.ioRunner
            ((if e.ioStatusValid then [Event.uploadTexture bitmap] else [])
             ++ callReleaseBitmap rb
                  (if e.ioStatusValid then UploadTexture e bitmap else (bitmap, none)).1
             ++ [Event.finishTask cost]
             ++ (if bitmap.pixelsCopied then []
                 else (releasePlatformImage (t.codecs ref.codec)).2)))
      ∧ tU.tasks = l ++ [Task.completeSingle ref
          (if e.ioStatusValid then UploadTexture e bitmap else (bitmap, none)).2]
      ∧ tU.codecs ref.codec
          = (if bitmap.pixelsCopied then t.codecs ref.codec
             else (releasePlatformImage (t.codecs ref.codec)).1) := by
  have hS := step_run_last t l _ e ht
  refine ⟨(runUploadSingle { t with tasks := l } ref cost bitmap rb e).1, hS.trans ?_, ?_⟩
  · cases hc : bitmap.pixelsCopied <;>
      simp [runTask, onThread, Task.thread, runUploadSingle, hnc, hc, tagged]
  · cases hc : bitmap.pixelsCopied <;>
      simp [runUploadSingle, hnc, hc, System.post, System.setCodec]

theorem stage_complete_exact (t : System) (l : List Task) (ref : CodecRef) (tex : Option Nat)
    (e : Env) (ht : t.tasks = l ++ [Task.completeSingle ref tex])
    (hnc : (t.codecs ref.codec).canceled_ = false)
    (hq : (t.codecs ref.codec).getFrameCallbacks_ ≠ [])
    (hvm : e.dartStateValid = true) :
    ∃ tC, step t (Action.run l.length e)
        = some (tC, tagged Thread.uiRunner
            ((match tex with
              | some _ => []
              | none => [Event.log LogMessage.failToUploadGpu])
             ++ invokeFrames ref.codec (t.codecs ref.codec).getFrameCallbacks_
                  (match tex with
                   | some x => some ⟨x, 0⟩
                   | none => (t.codecs ref.codec).cachedFrame_)
             ++ [Event.deleteRef ref.ptr]))
      ∧ tC.tasks = l
      ∧ tC.codecs ref.codec
          = { t.codecs ref.codec with
              status_ := Status.Complete, getFrameCallbacks_ := [],
              cachedFrame_ := (match tex with
                   | some x => some ⟨x, 0⟩
                   | none => (t.codecs ref.codec).cachedFrame_) } := by
  have hS := step_run_last t l _ e ht
  refine ⟨(runCompleteSingle { t with tasks := l } ref tex e).1, hS.trans ?_, ?_⟩
  · cases tex <;>
      simp [runTask, onThread, Task.thread, runCompleteSingle, hnc, hq, hvm, tagged]
  · cases tex <;> simp [runCompleteSingle, hnc, hq, hvm, System.setCodec]

theorem stage_fail_exact (t : System) (l : List Task) (ref : CodecRef)
    (e : Env) (ht : t.tasks = l ++ [Task.failClosure ref])
    (hvm : e.dartStateValid = true) :
    ∃ tC, step t (Action.run l.length e)
        = some (tC, tagged Thread.uiRunner
            (invokeFrames ref.codec (t.codecs ref.codec).getFrameCallbacks_ none
             ++ [Event.deleteRef ref.ptr]))
      ∧ tC.tasks = l
      ∧ tC.codecs ref.codec
          = { t.codecs ref.codec with status_ := Status.Complete, getFrameCallbacks_ := [] } := by
  have hS := step_run_last t l _ e ht
  refine ⟨(failClosure { t with tasks := l } ref e).1, hS.trans ?_, ?_⟩
  · by_cases hq : (t.codecs ref.codec).getFrameCallbacks_ = []
    · simp [runTask, onThread, Task.thread, failClosure, hq, tagged, invokeFrames]
    · simp [runTask, onThread, Task.thread, failClosure, hq, hvm, tagged]
  · by_cases hq : (t.codecs ref.codec).getFrameCallbacks_ = []
    · simp [failClosure, hq, System.setCodec]
    · simp [failClosure, hq, hvm, System.setCodec]

theorem filter_isInvoke_tagged_invokeFrames (c : CodecId) (q : List Nat)
    (frame : Option FrameInfo) (t : Thread) :
    (tagged t (invokeFrames c q frame)).filter isInvoke
      = q.map (fun x => (t, Event.invokeFrame c x frame)) :=
  filter_isInvoke_invokeFrames c q frame t

theorem filter_isInvoke_tagged_release (k : Codec) (t : Thread) :
    (tagged t (releasePlatformImage k).2).filter isInvoke = [] := by
  simp only [releasePlatformImage, tagged]
  split
  · split <;> simp [isInvoke]
  · simp

theorem filter_isInvoke_tagged_releaseBitmap (rb : ReleaseBitmapCallback) (b : Bitmap)
    (t : Thread) : (tagged t (callReleaseBitmap rb b)).filter isInvoke = [] := by
  cases rb <;> simp [callReleaseBitmap, tagged, isInvoke]

theorem tagged_append (t : Thread) (a b : List Event) :
    tagged t (a ++ b) = tagged t a ++ tagged t b := by
  simp [tagged]

/-! ## C11 -/

/-- C11.  (1) On a codec that is not canceled, is `Complete`, is not an animation and has the
frame `f` cached, `getNextFrame` with a closure invokes that closure once, with `f`, and
does nothing else: no request, no closure posted, the state (cache included) is as before.
(2) When the provider answers a frame request with a single-frame image and decode, upload
and the completion closure succeed, the queued callbacks receive the frame `(x, 0)` of the
uploaded texture `x`, and a following `getNextFrame` delivers that same frame from the
cache, again without changing the state. -/
theorem cached_frame_served (c : CodecId) (callback : DartHandle)
    (hcl : callback.isClosure = true) :
    (∀ (s : System) (f : FrameInfo), (s.codecs c).canceled_ = false →
        (s.codecs c).status_ = Status.Complete →
        ¬ (s.codecs c).platformImage_.frameCount > 1 →
        (s.codecs c).cachedFrame_ = some f →
        getNextFrame s c callback = some (s, [Event.invokeFrame c callback.id (some f)]))
    ∧ (∀ (t : System) (l : List (RequestId × RequestKind)) (rid : RequestId) (h : Nat)
        (image : PlatformImage) (release : ReleaseImageCallback) (e1 e2 e3 : Env) (x : Nat),
        t.outstanding = l ++ [(rid, RequestKind.frame)] →
        t.pendingCodec_.lookup rid = some ⟨h, c⟩ →
        (t.codecs c).canceled_ = false → (t.codecs c).getFrameCallbacks_ ≠ [] →
        image.handle ≠ 0 → ¬ image.frameCount > 1 →
        e1.decodeResult.1.pixels ≠ 0 → e2.ioStatusValid = true →
        (UploadTexture e2 e1.decodeResult.1).2 = some x → e3.dartStateValid = true →
        ∃ tC evs,
          runActions t (singleFramePipeline l.length t.tasks.length image release e1 e2 e3)
            = some (tC, evs)
          ∧ evs.filter isInvoke
              = (t.codecs c).getFrameCallbacks_.map
                  (fun cb => (Thread.uiRunner, Event.invokeFrame c cb (some ⟨x, 0⟩)))
          ∧ getNextFrame tC c callback
              = some (tC, [Event.invokeFrame c callback.id (some ⟨x, 0⟩)])) := by
  have hpart : ∀ (s : System) (f : FrameInfo), (s.codecs c).canceled_ = false →
      (s.codecs c).status_ = Status.Complete →
      ¬ (s.codecs c).platformImage_.frameCount > 1 →
      (s.codecs c).cachedFrame_ = some f →
      getNextFrame s c callback = some (s, [Event.invokeFrame c callback.id (some f)]) := by
    intro s f hnc hst hfc hcf
    simp [getNextFrame, hcl, hnc, hst, hfc, hcf]
  refine ⟨hpart, ?_⟩
  intro t l rid h image release e1 e2 e3 x ho hreg hnc hq himg hsingle hp hio hup hvm
  obtain ⟨tA, hA, hAt, hAc⟩ := stage_answer_exact t c l rid h image release ho hreg hnc himg hsingle
  have hA1 : (tA.codecs c).canceled_ = false ∧ (tA.codecs c).platformImage_ = image
      ∧ (tA.codecs c).getFrameCallbacks_ = (t.codecs c).getFrameCallbacks_ := by
    rw [hAc]; simp [assignPlatformImage, hnc]
  obtain ⟨tD, hD, hDt, hDc⟩ := stage_decode_ok_exact tA t.tasks ⟨h, c⟩ _ e1 hAt hA1.1
    (by rw [hA1.2.1]; exact himg) hp
  simp only at hDc
  have hD1 : (tD.codecs c).canceled_ = false
      ∧ (tD.codecs c).platformImage_.frameCount = image.frameCount
      ∧ (tD.codecs c).getFrameCallbacks_ = (t.codecs c).getFrameCallbacks_ := by
    rw [hDc]; split <;> simp [releasePlatformImage, hA1]
  obtain ⟨tU, hU, hUt, hUc⟩ := stage_upload_exact tD t.tasks ⟨h, c⟩ _ _ _ e2 hDt hD1.1
  simp only [hio, if_true, hup] at hUt
  simp only at hUc
  have hU1 : (tU.codecs c).canceled_ = false
      ∧ (tU.codecs c).platformImage_.frameCount = image.frameCount
      ∧ (tU.codecs c).getFrameCallbacks_ = (t.codecs c).getFrameCallbacks_ := by
    rw [hUc]; split <;> simp [releasePlatformImage, hD1]
  obtain ⟨tC, hC, hCt, hCc⟩ := stage_complete_exact tU t.tasks ⟨h, c⟩ (some x) e3 hUt hU1.1
    (by simp only; rw [hU1.2.2]; exact hq) hvm
  simp only at hCc
  refine ⟨tC, _, runActions_cons_of_step hA (runActions_cons_of_step hD
    (runActions_cons_of_step hU (runActions_cons_of_step hC rfl))), ?_, ?_⟩
  · cases hc : e1.decodeResult.1.pixelsCopied <;>
      simp only [hio, if_true, if_false, Bool.false_eq_true, List.filter_append, tagged_append,
        filter_isInvoke_tagged_invokeFrames, filter_isInvoke_tagged_release,
        filter_isInvoke_tagged_releaseBitmap, hU1.2.2] <;>
      simp [tagged, isInvoke]
  · apply hpart
    · rw [hCc]; exact hU1.1
    · rw [hCc]
    · rw [hCc]; simp only; rw [hU1.2.1]; exact hsingle
    · rw [hCc]

/-- Witness of `cached_frame_served`. -/
theorem cached_frame_served_witness :
    getNextFrame cachedSystem 0 (closure 2)
        = some (cachedSystem, [Event.invokeFrame 0 2 (some ⟨77, 0⟩)])
    ∧ ∃ tC evs,
        runActions pendingFrameSystem (singleFramePipeline 0 0 image42 (some 3) envOk envOk envOk)
          = some (tC, evs)
        ∧ evs.filter isInvoke = [(Thread.uiRunner, Event.invokeFrame 0 1 (some ⟨77, 0⟩))]
        ∧ getNextFrame tC 0 (closure 2) = some (tC, [Event.invokeFrame 0 2 (some ⟨77, 0⟩)]) :=
  have h := cached_frame_served 0 (closure 2) rfl
  ⟨h.1 cachedSystem ⟨77, 0⟩ (by rfl) (by rfl) (by decide) (by rfl),
   h.2 pendingFrameSystem [] 0 0 image42 (some 3) envOk envOk envOk 77 rfl rfl rfl (by decide)
     (by decide) (by decide) (by decide) rfl rfl rfl⟩

/-! ## C12 -/

theorem getNextMultiframe_advances (s : System) (c : CodecId) (callback : Option DartHandle)
    (hnc : (s.codecs c).canceled_ = false)
    (hfc : (s.codecs c).platformImage_.frameCount > 1) :
    ∃ s1, getNextMultiframe s c callback
        = some (s1, [Event.newRef s.heapNext,
                     Event.postTask (imageDecodingCost (s.codecs c).platformImage_.width
                                       (s.codecs c).platformImage_.height)])
      ∧ s1.tasks = s.tasks ++
          [Task.decodeMulti ⟨s.heapNext, c⟩
            (imageDecodingCost (s.codecs c).platformImage_.width
               (s.codecs c).platformImage_.height) (s.codecs c).nextFrameIndex_]
      ∧ s1.heapNext = s.heapNext + 1
      ∧ (s1.codecs c).canceled_ = false
      ∧ (s1.codecs c).platformImage_ = (s.codecs c).platformImage_
      ∧ (s1.codecs c).nextFrameIndex_
          = Int.tmod ((s.codecs c).nextFrameIndex_ + 1) (s.codecs c).platformImage_.frameCount
      ∧ (s1.codecs c).cachedFrame_ = (s.codecs c).cachedFrame_ := by
  have hfc0 : (s.codecs c).platformImage_.frameCount ≠ 0 := by omega
  rcases callback with _ | cb
  · simp [getNextMultiframe, hnc, hfc0, System.post, System.setCodec]
  · cases hcl : cb.isClosure <;>
      simp [getNextMultiframe, hnc, hfc0, hcl, System.post, System.setCodec]

theorem getNextMultiframeCalls_cursor (c : CodecId) (cbs : List (Option DartHandle)) (s : System)
    (hnc : (s.codecs c).canceled_ = false)
    (hfc : (s.codecs c).platformImage_.frameCount > 1)
    (hi : 0 ≤ (s.codecs c).nextFrameIndex_)
    (hlt : (s.codecs c).nextFrameIndex_ < (s.codecs c).platformImage_.frameCount) :
    ∃ s2 evs, getNextMultiframeCalls s c cbs = some (s2, evs)
      ∧ s2.tasks = s.tasks ++ (List.range cbs.length).map (fun k =>
          Task.decodeMulti ⟨s.heapNext + k, c⟩
            (imageDecodingCost (s.codecs c).platformImage_.width
               (s.codecs c).platformImage_.height)
            (((s.codecs c).nextFrameIndex_ + (k : Int))
               % (s.codecs c).platformImage_.frameCount))
      ∧ (s2.codecs c).nextFrameIndex_
          = ((s.codecs c).nextFrameIndex_ + (cbs.length : Int))
              % (s.codecs c).platformImage_.frameCount
      ∧ (s2.codecs c).cachedFrame_ = (s.codecs c).cachedFrame_ := by
  induction cbs generalizing s with
  | nil =>
    refine ⟨s, [], rfl, by simp, ?_, rfl⟩
    simp [Int.emod_eq_of_lt hi hlt]
  | cons cb cbs ih =>
    obtain ⟨s1, h1, ht, hh, hc1, hp1, hn1, hcf1⟩ := getNextMultiframe_advances s c cb hnc hfc
    have hmod : Int.tmod ((s.codecs c).nextFrameIndex_ + 1) (s.codecs c).platformImage_.frameCount
        = ((s.codecs c).nextFrameIndex_ + 1) % (s.codecs c).platformImage_.frameCount :=
      Int.tmod_eq_emod (by omega) (by omega)
    rw [hmod] at hn1
    have hpos : (0 : Int) < (s.codecs c).platformImage_.frameCount := by omega
    obtain ⟨s2, evs, h2, ht2, hn2, hcf2⟩ := ih s1 hc1 (by rw [hp1]; exact hfc)
      (by rw [hn1]; exact Int.emod_nonneg _ (by omega))
      (by rw [hn1, hp1]; exact Int.emod_lt_of_pos _ hpos)
    have hrun : getNextMultiframeCalls s c (cb :: cbs)
        = some (s2, [Event.newRef s.heapNext,
                     Event.postTask (imageDecodingCost (s.codecs c).platformImage_.width
                                       (s.codecs c).platformImage_.height)] ++ evs) := by
      simp [getNextMultiframeCalls, h1, h2]
    refine ⟨s2, _, hrun, ?_, ?_, by rw [hcf2, hcf1]⟩
    · rw [ht2, ht, hp1, hn1, hh, List.length_cons, List.range_succ_eq_map, List.map_cons,
        List.map_map, List.append_assoc]
      congr 1
      simp only [List.singleton_append, Nat.cast_zero, add_zero, Int.emod_eq_of_lt hi hlt]
      congr 1
      apply List.map_congr_left
      intro k _
      simp only [Function.comp, Nat.cast_succ]
      rw [Int.emod_add_emod]
      congr 2
      · omega
      · ring_nf
    · rw [hn2, hn1, hp1, List.length_cons, Int.emod_add_emod]
      congr 1
      push_cast
      ring

theorem filter_isDecode_tagged_release (k : Codec) (t : Thread) :
    (tagged t (releasePlatformImage k).2).filter isDecode = [] := by
  simp only [releasePlatformImage, tagged]
  split
  · split <;> simp [isDecode]
  · simp

/-- C12.  On an animated codec (`frameCount = n > 1`) that is not canceled and whose cursor
`nextFrameIndex_ = i` is not negative: (1) `getNextMultiframe` posts one decode task that
carries `i` as its frame index, sets the cursor to `(i + 1) mod n` and leaves the cache
alone; (2) starting from cursor 0, after any number of calls the `k`-th task posted (the
kick-off being call 0) carries frame index `k mod n`, and the cache is as before; (3) the
decode thunk with index `idx`, on a codec that is not canceled and holds its image, calls
`decode` exactly once, for frame `idx`; (4) the completion closure of the multi-frame path
always returns and never touches the cache. -/
theorem frame_cursor (s : System) (c : CodecId) (callback : Option DartHandle)
    (cbs : List (Option DartHandle))
    (hnc : (s.codecs c).canceled_ = false)
    (hfc : (s.codecs c).platformImage_.frameCount > 1)
    (hi : 0 ≤ (s.codecs c).nextFrameIndex_) :
    (∃ s1, getNextMultiframe s c callback
        = some (s1, [Event.newRef s.heapNext,
                     Event.postTask (imageDecodingCost (s.codecs c).platformImage_.width
                                       (s.codecs c).platformImage_.height)])
      ∧ s1.tasks = s.tasks ++
          [Task.decodeMulti ⟨s.heapNext, c⟩
            (imageDecodingCost (s.codecs c).platformImage_.width
               (s.codecs c).platformImage_.height) (s.codecs c).nextFrameIndex_]
      ∧ (s1.codecs c).nextFrameIndex_
          = ((s.codecs c).nextFrameIndex_ + 1) % (s.codecs c).platformImage_.frameCount
      ∧ (s1.codecs c).cachedFrame_ = (s.codecs c).cachedFrame_)
    ∧ ((s.codecs c).nextFrameIndex_ = 0 →
        ∃ s2 evs, getNextMultiframeCalls s c cbs = some (s2, evs)
          ∧ s2.tasks = s.tasks ++ (List.range cbs.length).map (fun k =>
              Task.decodeMulti ⟨s.heapNext + k, c⟩
                (imageDecodingCost (s.codecs c).platformImage_.width
                   (s.codecs c).platformImage_.height)
                ((k : Int) % (s.codecs c).platformImage_.frameCount))
          ∧ (s2.codecs c).nextFrameIndex_
              = (cbs.length : Int) % (s.codecs c).platformImage_.frameCount
          ∧ (s2.codecs c).cachedFrame_ = (s.codecs c).cachedFrame_)
    ∧ (∀ (t : System) (p : Nat) (cost : Nat) (idx : Int) (e : Env),
        (t.codecs c).canceled_ = false → (t.codecs c).platformImage_.handle ≠ 0 →
        (tagged Thread.worker (runDecodeMulti t ⟨p, c⟩ cost idx e).2).filter isDecode
          = [(Thread.worker, Event.decode (t.codecs c).platformImage_ idx)])
    ∧ (∀ (p : Nat) (tex : Option Nat) (e : Env),
        ∃ x, runCompleteMulti s ⟨p, c⟩ tex e = some x
          ∧ (x.1.codecs c).cachedFrame_ = (s.codecs c).cachedFrame_) := by
  refine ⟨?_, ?_, ?_, ?_⟩
  · obtain ⟨s1, h1, ht, _, _, _, hn1, hcf1⟩ := getNextMultiframe_advances s c callback hnc hfc
    refine ⟨s1, h1, ht, ?_, hcf1⟩
    rw [hn1]
    exact Int.tmod_eq_emod (by omega) (by omega)
  · intro h0
    obtain ⟨s2, evs, h2, ht2, hn2, hcf2⟩ := getNextMultiframeCalls_cursor c cbs s hnc hfc hi
      (by omega)
    refine ⟨s2, evs, h2, ?_, ?_, hcf2⟩
    · rw [ht2, h0]; simp
    · rw [hn2, h0]; simp
  · intro t p cost idx e htc hth
    have hr := filter_isDecode_tagged_release (t.codecs c) Thread.worker
    by_cases hp : e.decodeResult.1.pixels = 0
    · have hev : (runDecodeMulti t ⟨p, c⟩ cost idx e).2
          = [Event.decode (t.codecs c).platformImage_ idx,
             Event.log LogMessage.failToDecodeGifFrame, Event.finishTask cost]
            ++ (releasePlatformImage (t.codecs c)).2 := by
        simp [runDecodeMulti, htc, hth, hp]
      rw [hev, tagged_append, List.filter_append, hr]
      simp [tagged, isDecode]
    · simp [runDecodeMulti, htc, hth, hp, tagged, isDecode]
  · intro p tex e
    have hfc0 : (s.codecs c).platformImage_.frameCount ≠ 0 := by omega
    by_cases hq : (s.codecs c).getFrameCallbacks_ = []
    · exact ⟨_, by simp [runCompleteMulti, hnc, hq]; rfl, by simp [System.setCodec]⟩
    · cases hvm : e.dartStateValid
      · exact ⟨_, by simp [runCompleteMulti, hnc, hq, hvm]; rfl, by simp [System.setCodec]⟩
      · cases tex with
        | none =>
          exact ⟨_, by simp [runCompleteMulti, hnc, hq, hvm]; rfl,
            by simp [System.setCodec, releasePlatformImage]⟩
        | some x =>
          exact ⟨_, by simp [runCompleteMulti, hnc, hq, hvm, hfc0]; rfl,
            by simp [System.setCodec]⟩

/-- Witness of `frame_cursor`. -/
theorem frame_cursor_witness :
    (∃ s2 evs, getNextMultiframeCalls fetchedGifSystem 0
          [none, some (closure 2), some (closure 3), some (closure 4)] = some (s2, evs)
      ∧ s2.tasks = [Task.decodeMulti ⟨0, 0⟩ 16 0, Task.decodeMulti ⟨1, 0⟩ 16 1,
                    Task.decodeMulti ⟨2, 0⟩ 16 2, Task.decodeMulti ⟨3, 0⟩ 16 0]
      ∧ (s2.codecs 0).nextFrameIndex_ = 1
      ∧ (s2.codecs 0).cachedFrame_ = none)
    ∧ (runActions fresh0 fourFramesRun).map
        (fun r => (r.2.filter isDecode, (r.1.codecs 0).cachedFrame_,
                   (r.1.codecs 0).nextFrameIndex_))
      = some ([(Thread.worker, Event.decode gif5 0), (Thread.worker, Event.decode gif5 1),
               (Thread.worker, Event.decode gif5 2), (Thread.worker, Event.decode gif5 0)],
              none, 1) := by
  have h := frame_cursor fetchedGifSystem 0 none
    [none, some (closure 2), some (closure 3), some (closure 4)] (by rfl) (by decide) (by decide)
  exact ⟨h.2.1 (by rfl), by rfl⟩

/-! ## C13 -/

theorem finishCosts_append (a b : List Event) :
    finishCosts (a ++ b) = finishCosts a ++ finishCosts b := by
  simp [finishCosts, List.filterMap_append]

theorem finishCosts_release (k : Codec) : finishCosts (releasePlatformImage k).2 = [] := by
  simp only [releasePlatformImage]
  split
  · split <;> simp [finishCosts]
  · rfl

theorem finishCosts_releaseBitmap (rb : ReleaseBitmapCallback) (b : Bitmap) :
    finishCosts (callReleaseBitmap rb b) = [] := by
  cases rb <;> simp [callReleaseBitmap, finishCosts]

theorem postCosts_release (release : ReleaseImageCallback) (image : PlatformImage) :
    postCosts (callRelease release image) = [] := by
  cases release <;> simp [callRelease, postCosts]

/-- C13.  A decode thunk posted with `cost`, on the single-frame and on the multi-frame path,
either calls `finishTask` exactly once, with `cost`, and posts a closure that owes no
`finishTask` (canceled, no platform image, decode failure), or calls no `finishTask` and
posts the upload closure carrying the same `cost`; an upload closure, whatever the state and
the surroundings (canceled, upload success, upload failure), calls `finishTask` exactly
once, with its `cost`, and posts a closure that owes none.  At both posting sites the cost
passed to `postTask` is the cost the posted thunk carries. -/
theorem finishTask_exactly_once (s : System) (ref : CodecRef) (cost : Nat) (e : Env) :
    (∃ t, (runDecodeSingle s ref cost e).1.tasks = s.tasks ++ [t]
        ∧ ((finishCosts (runDecodeSingle s ref cost e).2 = [cost] ∧ t.owes = [])
           ∨ (finishCosts (runDecodeSingle s ref cost e).2 = []
              ∧ ∃ b rb, t = Task.uploadSingle ref cost b rb)))
    ∧ (∀ idx : Int, ∃ t, (runDecodeMulti s ref cost idx e).1.tasks = s.tasks ++ [t]
        ∧ ((finishCosts (runDecodeMulti s ref cost idx e).2 = [cost] ∧ t.owes = [])
           ∨ (finishCosts (runDecodeMulti s ref cost idx e).2 = []
              ∧ ∃ b rb, t = Task.uploadMulti ref cost b rb)))
    ∧ (∀ (b : Bitmap) (rb : ReleaseBitmapCallback),
        finishCosts (runUploadSingle s ref cost b rb e).2 = [cost]
        ∧ ∃ t, (runUploadSingle s ref cost b rb e).1.tasks = s.tasks ++ [t] ∧ t.owes = [])
    ∧ (∀ (b : Bitmap) (rb : ReleaseBitmapCallback),
        finishCosts (runUploadMulti s ref cost b rb e).2 = [cost]
        ∧ ∃ t, (runUploadMulti s ref cost b rb e).1.tasks = s.tasks ++ [t] ∧ t.owes = [])
    ∧ (∀ (rid : RequestId) (image : PlatformImage) (release : ReleaseImageCallback),
        ((onFrameFetched s rid image release).1.tasks = s.tasks
          ∧ postCosts (onFrameFetched s rid image release).2 = [])
        ∨ ∃ t, (onFrameFetched s rid image release).1.tasks = s.tasks ++ [t]
            ∧ postCosts (onFrameFetched s rid image release).2 = t.owes)
    ∧ (∀ (c : CodecId) (callback : Option DartHandle),
        (s.codecs c).platformImage_.frameCount ≠ 0 →
        ∃ x, getNextMultiframe s c callback = some x
          ∧ ((x.1.tasks = s.tasks ∧ postCosts x.2 = [])
             ∨ ∃ t, x.1.tasks = s.tasks ++ [t] ∧ postCosts x.2 = t.owes)) := by
  refine ⟨?_, ?_, ?_, ?_, ?_, ?_⟩
  · by_cases hc : (s.codecs ref.codec).canceled_ = true
    · exact ⟨Task.dropRef ref, by simp [runDecodeSingle, hc, System.post],
        Or.inl ⟨by simp [runDecodeSingle, hc, finishCosts], rfl⟩⟩
    · by_cases hh : (s.codecs ref.codec).platformImage_.handle = 0
      · exact ⟨Task.dropRef ref, by simp [runDecodeSingle, hc, hh, System.post],
          Or.inl ⟨by simp [runDecodeSingle, hc, hh, finishCosts], rfl⟩⟩
      · by_cases hp : e.decodeResult.1.pixels = 0
        · refine ⟨Task.failClosure ref,
            by simp [runDecodeSingle, hc, hh, hp, System.post, System.setCodec],
            Or.inl ⟨?_, rfl⟩⟩
          have hev : (runDecodeSingle s ref cost e).2
              = [Event.decode (s.codecs ref.codec).platformImage_ 0,
                 Event.log LogMessage.failToDecodeBitmap, Event.finishTask cost]
                ++ (releasePlatformImage (s.codecs ref.codec)).2 := by
            simp [runDecodeSingle, hc, hh, hp]
          rw [hev, finishCosts_append, finishCosts_release]
          simp [finishCosts]
        · refine ⟨Task.uploadSingle ref cost e.decodeResult.1 e.decodeResult.2,
            by simp [runDecodeSingle, hc, hh, hp, System.post, System.setCodec],
            Or.inr ⟨?_, _, _, rfl⟩⟩
          have hev : (runDecodeSingle s ref cost e).2
              = [Event.decode (s.codecs ref.codec).platformImage_ 0]
                ++ (if e.decodeResult.1.pixelsCopied
                    then (releasePlatformImage (s.codecs ref.codec)).2 else []) := by
            cases hcp : e.decodeResult.1.pixelsCopied <;>
              simp [runDecodeSingle, hc, hh, hp, hcp]
          rw [hev, finishCosts_append]
          split
          · rw [finishCosts_release]; simp [finishCosts]
          · simp [finishCosts]
  · intro idx
    by_cases hc : (s.codecs ref.codec).canceled_ = true
    · exact ⟨Task.dropRef ref, by simp [runDecodeMulti, hc, System.post],
        Or.inl ⟨by simp [runDecodeMulti, hc, finishCosts], rfl⟩⟩
    · by_cases hh : (s.codecs ref.codec).platformImage_.handle = 0
      · exact ⟨Task.dropRef ref, by simp [runDecodeMulti, hc, hh, System.post],
          Or.inl ⟨by simp [runDecodeMulti, hc, hh, finishCosts], rfl⟩⟩
      · by_cases hp : e.decodeResult.1.pixels = 0
        · refine ⟨Task.failClosure ref,
            by simp [runDecodeMulti, hc, hh, hp, System.post, System.setCodec],
            Or.inl ⟨?_, rfl⟩⟩
          have hev : (runDecodeMulti s ref cost idx e).2
              = [Event.decode (s.codecs ref.codec).platformImage_ idx,
                 Event.log LogMessage.failToDecodeGifFrame, Event.finishTask cost]
                ++ (releasePlatformImage (s.codecs ref.codec)).2 := by
            simp [runDecodeMulti, hc, hh, hp]
          rw [hev, finishCosts_append, finishCosts_release]
          simp [finishCosts]
        · exact ⟨Task.uploadMulti ref cost e.decodeResult.1 e.decodeResult.2,
            by simp [runDecodeMulti, hc, hh, hp, System.post],
            Or.inr ⟨by simp [runDecodeMulti, hc, hh, hp, finishCosts], _, _, rfl⟩⟩
  · intro b rb
    by_cases hc : (s.codecs ref.codec).canceled_ = true
    · refine ⟨?_, Task.dropRef ref, by simp [runUploadSingle, hc, System.post], rfl⟩
      have hev : (runUploadSingle s ref cost b rb e).2
          = callReleaseBitmap rb b ++ [Event.finishTask cost] := by
        simp [runUploadSingle, hc]
      rw [hev, finishCosts_append, finishCosts_releaseBitmap]
      simp [finishCosts]
    · refine ⟨?_, Task.completeSingle ref
          (if e.ioStatusValid then UploadTexture e b else (b, none)).2, ?_, rfl⟩
      · have hev : (runUploadSingle s ref cost b rb e).2
            = (if e.ioStatusValid then [Event.uploadTexture b] else [])
              ++ callReleaseBitmap rb (if e.ioStatusValid then UploadTexture e b else (b, none)).1
              ++ [Event.finishTask cost]
              ++ (if b.pixelsCopied then [] else (releasePlatformImage (s.codecs ref.codec)).2) := by
          cases hcp : b.pixelsCopied <;> simp [runUploadSingle, hc, hcp]
        rw [hev, finishCosts_append, finishCosts_append, finishCosts_append,
          finishCosts_releaseBitmap]
        cases hcp : b.pixelsCopied <;> cases hio : e.ioStatusValid <;>
          simp only [Bool.false_eq_true, if_true, if_false, finishCosts_release] <;>
          simp [finishCosts]
      · cases hcp : b.pixelsCopied <;>
          simp [runUploadSingle, hc, hcp, System.post, System.setCodec]
  · intro b rb
    by_cases hc : (s.codecs ref.codec).canceled_ = true
    · refine ⟨?_, Task.dropRef ref, by simp [runUploadMulti, hc, System.post], rfl⟩
      have hev : (runUploadMulti s ref cost b rb e).2
          = callReleaseBitmap rb b ++ [Event.finishTask cost] := by
        simp [runUploadMulti, hc]
      rw [hev, finishCosts_append, finishCosts_releaseBitmap]
      simp [finishCosts]
    · refine ⟨?_, Task.completeMulti ref
          (if e.ioStatusValid then UploadTexture e b else (b, none)).2,
          by simp [runUploadMulti, hc, System.post], rfl⟩
      have hev : (runUploadMulti s ref cost b rb e).2
          = (if e.ioStatusValid then [Event.uploadTexture b] else [])
            ++ callReleaseBitmap rb (if e.ioStatusValid then UploadTexture e b else (b, none)).1
            ++ [Event.finishTask cost] := by
        simp [runUploadMulti, hc]
      rw [hev, finishCosts_append, finishCosts_append, finishCosts_releaseBitmap]
      cases hio : e.ioStatusValid <;> simp [finishCosts]
  · intro rid image release
    unfold onFrameFetched
    dsimp only
    split
    · exact Or.inl ⟨rfl, postCosts_release release image⟩
    · rename_i codecRef _
      refine Or.inr ?_
      repeat' split
      · exact ⟨_, rfl, rfl⟩
      · exact ⟨_, rfl, rfl⟩
      · exact ⟨_, rfl, by rw [postCosts_release]; rfl⟩
      · exact ⟨_, rfl, rfl⟩
      · exact ⟨_, rfl, rfl⟩
  · intro c callback hfc0
    by_cases hc : (s.codecs c).canceled_ = true
    · exact ⟨(s, []), by simp [getNextMultiframe, hc], Or.inl ⟨rfl, rfl⟩⟩
    · rcases callback with _ | cb
      · exact ⟨_, by simp [getNextMultiframe, hc, hfc0]; rfl,
          Or.inr ⟨_, by rfl, by rfl⟩⟩
      · cases hcl : cb.isClosure
        · exact ⟨_, by simp [getNextMultiframe, hc, hfc0, hcl]; rfl,
            Or.inr ⟨_, by rfl, by rfl⟩⟩
        · exact ⟨_, by simp [getNextMultiframe, hc, hfc0, hcl]; rfl,
            Or.inr ⟨_, by rfl, by rfl⟩⟩

/-- Witness of `finishTask_exactly_once`: the kick-off of the animation `gif5` posts a task
of cost 16. -/
theorem finishTask_exactly_once_witness :
    ∃ x, getNextMultiframe fetchedGifSystem 0 none = some x
      ∧ ((x.1.tasks = fetchedGifSystem.tasks ∧ postCosts x.2 = [])
         ∨ ∃ t, x.1.tasks = fetchedGifSystem.tasks ++ [t] ∧ postCosts x.2 = t.owes) :=
  (finishTask_exactly_once fetchedGifSystem ⟨0, 0⟩ 16 envOk).2.2.2.2.2 0 none (by decide)

/-! ## C14 -/

/-- C14 fails.  The provider delivers `image42` (handle 42, one frame), the codec is never
canceled and `decode` returns a bitmap without pixels: the image is released once,
`finishTask(16)` is called once and no upload closure is posted, but the Dart VM state can
no longer be locked when the failure closure runs, so the pending callback is never invoked
and stays in the queue. -/
theorem decode_failure_without_vm_state :
    (runActions fresh0 decodeFailedNoVmRun).map
        (fun r => (r.2.filter isInvoke, r.2.filter isReleaseImage, r.2.filter isCoordinator,
                   (r.1.codecs 0).getFrameCallbacks_, (r.1.codecs 0).status_,
                   (r.1.codecs 0).canceled_, r.1.tasks))
      = some ([], [(Thread.worker, Event.releaseImage 3 image42)],
              [(Thread.provider, Event.postTask 16), (Thread.worker, Event.finishTask 16)],
              [1], Status.Complete, false, []) := by
  rfl

/-- C14, amended.  The provider answers a frame request of a codec that is not canceled with an
image that has a handle and at most one frame, and the release callback `r`; `decode`
returns a bitmap without pixels; the Dart VM state can be locked when the failure closure
runs.  Then the run makes exactly these calls, in this order: `postTask(cost)`; on the
worker `decode(image, 0)`, the error log, `finishTask(cost)` and `r(image)`; on the UI
runner one invocation with null for every queued callback, in insertion order; the
reference is deleted.  No closure is left (no upload closure was posted); the codec is
`Complete`, its queue is empty, it holds no image, and its cache is as it was before the
request (empty, when it was empty). -/
theorem decode_failure_single (t : System) (c : CodecId) (l : List (RequestId × RequestKind))
    (rid : RequestId) (h : Nat) (image : PlatformImage) (r : Nat) (e1 e2 : Env)
    (ho : t.outstanding = l ++ [(rid, RequestKind.frame)])
    (hreg : t.pendingCodec_.lookup rid = some ⟨h, c⟩)
    (hnc : (t.codecs c).canceled_ = false)
    (himg : image.handle ≠ 0) (hsingle : ¬ image.frameCount > 1)
    (hp : e1.decodeResult.1.pixels = 0) (hvm : e2.dartStateValid = true) :
    ∃ tC,
      runActions t [Action.answer l.length image (some r), Action.run t.tasks.length e1,
                    Action.run t.tasks.length e2]
        = some (tC,
            [(Thread.provider, Event.postTask (imageDecodingCost image.width image.height)),
             (Thread.worker, Event.decode image 0),
             (Thread.worker, Event.log LogMessage.failToDecodeBitmap),
             (Thread.worker, Event.finishTask (imageDecodingCost image.width image.height)),
             (Thread.worker, Event.releaseImage r image)]
            ++ (t.codecs c).getFrameCallbacks_.map
                 (fun cb => (Thread.uiRunner, Event.invokeFrame c cb none))
            ++ [(Thread.uiRunner, Event.deleteRef h)])
      ∧ tC.tasks = t.tasks
      ∧ tC.codecs c
          = { t.codecs c with
              status_ := Status.Complete, getFrameCallbacks_ := [],
              platformImage_ := { image with handle := 0 },
              releasePlatformImageCallback_ := none, assignedPlatformImage_ := true } := by
  obtain ⟨tA, hA, hAt, hAc⟩ := stage_answer_exact t c l rid h image (some r) ho hreg hnc himg hsingle
  have hA1 : (tA.codecs c).canceled_ = false ∧ (tA.codecs c).platformImage_ = image := by
    rw [hAc]; simp [assignPlatformImage, hnc]
  obtain ⟨tD, hD, hDt, hDc⟩ := stage_decode_fail_exact tA t.tasks ⟨h, c⟩ _ e1 hAt hA1.1
    (by rw [hA1.2]; exact himg) hp
  simp only at hDc
  obtain ⟨tC, hC, hCt, hCc⟩ := stage_fail_exact tD t.tasks ⟨h, c⟩ e2 hDt hvm
  simp only at hCc
  refine ⟨tC, ?_, hCt, ?_⟩
  · have hN : runActions tC [] = some (tC, []) := rfl
    rw [runActions_cons_of_step hA (runActions_cons_of_step hD
      (runActions_cons_of_step hC hN))]
    simp [hDc, hAc, tagged, invokeFrames, releasePlatformImage, assignPlatformImage, himg]
  · rw [hCc, hDc, hAc]
    simp [releasePlatformImage, assignPlatformImage]

/-- Witness of `decode_failure_single`. -/
theorem decode_failure_single_witness :
    ∃ tC,
      runActions pendingFrameSystem
          [Action.answer 0 image42 (some 3), Action.run 0 envDecodeFails, Action.run 0 envOk]
        = some (tC,
            [(Thread.provider, Event.postTask 16),
             (Thread.worker, Event.decode image42 0),
             (Thread.worker, Event.log LogMessage.failToDecodeBitmap),
             (Thread.worker, Event.finishTask 16),
             (Thread.worker, Event.releaseImage 3 image42),
             (Thread.uiRunner, Event.invokeFrame 0 1 none),
             (Thread.uiRunner, Event.deleteRef 0)])
      ∧ tC.tasks = []
      ∧ (tC.codecs 0).status_ = Status.Complete ∧ (tC.codecs 0).cachedFrame_ = none := by
  obtain ⟨tC, h1, h2, h3⟩ := decode_failure_single pendingFrameSystem 0 [] 0 0 image42 3
    envDecodeFails envOk rfl rfl rfl (by decide) (by decide) rfl rfl
  exact ⟨tC, h1, h2, by rw [h3], by rw [h3]; rfl⟩

/-! ## C15 -/

/-- C15 fails.  (a) A still image is decoded, its upload yields no GPU image, the codec is not
canceled, and the Dart VM state can no longer be locked in the completion closure: the
callback is never invoked and stays queued.  (b) In `secondUploadFailsRun` two frames of an
animation are in flight; the completion closure of the first one delivers to both callbacks
and empties the queue; the upload of the second frame fails, and its completion closure
finds the queue empty and returns: the platform image (handle 5) is not released, and the
next `getNextFrame` queues its callback and posts a decode task instead of answering
null. -/
theorem upload_failure_without_delivery :
    (runActions fresh0 uploadFailedNoVmRun).map
        (fun r => (r.2.filter isInvoke, (r.1.codecs 0).getFrameCallbacks_,
                   (r.1.codecs 0).status_, (r.1.codecs 0).canceled_, r.1.tasks))
      = some ([], [1], Status.Complete, false, [])
    ∧ (runActions fresh0 (secondUploadFailsRun.take 13)).map
        (fun r => (r.1.tasks, (r.1.codecs 0).getFrameCallbacks_, (r.1.codecs 0).canceled_))
      = some ([Task.completeMulti ⟨3, 0⟩ none], [], false)
    ∧ (runActions fresh0 (secondUploadFailsRun.take 14)).map
        (fun r => (r.2.filter isReleaseImage, (r.1.codecs 0).platformImage_.handle,
                   (r.1.codecs 0).status_, r.1.tasks))
      = some ([], 5, Status.Complete, [])
    ∧ (runActions fresh0 secondUploadFailsRun).map
        (fun r => (r.2.filter isInvoke, r.1.tasks, (r.1.codecs 0).getFrameCallbacks_))
      = some ([(Thread.uiRunner, Event.invokeFrame 0 1 (some ⟨77, 300⟩)),
               (Thread.uiRunner, Event.invokeFrame 0 2 (some ⟨77, 300⟩)),
               (Thread.uiRunner, Event.invokeFrame 0 3 (some ⟨77, 300⟩))],
              [Task.decodeMulti ⟨4, 0⟩ 16 0], [4]) := by
  refine ⟨by rfl, by rfl, by rfl, by rfl⟩

/-- C15, amended.  On a codec that is not canceled: an upload closure whose upload yields no
GPU image posts the completion closure without a texture.  When that closure finds a
callback queued and can lock the Dart VM state, then (a) on the single-frame path, with an
empty cache, it logs, invokes every queued callback once with null in order, empties the
queue and sets `Complete`, the cache staying empty; (b) on the multi-frame path it releases
the platform image, logs, invokes every queued callback once with null, empties the queue
and sets `Complete`, and afterwards every `getNextFrame` on the animation invokes its
closure with null and changes nothing (no decode task, no request).  When the queue is
empty or the VM state cannot be locked, the multi-frame completion closure only sets
`Complete`: it invokes nothing and does not release the platform image. -/
theorem upload_failure (s : System) (ref : CodecRef) (e : Env)
    (hnc : (s.codecs ref.codec).canceled_ = false) :
    (∀ (cost : Nat) (bitmap : Bitmap) (rb : ReleaseBitmapCallback),
        (if e.ioStatusValid then UploadTexture e bitmap else (bitmap, none)).2 = none →
        (runUploadSingle s ref cost bitmap rb e).1.tasks
            = s.tasks ++ [Task.completeSingle ref none]
          ∧ (runUploadMulti s ref cost bitmap rb e).1.tasks
            = s.tasks ++ [Task.completeMulti ref none])
    ∧ ((s.codecs ref.codec).getFrameCallbacks_ ≠ [] → e.dartStateValid = true →
        (s.codecs ref.codec).cachedFrame_ = none →
        runCompleteSingle s ref none e
          = (s.setCodec ref.codec
               { s.codecs ref.codec with status_ := Status.Complete, getFrameCallbacks_ := [] },
             [Event.log LogMessage.failToUploadGpu]
               ++ invokeFrames ref.codec (s.codecs ref.codec).getFrameCallbacks_ none
               ++ [Event.deleteRef ref.ptr]))
    ∧ ((s.codecs ref.codec).getFrameCallbacks_ ≠ [] → e.dartStateValid = true →
        ∃ s1, runCompleteMulti s ref none e
            = some (s1, (releasePlatformImage (s.codecs ref.codec)).2
                ++ [Event.log LogMessage.failToUploadGpu]
                ++ invokeFrames ref.codec (s.codecs ref.codec).getFrameCallbacks_ none
                ++ [Event.deleteRef ref.ptr])
          ∧ s1.codecs ref.codec
              = { (releasePlatformImage (s.codecs ref.codec)).1 with
                  status_ := Status.Complete, getFrameCallbacks_ := [] }
          ∧ s1.tasks = s.tasks ∧ s1.outstanding = s.outstanding
          ∧ ((s.codecs ref.codec).platformImage_.frameCount > 1 →
              ∀ callback : DartHandle, callback.isClosure = true →
                getNextFrame s1 ref.codec callback
                  = some (s1, [Event.log LogMessage.noPlatformImageRetained,
                               Event.invokeFrame ref.codec callback.id none])))
    ∧ (((s.codecs ref.codec).getFrameCallbacks_ = [] ∨ e.dartStateValid = false) →
        ∃ evs, runCompleteMulti s ref none e
            = some (s.setCodec ref.codec { s.codecs ref.codec with status_ := Status.Complete },
                    evs ++ [Event.deleteRef ref.ptr])
          ∧ (tagged Thread.uiRunner evs).filter isInvoke = []
          ∧ (tagged Thread.uiRunner evs).filter isReleaseImage = []) := by
  refine ⟨?_, ?_, ?_, ?_⟩
  · intro cost bitmap rb hup
    constructor
    · simp only [runUploadSingle, hnc, hup]
      cases bitmap.pixelsCopied <;> simp [System.post, System.setCodec]
    · simp [runUploadMulti, hnc, hup, System.post]
  · intro hq hvm hcf
    simp [runCompleteSingle, hnc, hq, hvm, hcf]
  · intro hq hvm
    refine ⟨(s.setCodec ref.codec
        { (releasePlatformImage { s.codecs ref.codec with status_ := Status.Complete }).1 with
          getFrameCallbacks_ := [] }), ?_, ?_, rfl, rfl, ?_⟩
    · simp [runCompleteMulti, hnc, hq, hvm, releasePlatformImage]
    · simp [System.setCodec, releasePlatformImage]
    · intro hfc callback hcl
      simp [getNextFrame, hcl, System.setCodec, releasePlatformImage, hnc, hfc]
  · intro h
    by_cases hq : (s.codecs ref.codec).getFrameCallbacks_ = []
    · exact ⟨[], by simp [runCompleteMulti, hnc, hq], rfl, rfl⟩
    · rcases h with h | h
      · exact absurd h hq
      · exact ⟨[Event.log LogMessage.invalidDartState],
          by simp [runCompleteMulti, hnc, hq, h], rfl, rfl⟩

/-- Witness of `upload_failure`: the completion closure of a failed upload on the animation
of `animatedSystem`, with two callbacks queued. -/
theorem upload_failure_witness :
    ∃ s1, runCompleteMulti animatedSystem ⟨2, 0⟩ none envOk
        = some (s1, [Event.releaseImage 50 gif5, Event.log LogMessage.failToUploadGpu,
                     Event.invokeFrame 0 2 none, Event.invokeFrame 0 3 none,
                     Event.deleteRef 2])
      ∧ getNextFrame s1 0 (closure 4)
          = some (s1, [Event.log LogMessage.noPlatformImageRetained,
                       Event.invokeFrame 0 4 none]) := by
  obtain ⟨s1, h1, _, _, _, h5⟩ :=
    (upload_failure animatedSystem ⟨2, 0⟩ envOk (by rfl)).2.2.1 (by decide) rfl
  exact ⟨s1, h1, h5 (by decide) (closure 4) rfl⟩

/-! ## C16 -/

/-- C16 fails.  A fetch fails (the provider delivers no handle) and the Dart VM state of the
queued callback cannot be locked when the fetch-failed closure runs: no callback is invoked,
but the frame queue still holds the callback when the closure has returned. -/
theorem fetch_failed_without_vm_state_keeps_queue :
    (runActions fresh0 fetchFailedNoVmRun).map
        (fun r => (r.2.filter isInvoke, (r.1.codecs 0).getFrameCallbacks_,
                   (r.1.codecs 0).status_, r.1.tasks))
      = some ([], [1], Status.Complete, []) := by
  rfl

/-- C16, amended.  When the Dart VM state cannot be locked: the closures that flush the frame
queue on the UI runner (the failure closure after a failed fetch or decode, the completion
closure of the single-frame path, the completion closure of the multi-frame path) invoke no
callback and leave the frame queue exactly as it was, so it is not cleared; the UI closure
of `getImageInfo` invokes no callback and leaves the info queue empty. -/
theorem vm_state_lost (s : System) (ref : CodecRef) (textureImage : Option Nat)
    (image : PlatformImage) (release : ReleaseImageCallback) (env : Env)
    (hvm : env.dartStateValid = false) :
    ((tagged Thread.uiRunner (failClosure s ref env).2).filter isInvoke = []
      ∧ ((failClosure s ref env).1.codecs ref.codec).getFrameCallbacks_
          = (s.codecs ref.codec).getFrameCallbacks_)
    ∧ ((tagged Thread.uiRunner (runCompleteSingle s ref textureImage env).2).filter isInvoke = []
      ∧ ((runCompleteSingle s ref textureImage env).1.codecs ref.codec).getFrameCallbacks_
          = (s.codecs ref.codec).getFrameCallbacks_)
    ∧ (∃ x, runCompleteMulti s ref textureImage env = some x
      ∧ (tagged Thread.uiRunner x.2).filter isInvoke = []
      ∧ (x.1.codecs ref.codec).getFrameCallbacks_ = (s.codecs ref.codec).getFrameCallbacks_)
    ∧ ((tagged Thread.uiRunner (runInfoFlush s ref image release env).2).filter isInvoke = []
      ∧ ((runInfoFlush s ref image release env).1.codecs ref.codec).getInfoCallbacks_ = []) := by
  refine ⟨?_, ?_, ?_, ?_⟩
  · by_cases hq : (s.codecs ref.codec).getFrameCallbacks_ = []
    · simp [failClosure, hq, tagged, isInvoke, System.setCodec]
    · simp [failClosure, hvm, hq, tagged, isInvoke, System.setCodec]
  · by_cases hc : (s.codecs ref.codec).canceled_ = true
    · simp [runCompleteSingle, hc, tagged, isInvoke]
    · by_cases hq : (s.codecs ref.codec).getFrameCallbacks_ = []
      · simp [runCompleteSingle, hc, hq, tagged, isInvoke, System.setCodec]
      · simp [runCompleteSingle, hc, hvm, hq, tagged, isInvoke, System.setCodec]
  · by_cases hc : (s.codecs ref.codec).canceled_ = true
    · exact ⟨_, by simp [runCompleteMulti, hc]; rfl, by simp [tagged, isInvoke], rfl⟩
    · by_cases hq : (s.codecs ref.codec).getFrameCallbacks_ = []
      · exact ⟨_, by simp [runCompleteMulti, hc, hq]; rfl,
          by simp [tagged, isInvoke], by simp [System.setCodec, hq]⟩
      · exact ⟨_, by simp [runCompleteMulti, hc, hvm, hq]; rfl,
          by simp [tagged, isInvoke], by simp [System.setCodec]⟩
  · have hr := filter_isInvoke_tagged_release
      (assignPlatformImage (s.codecs ref.codec) image release) Thread.uiRunner
    refine ⟨?_, by simp [runInfoFlush, System.setCodec]⟩
    simp only [runInfoFlush, tagged_append, List.filter_append, hr]
    by_cases hc : (s.codecs ref.codec).canceled_ = true <;>
      by_cases hh : image.handle = 0 <;>
      by_cases hq : (s.codecs ref.codec).getInfoCallbacks_ = [] <;>
      simp [hc, hh, hq, hvm, tagged, isInvoke]

/-- Witness of `vm_state_lost`. -/
theorem vm_state_lost_witness :
    ((tagged Thread.uiRunner (failClosure twoRequestsSystem ⟨0, 0⟩ envNoVm).2).filter isInvoke = []
      ∧ ((failClosure twoRequestsSystem ⟨0, 0⟩ envNoVm).1.codecs 0).getFrameCallbacks_ = [1])
    ∧ ((tagged Thread.uiRunner
          (runInfoFlush twoRequestsSystem ⟨1, 0⟩ gif6 (some 60) envNoVm).2).filter isInvoke = []
      ∧ ((runInfoFlush twoRequestsSystem ⟨1, 0⟩ gif6 (some 60) envNoVm).1.codecs 0).getInfoCallbacks_
          = []) :=
  have h := vm_state_lost twoRequestsSystem ⟨0, 0⟩ none gif6 (some 60) envNoVm rfl
  have h2 := vm_state_lost twoRequestsSystem ⟨1, 0⟩ none gif6 (some 60) envNoVm rfl
  ⟨h.1, h2.2.2.2⟩

/-! ## C17 -/

/-- C17 fails.  In `animationEndedRun` the first frame of an animation fails to decode, which
releases the platform image: the codec is then not canceled, `Complete`, has
`frameCount = 3` but handle 0, and no cached frame.  The `getNextFrame` that follows invokes
its callback synchronously with null; it makes no request (the run has only the first one),
queues nothing, retains nothing, and the state stays `Complete`. -/
theorem ended_animation_answers_null :
    (runActions fresh0 (animationEndedRun.take 5)).map
        (fun r => ((r.1.codecs 0).canceled_, (r.1.codecs 0).status_,
                   (r.1.codecs 0).platformImage_.frameCount,
                   (r.1.codecs 0).platformImage_.handle, (r.1.codecs 0).cachedFrame_))
      = some (false, Status.Complete, 3, 0, none)
    ∧ (runActions fresh0 animationEndedRun).map
        (fun r => (r.2.filter isInvoke, r.2.filter isRequest, (r.1.codecs 0).status_,
                   (r.1.codecs 0).getFrameCallbacks_, r.1.pendingCodec_))
      = some ([(Thread.uiRunner, Event.invokeFrame 0 1 none),
               (Thread.uiRunner, Event.invokeFrame 0 2 none)],
              [(Thread.uiRunner, Event.request 0 RequestKind.frame)],
              Status.Complete, [], []) := by
  refine ⟨by rfl, by rfl⟩

/-- C17, amended.  On a codec that is not canceled and `Complete`, `getNextFrame` with a
closure (1) when the image is not an animation and no frame is cached, invokes nothing: it
queues the callback, takes the next request id, retains the codec under it, makes exactly
one `provider->request` and leaves the state `Downloading`; (2) when the image is an
animation whose handle is 0, logs, invokes the callback with null and changes nothing. -/
theorem anomaly_reset (s : System) (c : CodecId) (callback : DartHandle)
    (hcl : callback.isClosure = true) (hnc : (s.codecs c).canceled_ = false)
    (hst : (s.codecs c).status_ = Status.Complete) :
    (¬ (s.codecs c).platformImage_.frameCount > 1 → (s.codecs c).cachedFrame_ = none →
      ∃ s1, getNextFrame s c callback
          = some (s1, [Event.newRef s.heapNext, Event.request s.requestId RequestKind.frame])
        ∧ s1.codecs c = { s.codecs c with
            status_ := Status.Downloading, requestId_ := s.requestId,
            getFrameCallbacks_ := (s.codecs c).getFrameCallbacks_ ++ [callback.id] }
        ∧ s1.requestId = (s.requestId + 1) % 2 ^ 32
        ∧ s1.pendingCodec_ = retainCodec s.pendingCodec_ s.requestId ⟨s.heapNext, c⟩
        ∧ s1.outstanding = s.outstanding ++ [(s.requestId, RequestKind.frame)]
        ∧ s1.tasks = s.tasks)
    ∧ ((s.codecs c).platformImage_.frameCount > 1 → (s.codecs c).platformImage_.handle = 0 →
        getNextFrame s c callback
          = some (s, [Event.log LogMessage.noPlatformImageRetained,
                      Event.invokeFrame c callback.id none])) := by
  constructor
  · intro hfc hcf
    refine ⟨(getNextFrameEnqueue s c { s.codecs c with status_ := Status.New } callback).1, ?_, ?_⟩
    · simp [getNextFrame, hcl, hnc, hst, hfc, hcf, getNextFrameEnqueue, issueRequest, nextRequestId]
    · simp [getNextFrameEnqueue, issueRequest, nextRequestId]
  · intro hfc hh
    simp [getNextFrame, hcl, hnc, hst, hfc, hh]

/-- Witness of `anomaly_reset`. -/
theorem anomaly_reset_witness :
    (∃ s1, getNextFrame anomalousSystem 0 (closure 1)
          = some (s1, [Event.newRef 0, Event.request 0 RequestKind.frame])
        ∧ s1.codecs 0 = { status_ := Status.Downloading, requestId_ := 0,
                          getFrameCallbacks_ := [1] }
        ∧ s1.requestId = 1
        ∧ s1.pendingCodec_ = [(0, ⟨0, 0⟩)]
        ∧ s1.outstanding = [(0, RequestKind.frame)]
        ∧ s1.tasks = [])
    ∧ getNextFrame endedAnimationSystem 0 (closure 1)
        = some (endedAnimationSystem,
                [Event.log LogMessage.noPlatformImageRetained, Event.invokeFrame 0 1 none]) :=
  have h := anomaly_reset anomalousSystem 0 (closure 1) rfl (by rfl) (by rfl)
  have h2 := anomaly_reset endedAnimationSystem 0 (closure 1) rfl (by rfl) (by rfl)
  ⟨h.1 (by decide) (by rfl), h2.2 (by decide) (by rfl)⟩

/-! ## C18 -/

/-- C18, at its failing input.  For the delivered image of 32768 by 16384 pixels the product
`width * height * 4` is 2147483648, which the `int` multiplication of the code cannot hold:
wrapped to 32 bits and converted to `uint64_t`, the cost handed to `postTask` is
18446744071562067968. -/
theorem large_image_cost_wraps :
    (runActions fresh0 largeImageRun).map (fun r => r.2.filter isCoordinator)
      = some [(Thread.provider, Event.postTask 18446744071562067968)]
    ∧ imageLarge.width * imageLarge.height * 4 = 2147483648 := by
  refine ⟨by rfl, by decide⟩

/-! ## C19 -/

/-- C19.  When the completion closure delivers an uploaded texture `x` (the codec is not
canceled, a callback is queued, the Dart VM state can be locked): on the single-frame path
every queued callback receives the frame `(x, 0)`, which is also what is cached; on the
multi-frame path every queued callback receives `x` with the duration
`durationInMs / frameCount` (integer quotient) of the platform image the codec holds at that
moment; with three frames and 900 ms that duration is 300. -/
theorem frame_duration (s : System) (ref : CodecRef) (x : Nat) (e : Env)
    (hnc : (s.codecs ref.codec).canceled_ = false)
    (hq : (s.codecs ref.codec).getFrameCallbacks_ ≠ [])
    (hvm : e.dartStateValid = true) :
    runCompleteSingle s ref (some x) e
        = (s.setCodec ref.codec
             { s.codecs ref.codec with
               status_ := Status.Complete, cachedFrame_ := some ⟨x, 0⟩,
               getFrameCallbacks_ := [] },
           invokeFrames ref.codec (s.codecs ref.codec).getFrameCallbacks_ (some ⟨x, 0⟩)
             ++ [Event.deleteRef ref.ptr])
    ∧ ((s.codecs ref.codec).platformImage_.frameCount ≠ 0 →
        runCompleteMulti s ref (some x) e
          = some (s.setCodec ref.codec
                    { s.codecs ref.codec with
                      status_ := Status.Complete, getFrameCallbacks_ := [] },
                  invokeFrames ref.codec (s.codecs ref.codec).getFrameCallbacks_
                      (some ⟨x, Int.tdiv (s.codecs ref.codec).platformImage_.durationInMs
                                  (s.codecs ref.codec).platformImage_.frameCount⟩)
                    ++ [Event.deleteRef ref.ptr]))
    ∧ ((s.codecs ref.codec).platformImage_.frameCount = 3 →
        (s.codecs ref.codec).platformImage_.durationInMs = 900 →
        ∃ s1, runCompleteMulti s ref (some x) e
          = some (s1, invokeFrames ref.codec (s.codecs ref.codec).getFrameCallbacks_
                        (some ⟨x, 300⟩) ++ [Event.deleteRef ref.ptr])) := by
  refine ⟨?_, ?_, ?_⟩
  · simp [runCompleteSingle, hnc, hq, hvm]
  · intro hfc
    simp [runCompleteMulti, hnc, hq, hvm, hfc]
  · intro hfc hd
    refine ⟨s.setCodec ref.codec
      { s.codecs ref.codec with status_ := Status.Complete, getFrameCallbacks_ := [] }, ?_⟩
    have h300 : Int.tdiv 900 3 = 300 := by decide
    simp [runCompleteMulti, hnc, hq, hvm, hfc, hd, h300]

/-- Witness of `frame_duration`. -/
theorem frame_duration_witness :
    (runCompleteSingle pendingFrameSystem ⟨0, 0⟩ (some 77) envOk).2
        = [Event.invokeFrame 0 1 (some ⟨77, 0⟩), Event.deleteRef 0]
    ∧ (runCompleteMulti animatedSystem ⟨2, 0⟩ (some 77) envOk).map (fun r => r.2)
        = some [Event.invokeFrame 0 2 (some ⟨77, 300⟩), Event.invokeFrame 0 3 (some ⟨77, 300⟩),
                Event.deleteRef 2]
    ∧ (runActions fresh0 fourFramesRun).map (fun r => r.2.filter isInvoke)
        = some [(Thread.uiRunner, Event.invokeFrame 0 1 (some ⟨77, 300⟩)),
                (Thread.uiRunner, Event.invokeFrame 0 2 (some ⟨77, 300⟩)),
                (Thread.uiRunner, Event.invokeFrame 0 3 (some ⟨77, 300⟩)),
                (Thread.uiRunner, Event.invokeFrame 0 4 (some ⟨77, 300⟩))] := by
  have h := frame_duration pendingFrameSystem ⟨0, 0⟩ 77 envOk rfl (by decide) rfl
  have h2 := frame_duration animatedSystem ⟨2, 0⟩ 77 envOk (by rfl) (by decide) rfl
  refine ⟨by rw [h.1]; rfl, by rw [h2.2.1 (by decide)]; rfl, by rfl⟩

/-! ## C20 -/

/-- C20.  The info list of a platform image `p` is
`[p.width, p.height, p.frameCount, p.durationInMs, p.repetitionCount]`; `getImageInfo` with
a closure on a canceled codec invokes it once with `[0, 0, 1, 0, -1]` and does nothing else:
the state is as before, so nothing is queued and no request is made. -/
theorem info_list (p : PlatformImage) (s : System) (c : CodecId) (callback : DartHandle)
    (hcl : callback.isClosure = true) (hc : (s.codecs c).canceled_ = true) :
    _DartListOfImageInfoOf p = [p.width, p.height, p.frameCount, p.durationInMs, p.repetitionCount]
    ∧ getImageInfo s c callback = (s, [Event.invokeInfo c callback.id [0, 0, 1, 0, -1]]) := by
  refine ⟨rfl, ?_⟩
  simp [getImageInfo, hcl, hc, _DartListOfImageInfoDefault, _DartListOfImageInfo, InfiniteLoop]

/-- Witness of `info_list`. -/
theorem info_list_witness :
    _DartListOfImageInfoOf gif5 = [2, 2, 3, 900, -1]
    ∧ getImageInfo (cancel fresh0 0).1 0 (closure 1)
        = ((cancel fresh0 0).1, [Event.invokeInfo 0 1 [0, 0, 1, 0, -1]]) :=
  info_list gif5 (cancel fresh0 0).1 0 (closure 1) rfl (by rfl)

/-! ## C21 -/

theorem runActions_info_calls_requesting (c : CodecId) (cbs : List Nat) (s : System)
    (hnc : (s.codecs c).canceled_ = false) (hna : (s.codecs c).assignedPlatformImage_ = false)
    (hr : (s.codecs c).requestingImageInfo = true) :
    runActions s (getImageInfoCalls c cbs)
      = some (s.setCodec c { s.codecs c with
                getInfoCallbacks_ := (s.codecs c).getInfoCallbacks_ ++ cbs }, []) := by
  induction cbs generalizing s with
  | nil => simp [getImageInfoCalls, runActions, System.setCodec]
  | cons cb cbs ih =>
    have h1 : step s (Action.getImageInfo c ⟨cb, true⟩)
        = some (s.setCodec c { s.codecs c with
                  getInfoCallbacks_ := (s.codecs c).getInfoCallbacks_ ++ [cb] }, []) := by
      simp [step, getImageInfo, hnc, hna, hr, onThread]
    have h2 := ih (s.setCodec c { s.codecs c with
                  getInfoCallbacks_ := (s.codecs c).getInfoCallbacks_ ++ [cb] })
      (by simp [System.setCodec, hnc]) (by simp [System.setCodec, hna])
      (by simp [System.setCodec, hr])
    have h3 := runActions_cons_of_step h1 h2
    simp only [getImageInfoCalls, List.map_cons] at h3 ⊢
    rw [h3]
    simp [System.setCodec]

/-- C21 fails.  Two `getImageInfo` calls on a fresh codec, the provider answers with `image7`,
the codec is not canceled, but the Dart VM state can no longer be locked when the UI
closure runs: neither callback is invoked; the queue is emptied and the image released all
the same. -/
theorem info_without_vm_state_delivers_nothing :
    (runActions fresh0 infoNoVmRun).map
        (fun r => (r.2.filter isInvoke, r.2.filter isReleaseImage,
                   (r.1.codecs 0).getInfoCallbacks_, (r.1.codecs 0).canceled_, r.1.tasks))
      = some ([], [(Thread.uiRunner, Event.releaseImage 70 image7)], [], false, []) := by
  rfl

/-- C21, amended.  On a codec that is not canceled, has no image assigned, has no info
request under way and an empty info queue, `M >= 1` calls of `getImageInfo` with closures
make exactly one `provider->request`.  When the provider answers with `image`, the UI
closure invokes every queued callback once, in insertion order, with the info list of
`image` if the Dart VM state can be locked, and invokes none (it logs "Invalid dart state.")
if it cannot.  In both cases it then releases `image` (when it has a handle and a release
function), and leaves the queue empty, `requestingImageInfo` false and the handle 0; every
`getImageInfo` with a closure on the state it leaves is answered at once with the info
list of `image` and changes nothing. -/
theorem info_only_path (s : System) (c : CodecId) (cb : Nat) (cbs : List Nat)
    (image : PlatformImage) (release : ReleaseImageCallback) (e : Env)
    (hnc : (s.codecs c).canceled_ = false)
    (hna : (s.codecs c).assignedPlatformImage_ = false)
    (hnr : (s.codecs c).requestingImageInfo = false)
    (hq : (s.codecs c).getInfoCallbacks_ = []) :
    ∃ s1, runActions s (getImageInfoCalls c (cb :: cbs))
        = some (s1, [(Thread.uiRunner, Event.newRef s.heapNext),
                     (Thread.uiRunner, Event.request s.requestId RequestKind.info)])
      ∧ (s1.codecs c).getInfoCallbacks_ = cb :: cbs
      ∧ ∃ s2, runActions s1 [Action.answer s.outstanding.length image release,
                             Action.run s.tasks.length e]
          = some (s2, tagged Thread.uiRunner
              ((if image.handle = 0
                  then [Event.log LogMessage.failToGetPlatformImageForImageInfo] else [])
               ++ (if e.dartStateValid = true
                     then invokeInfos c (cb :: cbs) (_DartListOfImageInfoOf image)
                     else [Event.log LogMessage.invalidDartState])
               ++ (if image.handle = 0 then [] else callRelease release image)
               ++ [Event.deleteRef s.heapNext]))
        ∧ s2.codecs c
            = { s.codecs c with
                platformImage_ := { image with handle := 0 },
                releasePlatformImageCallback_ := none, assignedPlatformImage_ := true,
                getInfoCallbacks_ := [], requestingImageInfo := false }
        ∧ s2.tasks = s.tasks ∧ s2.outstanding = s.outstanding
        ∧ ∀ callback : DartHandle, callback.isClosure = true →
            getImageInfo s2 c callback
              = (s2, [Event.invokeInfo c callback.id (_DartListOfImageInfoOf image)]) := by
  have h1 : step s (Action.getImageInfo c ⟨cb, true⟩)
      = some ((getImageInfo s c ⟨cb, true⟩).1,
              [(Thread.uiRunner, Event.newRef s.heapNext),
               (Thread.uiRunner, Event.request s.requestId RequestKind.info)]) := by
    simp [step, getImageInfo, hnc, hna, hnr, issueRequest, nextRequestId, onThread]
  have hk : (getImageInfo s c ⟨cb, true⟩).1.codecs c
        = { s.codecs c with getInfoCallbacks_ := [cb], requestingImageInfo := true }
      ∧ (getImageInfo s c ⟨cb, true⟩).1.pendingCodec_
          = retainCodec s.pendingCodec_ s.requestId ⟨s.heapNext, c⟩
      ∧ (getImageInfo s c ⟨cb, true⟩).1.outstanding
          = s.outstanding ++ [(s.requestId, RequestKind.info)]
      ∧ (getImageInfo s c ⟨cb, true⟩).1.tasks = s.tasks := by
    simp [getImageInfo, hnc, hna, hnr, hq, issueRequest, nextRequestId]
  obtain ⟨hk1, hk2, hk3, hk4⟩ := hk
  generalize (getImageInfo s c ⟨cb, true⟩).1 = sA at h1 hk1 hk2 hk3 hk4
  have h2 := runActions_info_calls_requesting c cbs sA (by rw [hk1]; exact hnc)
    (by rw [hk1]; exact hna) (by rw [hk1])
  have h3 := runActions_cons_of_step h1 h2
  rw [hk1] at h2 h3
  simp only [List.singleton_append, List.append_nil] at h3
  refine ⟨_, h3, by simp [System.setCodec], ?_⟩
  -- the provider answers
  have hA := step_answer_last
    (sA.setCodec c { s.codecs c with getInfoCallbacks_ := cb :: cbs, requestingImageInfo := true })
    s.outstanding s.requestId RequestKind.info image release
    (by simpa [System.setCodec] using hk3)
  have hlook : (retainCodec s.pendingCodec_ s.requestId ⟨s.heapNext, c⟩).lookup s.requestId
      = some ⟨s.heapNext, c⟩ := by
    simp [retainCodec, List.lookup]
  have hA2 : step
      (sA.setCodec c { s.codecs c with getInfoCallbacks_ := cb :: cbs, requestingImageInfo := true })
      (Action.answer s.outstanding.length image release)
      = some ((runCallback { (sA.setCodec c { s.codecs c with
                  getInfoCallbacks_ := cb :: cbs, requestingImageInfo := true }) with
                outstanding := s.outstanding } s.requestId RequestKind.info image release).1,
              []) := by
    rw [hA]
    simp [runCallback, onInfoFetched, retrieveCodec, System.setCodec, hk2, hlook, onThread]
  have hC : (runCallback { (sA.setCodec c { s.codecs c with
                  getInfoCallbacks_ := cb :: cbs, requestingImageInfo := true }) with
                outstanding := s.outstanding } s.requestId RequestKind.info image release).1.tasks
        = s.tasks ++ [Task.infoFlush ⟨s.heapNext, c⟩ image release]
      ∧ (runCallback { (sA.setCodec c { s.codecs c with
                  getInfoCallbacks_ := cb :: cbs, requestingImageInfo := true }) with
                outstanding := s.outstanding } s.requestId RequestKind.info image release).1.codecs c
        = { s.codecs c with getInfoCallbacks_ := cb :: cbs, requestingImageInfo := true }
      ∧ (runCallback { (sA.setCodec c { s.codecs c with
                  getInfoCallbacks_ := cb :: cbs, requestingImageInfo := true }) with
                outstanding := s.outstanding } s.requestId RequestKind.info image release).1.outstanding
        = s.outstanding := by
    simp [runCallback, onInfoFetched, retrieveCodec, System.setCodec, System.post, hk2, hlook,
      hk4]
  obtain ⟨hC1, hC2, hC3⟩ := hC
  generalize (runCallback { (sA.setCodec c { s.codecs c with
                  getInfoCallbacks_ := cb :: cbs, requestingImageInfo := true }) with
                outstanding := s.outstanding } s.requestId RequestKind.info image release).1
    = sC at hA2 hC1 hC2 hC3
  have hR := step_run_last sC s.tasks _ e hC1
  have hR2 : step sC (Action.run s.tasks.length e)
      = some ((runInfoFlush { sC with tasks := s.tasks } ⟨s.heapNext, c⟩ image release e).1,
          tagged Thread.uiRunner
            ((if image.handle = 0
                then [Event.log LogMessage.failToGetPlatformImageForImageInfo] else [])
             ++ (if e.dartStateValid = true
                   then invokeInfos c (cb :: cbs) (_DartListOfImageInfoOf image)
                   else [Event.log LogMessage.invalidDartState])
             ++ (if image.handle = 0 then [] else callRelease release image)
             ++ [Event.deleteRef s.heapNext])) := by
    rw [hR]
    by_cases hh : image.handle = 0 <;> cases release <;> cases hvm : e.dartStateValid <;>
      simp [runTask, onThread, Task.thread, runInfoFlush, hC2, hnc, hvm, tagged, hh,
        releasePlatformImage, assignPlatformImage, callRelease]
  have hN : runActions (runInfoFlush { sC with tasks := s.tasks } ⟨s.heapNext, c⟩ image release e).1
      [] = some (_, []) := rfl
  have hrun := runActions_cons_of_step hA2 (runActions_cons_of_step hR2 hN)
  simp only [List.nil_append, List.append_nil] at hrun
  have hfin : (runInfoFlush { sC with tasks := s.tasks } ⟨s.heapNext, c⟩ image release e).1.codecs c
      = { s.codecs c with
          platformImage_ := { image with handle := 0 },
          releasePlatformImageCallback_ := none, assignedPlatformImage_ := true,
          getInfoCallbacks_ := [], requestingImageInfo := false } := by
    simp [runInfoFlush, System.setCodec, hC2, releasePlatformImage, assignPlatformImage]
  refine ⟨_, hrun, hfin, by simp [runInfoFlush, System.setCodec],
    by simp [runInfoFlush, System.setCodec, hC3], ?_⟩
  intro callback hcl
  simp [getImageInfo, hcl, hfin, hnc, _DartListOfImageInfoOf]

/-- Witness of `info_only_path`: two callbacks, once with the VM state and once without. -/
theorem info_only_path_witness :
    (∃ s1, runActions fresh0 (getImageInfoCalls 0 [1, 2])
        = some (s1, [(Thread.uiRunner, Event.newRef 0),
                     (Thread.uiRunner, Event.request 0 RequestKind.info)])
      ∧ ∃ s2, runActions s1 [Action.answer 0 image7 (some 70), Action.run 0 envOk]
          = some (s2, [(Thread.uiRunner, Event.invokeInfo 0 1 [2, 2, 1, 0, -1]),
                       (Thread.uiRunner, Event.invokeInfo 0 2 [2, 2, 1, 0, -1]),
                       (Thread.uiRunner, Event.releaseImage 70 image7),
                       (Thread.uiRunner, Event.deleteRef 0)])
        ∧ getImageInfo s2 0 (closure 3) = (s2, [Event.invokeInfo 0 3 [2, 2, 1, 0, -1]]))
    ∧ (∃ s1, runActions fresh0 (getImageInfoCalls 0 [1, 2])
        = some (s1, [(Thread.uiRunner, Event.newRef 0),
                     (Thread.uiRunner, Event.request 0 RequestKind.info)])
      ∧ ∃ s2, runActions s1 [Action.answer 0 image7 (some 70), Action.run 0 envNoVm]
          = some (s2, [(Thread.uiRunner, Event.log LogMessage.invalidDartState),
                       (Thread.uiRunner, Event.releaseImage 70 image7),
                       (Thread.uiRunner, Event.deleteRef 0)])
        ∧ (s2.codecs 0).getInfoCallbacks_ = []
        ∧ (s2.codecs 0).requestingImageInfo = false
        ∧ (s2.codecs 0).platformImage_.handle = 0
        ∧ getImageInfo s2 0 (closure 3) = (s2, [Event.invokeInfo 0 3 [2, 2, 1, 0, -1]])) := by
  obtain ⟨s1, h1, _, s2, h2, _, _, _, h3⟩ :=
    info_only_path fresh0 0 1 [2] image7 (some 70) envOk rfl rfl rfl rfl
  obtain ⟨t1, g1, _, t2, g2, g3, _, _, g4⟩ :=
    info_only_path fresh0 0 1 [2] image7 (some 70) envNoVm rfl rfl rfl rfl
  exact ⟨⟨s1, h1, s2, h2, h3 (closure 3) rfl⟩,
    ⟨t1, g1, t2, g2, by rw [g3], by rw [g3], by rw [g3], g4 (closure 3) rfl⟩⟩

/-! ## C22 -/

/-- C22.  For every registry, id and reference: after `retainCodec(id, ref)`, `retrieveCodec(id)`
returns `ref` and removes the entry, so a `retrieveCodec(id)` right after it returns
nothing; `retrieveCodec` of an id that has no entry returns nothing and leaves the map as
it is; and neither operation changes what is stored under any other id. -/
theorem registry_take_at_most_once (m : List (RequestId × CodecRef)) (id : RequestId)
    (ref : CodecRef) :
    (retrieveCodec (retainCodec m id ref) id).2 = some ref
    ∧ (retrieveCodec (retainCodec m id ref) id).1.lookup id = none
    ∧ (retrieveCodec (retrieveCodec (retainCodec m id ref) id).1 id).2 = none
    ∧ (m.lookup id = none → retrieveCodec m id = (m, none))
    ∧ (∀ other : RequestId, other ≠ id →
        (retainCodec m id ref).lookup other = m.lookup other
        ∧ (retrieveCodec m id).1.lookup other = m.lookup other) := by
  have h1 : (retainCodec m id ref).lookup id = some ref := by
    simp [retainCodec, List.lookup]
  refine ⟨?_, ?_, ?_, ?_, ?_⟩
  · simp [retrieveCodec, h1]
  · exact retrieveCodec_fst_lookup _ _
  · have h := retrieveCodec_fst_lookup (retainCodec m id ref) id
    simp [retrieveCodec_of_lookup_none _ _ h]
  · intro h
    exact retrieveCodec_of_lookup_none m id h
  · intro other hne
    refine ⟨?_, retrieveCodec_fst_lookup_of_ne m id other hne⟩
    have hb : (other == id) = false := by simpa using hne
    simp only [retainCodec, List.lookup, hb]
    exact lookup_eraseId_of_ne m id other hne

/-- Witness of `registry_take_at_most_once`. -/
theorem registry_take_at_most_once_witness :
    retrieveCodec [(1, ⟨1, 0⟩)] 0 = ([(1, ⟨1, 0⟩)], none)
    ∧ (retrieveCodec (retainCodec [(1, ⟨1, 0⟩)] 0 ⟨2, 5⟩) 0).1.lookup 1 = some ⟨1, 0⟩ :=
  have h := registry_take_at_most_once [(1, ⟨1, 0⟩)] 0 ⟨2, 5⟩
  ⟨h.2.2.2.1 rfl, by
    have h2 := registry_take_at_most_once (retainCodec [(1, ⟨1, 0⟩)] 0 ⟨2, 5⟩) 0 ⟨2, 5⟩
    rw [(h2.2.2.2.2 1 (by decide)).2]
    exact (h.2.2.2.2 1 (by decide)).1⟩

/-! ## C23 -/

theorem nextRequestIdCalls_eq (n : Nat) : ∀ counter : Nat, counter < 2 ^ 32 →
    nextRequestIdCalls counter n = (List.range n).map (fun i => (counter + i) % 2 ^ 32) := by
  induction n with
  | zero => intro counter _; rfl
  | succ n ih =>
    intro counter hc
    have h2 : (nextRequestId counter).2 < 2 ^ 32 := Nat.mod_lt _ (by norm_num)
    rw [nextRequestIdCalls, ih _ h2, List.range_succ_eq_map, List.map_cons, List.map_map]
    congr 1
    · simp only [nextRequestId, Nat.add_zero]
      exact (Nat.mod_eq_of_lt hc).symm
    · apply List.map_congr_left
      intro i _
      simp only [nextRequestId, Function.comp, Nat.mod_add_mod]
      congr 1
      omega

/-- C23.  Starting from the counter 0 of a new manager, the `k`-th call of `nextRequestId`
returns `(k - 1) mod 2^32`; among the first `2^32` calls a later call returns a strictly
larger id than an earlier one, so the ids are pairwise distinct; the call after those
finds the counter wrapped to 0. -/
theorem nextRequestId_increasing (n : Nat) :
    nextRequestIdCalls 0 n = (List.range n).map (fun k => k % 2 ^ 32)
    ∧ (n ≤ 2 ^ 32 → ∀ i j : Nat, i < j → j < n →
        ∃ a b, (nextRequestIdCalls 0 n).get? i = some a
          ∧ (nextRequestIdCalls 0 n).get? j = some b ∧ a < b)
    ∧ nextRequestId (2 ^ 32 - 1) = (2 ^ 32 - 1, 0) := by
  have h := nextRequestIdCalls_eq n 0 (by norm_num)
  simp only [Nat.zero_add] at h
  refine ⟨h, ?_, by decide⟩
  intro hn i j hij hj
  refine ⟨i % 2 ^ 32, j % 2 ^ 32, ?_, ?_, ?_⟩
  · rw [h]; simp [List.get?_eq_getElem?, List.getElem?_map, List.getElem?_range (by omega : i < n)]
  · rw [h]; simp [List.get?_eq_getElem?, List.getElem?_map, List.getElem?_range hj]
  · rw [Nat.mod_eq_of_lt (by omega), Nat.mod_eq_of_lt (by omega)]
    exact hij

/-- Witness of `nextRequestId_increasing`. -/
theorem nextRequestId_increasing_witness :
    nextRequestIdCalls 0 3 = [0, 1, 2]
    ∧ ∃ a b, (nextRequestIdCalls 0 3).get? 0 = some a
        ∧ (nextRequestIdCalls 0 3).get? 2 = some b ∧ a < b :=
  have h := nextRequestId_increasing 3
  ⟨h.1, h.2.1 (by norm_num) 0 2 (by decide) (by decide)⟩

/-! ## C24 -/

/-- C24.  A call of the manager's `evaluateDeviceStatus` calls the provider's
`evaluateDeviceStatus`, and passes the pair it returns (and no other) to `updateCapacity`,
exactly when the flag `initialDeviceStatusEvaluated_` is not set or the provider's
`shouldEvaluateDeviceStatus()` yields true; with the flag not set it always does so,
without asking the provider; after a call that evaluates the flag is set, and a call
that does not evaluate leaves the flag as it was. -/
theorem evaluateDeviceStatus_when (evaluated : Bool) (provider : DeviceProvider) :
    (DeviceEvent.evaluateDeviceStatus ∈ (evaluateDeviceStatus evaluated provider).2
        ↔ (evaluated = false ∨ provider.shouldEvaluate = true))
    ∧ (DeviceEvent.updateCapacity provider.cpuCoreCount provider.maxMemoryUsing
          ∈ (evaluateDeviceStatus evaluated provider).2
        ↔ (evaluated = false ∨ provider.shouldEvaluate = true))
    ∧ (∀ cpu memory, DeviceEvent.updateCapacity cpu memory
          ∈ (evaluateDeviceStatus evaluated provider).2 →
        cpu = provider.cpuCoreCount ∧ memory = provider.maxMemoryUsing)
    ∧ (evaluateDeviceStatus false provider).2
        = [DeviceEvent.evaluateDeviceStatus,
           DeviceEvent.logReevaluate provider.cpuCoreCount provider.maxMemoryUsing,
           DeviceEvent.updateCapacity provider.cpuCoreCount provider.maxMemoryUsing]
    ∧ (DeviceEvent.evaluateDeviceStatus ∈ (evaluateDeviceStatus evaluated provider).2 →
        (evaluateDeviceStatus evaluated provider).1 = true)
    ∧ (DeviceEvent.evaluateDeviceStatus ∉ (evaluateDeviceStatus evaluated provider).2 →
        (evaluateDeviceStatus evaluated provider).1 = evaluated) := by
  cases evaluated <;> cases hs : provider.shouldEvaluate <;>
    simp [evaluateDeviceStatus, hs]

/-- Witness of `evaluateDeviceStatus_when`. -/
theorem evaluateDeviceStatus_when_witness :
    (evaluateDeviceStatus false androidDevice).1 = true
    ∧ (evaluateDeviceStatus true androidDevice).1 = true
    ∧ (evaluateDeviceStatus true androidDevice).2 = [DeviceEvent.shouldEvaluateDeviceStatus] :=
  have h := evaluateDeviceStatus_when false androidDevice
  have h2 := evaluateDeviceStatus_when true androidDevice
  ⟨h.2.2.2.2.1 (h.1.2 (Or.inl rfl)), h2.2.2.2.2.2 (by decide), by rfl⟩

/-! ## C25 -/

/-- What the upload closure of the single-frame path does with `UploadTexture`: on a
canceled codec it does not call it; otherwise, for a bitmap that borrows its pixels, it
calls it first and releases the platform image afterwards. -/
theorem upload_closure_schedule (s : System) (ref : CodecRef) (cost : Nat) (bitmap : Bitmap)
    (rb : ReleaseBitmapCallback) (e : Env) :
    ((s.codecs ref.codec).canceled_ = true →
      (runUploadSingle s ref cost bitmap rb e).2
        = callReleaseBitmap rb bitmap ++ [Event.finishTask cost])
    ∧ ((s.codecs ref.codec).canceled_ = false → bitmap.pixelsCopied = false →
        e.ioStatusValid = true →
        (runUploadSingle s ref cost bitmap rb e).2
          = [Event.uploadTexture bitmap] ++ callReleaseBitmap rb (UploadTexture e bitmap).1
            ++ [Event.finishTask cost] ++ (releasePlatformImage (s.codecs ref.codec)).2) := by
  constructor
  · intro hc
    simp [runUploadSingle, hc]
  · intro hc hp hio
    simp [runUploadSingle, hc, hp, hio]

/-- C25, at its failing input.  In `staleDecodeRun` the codec, never canceled, holds the still
image `image42`, whose decode gave a bitmap that borrows its pixels
(`pixelsCopied = false`), and the upload closure of that bitmap is posted; a decode thunk
of an earlier animation of the same codec is still pending.  That thunk runs first, its
decode fails and it releases the platform image the codec holds, `image42`; only then the
upload closure runs and calls `UploadTexture` on the bitmap. -/
theorem stale_decode_releases_before_upload :
    (runActions fresh0 (staleDecodeRun.take 13)).map
        (fun r => (r.1.tasks, (r.1.codecs 0).platformImage_,
                   (r.1.codecs 0).releasePlatformImageCallback_, (r.1.codecs 0).canceled_))
      = some ([Task.decodeMulti ⟨3, 0⟩ 16 1, Task.uploadSingle ⟨4, 0⟩ 16 bitmapBorrowed (some 6)],
              image42, some 3, false)
    ∧ (runActions fresh0 staleDecodeRun).map
        (fun r => ((r.2.filter isReleaseOrUpload).drop 2, (r.1.codecs 0).canceled_))
      = some ([(Thread.worker, Event.releaseImage 3 image42),
               (Thread.ioRunner, Event.uploadTexture bitmapBorrowed)], false) := by
  refine ⟨by rfl, by rfl⟩

/-! ## C26 -/

theorem mapInsert_lookup (dest : List (String × String)) (ks vs k : String) :
    (mapInsert dest ks vs).lookup k = (dest ++ [(ks, vs)]).lookup k := by
  unfold mapInsert
  split
  · rename_i h
    rw [List.lookup_append]
    cases hk : dest.lookup k with
    | some x => rfl
    | none =>
      have hne : k ≠ ks := by
        intro he
        rw [he] at hk
        rw [hk] at h
        cases h
      have hb : (k == ks) = false := by simpa using hne
      simp [List.lookup, hb]
  · rfl

theorem lookup_of_nodup_keys (l : List (String × String)) :
    (l.map (fun e => e.1)).Nodup → ∀ e ∈ l, l.lookup e.1 = some e.2 := by
  induction l with
  | nil => intro _ e he; cases he
  | cons a l ih =>
    intro hnd e he
    obtain ⟨a1, a2⟩ := a
    simp only [List.map_cons, List.nodup_cons] at hnd
    rcases List.mem_cons.1 he with rfl | he2
    · simp [List.lookup]
    · have hne : e.1 ≠ a1 := fun h => hnd.1 (h ▸ List.mem_map_of_mem (fun e => e.1) he2)
      have hb : (e.1 == a1) = false := by simpa using hne
      simp only [List.lookup, hb]
      exact ih hnd.2 e he2

theorem stdString_of_no_nul (s : String) (h : ∀ ch ∈ s.data, ch.toNat ≠ 0) :
    stdString s = s := by
  unfold stdString
  have h2 : s.data.takeWhile (fun ch => ch.toNat != 0) = s.data := by
    rw [List.takeWhile_eq_self_iff]
    intro ch hch
    simpa using h ch hch
  rw [h2]

theorem decodeEntries_strings (strs : List (String × String)) :
    ∀ dest : List (String × String),
      (decodeEntries (strs.map (fun e => (DartValue.string e.1, DartValue.string e.2))) dest).1
          = true
      ∧ ∀ k,
          (decodeEntries (strs.map (fun e => (DartValue.string e.1, DartValue.string e.2)))
              dest).2.lookup k
            = (dest ++ strs.map (fun e => (stdString e.1, stdString e.2))).lookup k := by
  induction strs with
  | nil => intro dest; exact ⟨rfl, fun k => by simp [decodeEntries]⟩
  | cons a strs ih =>
    intro dest
    obtain ⟨i1, i2⟩ := ih (mapInsert dest (stdString a.1) (stdString a.2))
    have hstep : decodeEntries
          ((a :: strs).map (fun e => (DartValue.string e.1, DartValue.string e.2))) dest
        = decodeEntries (strs.map (fun e => (DartValue.string e.1, DartValue.string e.2)))
            (mapInsert dest (stdString a.1) (stdString a.2)) := by
      simp [decodeEntries, Dart_IsString, Dart_StringToCString]
    rw [hstep]
    refine ⟨i1, fun k => ?_⟩
    rw [i2 k, List.lookup_append, mapInsert_lookup, List.map_cons, List.lookup_append,
      List.lookup_append]
    cases dest.lookup k with
    | some x => rfl
    | none => cases hb : (k == stdString a.1) <;> simp [List.lookup, hb]

theorem decodeEntries_invalid (entries : List (DartValue × DartValue)) :
    ∀ dest : List (String × String),
      (∃ e ∈ entries, Dart_IsString e.1 = false ∨ Dart_IsString e.2 = false
          ∨ Dart_StringToCString e.1 = none ∨ Dart_StringToCString e.2 = none) →
      (decodeEntries entries dest).1 = false := by
  induction entries with
  | nil => intro dest h; obtain ⟨e, he, _⟩ := h; cases he
  | cons a entries ih =>
    intro dest h
    obtain ⟨k, v⟩ := a
    cases k <;> cases v <;> try rfl
    rename_i ks vs
    have hstep : decodeEntries ((DartValue.string ks, DartValue.string vs) :: entries) dest
        = decodeEntries entries (mapInsert dest (stdString ks) (stdString vs)) := by
      simp [decodeEntries, Dart_IsString, Dart_StringToCString]
    rw [hstep]
    apply ih
    obtain ⟨e, he, h2⟩ := h
    rcases List.mem_cons.1 he with rfl | he
    · simp [Dart_IsString, Dart_StringToCString] at h2
    · exact ⟨e, he, h2⟩

/-- C26 fails.  A map whose two keys are the distinct strings `a`, U+0000, `b` and `a`,
U+0000, `c` is accepted, and `dest` then holds the single pair `("a", "1")`: neither key of
the map is in it, and the value `"2"` is lost.  A key that `dest` already holds keeps its
old value.  And a map of strings one of which yields no C string is refused. -/
theorem decodeDartStringMap_loses_pairs :
    keyANulB ≠ keyANulC
    ∧ DecodeDartStringMap nulKeys [] = (true, [("a", "1")])
    ∧ DecodeDartStringMap twoStrings [("a", "0")] = (true, [("a", "0"), ("b", "2")])
    ∧ DecodeDartStringMap noCString [] = (false, []) := by
  refine ⟨by decide, by rfl, by rfl, by rfl⟩

/-- C26, amended.  `DecodeDartStringMap` returns true for a null handle and leaves `dest` as
it is.  It returns true for a map whose keys and values are all strings that yield a C
string; `dest` then answers every lookup as `dest` followed by the pairs of the map, each
key and value cut at its first U+0000, the first pair with a key winning; so when the cut
keys are pairwise distinct and none is in `dest` before, `dest` holds every cut pair, and a
string without U+0000 is not cut.  It returns false, leaving `dest` as it is, for a handle
that is not null and not a map, and false for a map one of whose keys or values is not a
string or yields no C string; and the instantiation call makes no codec whenever
`DecodeDartStringMap` returns false for `parameters` or for `extraInfo`. -/
theorem decodeDartStringMap_validates (dest : List (String × String)) :
    DecodeDartStringMap DartArg.null dest = (true, dest)
    ∧ (∀ strs : List (String × String),
        (DecodeDartStringMap
            (DartArg.map true (strs.map (fun e => (DartValue.string e.1, DartValue.string e.2))))
            dest).1 = true
        ∧ (∀ k,
            (DecodeDartStringMap
                (DartArg.map true
                  (strs.map (fun e => (DartValue.string e.1, DartValue.string e.2))))
                dest).2.lookup k
              = (dest ++ strs.map (fun e => (stdString e.1, stdString e.2))).lookup k)
        ∧ ((strs.map (fun e => stdString e.1)).Nodup →
            (∀ e ∈ strs, dest.lookup (stdString e.1) = none) →
            ∀ e ∈ strs,
              (DecodeDartStringMap
                  (DartArg.map true
                    (strs.map (fun e => (DartValue.string e.1, DartValue.string e.2))))
                  dest).2.lookup (stdString e.1) = some (stdString e.2)))
    ∧ (∀ s : String, (∀ ch ∈ s.data, ch.toNat ≠ 0) → stdString s = s)
    ∧ DecodeDartStringMap DartArg.notMap dest = (false, dest)
    ∧ (∀ (keysIsList : Bool) (entries : List (DartValue × DartValue)),
        (∃ e ∈ entries, Dart_IsString e.1 = false ∨ Dart_IsString e.2 = false
            ∨ Dart_StringToCString e.1 = none ∨ Dart_StringToCString e.2 = none) →
        (DecodeDartStringMap (DartArg.map keysIsList entries) dest).1 = false)
    ∧ (∀ (evaluated : Bool) (provider : DeviceProvider) (args : InstantiateArgs),
        ((DecodeDartStringMap args.parameters []).1 = false
          ∨ (DecodeDartStringMap args.extraInfo []).1 = false) →
        (_ExternalAdapterInstantiateImageCodec evaluated provider args).codec = none) := by
  refine ⟨rfl, ?_, stdString_of_no_nul, rfl, ?_, ?_⟩
  · intro strs
    obtain ⟨h1, h2⟩ := decodeEntries_strings strs dest
    have hd : DecodeDartStringMap
          (DartArg.map true (strs.map (fun e => (DartValue.string e.1, DartValue.string e.2))))
          dest
        = decodeEntries (strs.map (fun e => (DartValue.string e.1, DartValue.string e.2)))
            dest := by
      simp [DecodeDartStringMap]
    rw [hd]
    refine ⟨h1, h2, fun hnd hf e he => ?_⟩
    rw [h2, List.lookup_append, hf e he]
    have hl := lookup_of_nodup_keys (strs.map (fun e => (stdString e.1, stdString e.2)))
      (by simpa [List.map_map, Function.comp_def] using hnd)
      (stdString e.1, stdString e.2)
      (List.mem_map_of_mem (fun e => (stdString e.1, stdString e.2)) he)
    simpa using hl
  · intro keysIsList entries h
    cases keysIsList
    · rfl
    · simpa [DecodeDartStringMap] using decodeEntries_invalid entries dest h
  · intro evaluated provider args h
    unfold _ExternalAdapterInstantiateImageCodec
    dsimp only
    repeat' split
    all_goals first
      | rfl
      | (exfalso; rcases h with h | h <;> simp_all)

/-- Witness of `decodeDartStringMap_validates`. -/
theorem decodeDartStringMap_validates_witness :
    (DecodeDartStringMap twoStrings []).2.lookup "b" = some "2"
    ∧ (DecodeDartStringMap nulKeys []).2.lookup "a" = some "1"
    ∧ (DecodeDartStringMap notAllStrings []).1 = false
    ∧ (DecodeDartStringMap noCString []).1 = false
    ∧ (_ExternalAdapterInstantiateImageCodec false androidDevice
        { url := some "u", targetWidth := some 1, targetHeight := some 1,
          parameters := twoStrings, extraInfo := notAllStrings }).codec = none :=
  have h := decodeDartStringMap_validates []
  ⟨(h.2.1 [("a", "1"), ("b", "2")]).2.2 (by decide) (by simp) ("b", "2") (by simp),
   ((h.2.1 [(keyANulB, "1"), (keyANulC, "2")]).2.1 "a").trans (by rfl),
   h.2.2.2.2.1 true _ ⟨(DartValue.string "b", DartValue.other), by simp, Or.inr (Or.inl rfl)⟩,
   h.2.2.2.2.1 true _
     ⟨(DartValue.string "a", DartValue.stringNoCString "1"), by simp,
      Or.inr (Or.inr (Or.inr rfl))⟩,
   h.2.2.2.2.2 false androidDevice _ (Or.inr (by rfl))⟩
/-! ## C27 -/

theorem callbackCount_finish (cb : Nat) (a : Finished) :
    callbackCount cb (ExternalAdapterImageAndroidAdapter.finish cb a) = 1 := by
  unfold ExternalAdapterImageAndroidAdapter.finish
  dsimp only
  repeat' split
  all_goals simp [callbackCount]

theorem android_lookup_erase (m : List (RequestId × Nat)) (rid : RequestId) :
    (ExternalAdapterImageAndroidAdapter.erase m rid).lookup rid = none := by
  simp only [ExternalAdapterImageAndroidAdapter.erase, List.lookup_eq_none_iff]
  intro e he
  simp only [List.mem_filter] at he
  have h1 : e.1 ≠ rid := by simpa using he.2
  have h2 : rid ≠ e.1 := fun h => h1 h.symm
  simpa using h2

/-- What the Android adapter does right: a request the bridge accepts stores its callback;
the first `onImageFinished` for its id invokes that callback exactly once, on every branch,
and forgets it, so a second `onImageFinished` invokes nothing; after `cancel` an
`onImageFinished` invokes nothing. -/
theorem android_callback_once (m : List (RequestId × Nat)) (rid : RequestId) (cb : Nat)
    (a b : Finished) :
    callbackCount cb
        (ExternalAdapterImageAndroidAdapter.onImageFinished
          (ExternalAdapterImageAndroidAdapter.request m rid cb true).1 rid a).2 = 1
    ∧ (ExternalAdapterImageAndroidAdapter.onImageFinished
        (ExternalAdapterImageAndroidAdapter.onImageFinished
          (ExternalAdapterImageAndroidAdapter.request m rid cb true).1 rid a).1 rid b).2 = []
    ∧ (ExternalAdapterImageAndroidAdapter.onImageFinished
        (ExternalAdapterImageAndroidAdapter.cancel
          (ExternalAdapterImageAndroidAdapter.request m rid cb true).1 rid).1 rid a).2 = [] := by
  have h1 : (ExternalAdapterImageAndroidAdapter.request m rid cb true).1.lookup rid = some cb := by
    simp [ExternalAdapterImageAndroidAdapter.request, List.lookup]
  refine ⟨?_, ?_, ?_⟩
  · simp only [ExternalAdapterImageAndroidAdapter.onImageFinished, h1]
    exact callbackCount_finish cb a
  · simp only [ExternalAdapterImageAndroidAdapter.onImageFinished, h1, android_lookup_erase]
  · simp only [ExternalAdapterImageAndroidAdapter.onImageFinished,
      ExternalAdapterImageAndroidAdapter.cancel, android_lookup_erase]

/-- C27, at its failing input.  A `request(rid, info, cb)` on the Android adapter for which the
JNI bridge returns false: the adapter stores `cb`, calls the bridge and erases `cb` again
without invoking it; no `cancel` was made, and an `onImageFinished(rid)` that follows
finds no callback and invokes nothing.  So `cb` is invoked zero times. -/
theorem android_request_failure_drops_callback (m : List (RequestId × Nat)) (rid : RequestId)
    (cb : Nat) (a : Finished) :
    (ExternalAdapterImageAndroidAdapter.request m rid cb false).2
        = [AdapterEvent.bridgeRequest rid]
    ∧ (ExternalAdapterImageAndroidAdapter.request m rid cb false).1.lookup rid = none
    ∧ ExternalAdapterImageAndroidAdapter.onImageFinished
        (ExternalAdapterImageAndroidAdapter.request m rid cb false).1 rid a
      = ((ExternalAdapterImageAndroidAdapter.request m rid cb false).1, [])
    ∧ callbackCount cb
        ((ExternalAdapterImageAndroidAdapter.request m rid cb false).2
          ++ (ExternalAdapterImageAndroidAdapter.onImageFinished
                (ExternalAdapterImageAndroidAdapter.request m rid cb false).1 rid a).2) = 0 := by
  have h1 : (ExternalAdapterImageAndroidAdapter.request m rid cb false).1.lookup rid = none := by
    simp only [ExternalAdapterImageAndroidAdapter.request]
    exact android_lookup_erase _ _
  refine ⟨rfl, h1, ?_, ?_⟩
  · simp only [ExternalAdapterImageAndroidAdapter.onImageFinished, h1]
  · simp only [ExternalAdapterImageAndroidAdapter.onImageFinished, h1]
    simp [ExternalAdapterImageAndroidAdapter.request, callbackCount]

/-! ## C28 -/

/-- C28, at its failing input.  Codec 1 requests a frame and is registered under id 0.  Codec 0
has never called `getNextFrame`, so its `requestId_` holds whatever the memory held, here
0.  Its `cancel` (as run by its destructor) takes the entry of id 0 out of the registry
and deletes the reference, which is the one of codec 1.  The request callback of codec 1
then finds no entry and only releases the image; codec 1, never canceled, stays
`Downloading` with its callback queued. -/
theorem stranger_cancel_takes_entry :
    (runActions fresh0 (strangerCancelRun.take 1)).map (fun r => r.1.pendingCodec_)
      = some [(0, ⟨0, 1⟩)]
    ∧ (runActions fresh0 (strangerCancelRun.take 2)).map
        (fun r => (r.2.drop 2, r.1.pendingCodec_, (r.1.codecs 1).canceled_))
      = some ([(Thread.uiRunner, Event.deleteRef 0)], [], false)
    ∧ (runActions fresh0 strangerCancelRun).map
        (fun r => (r.2.drop 3, r.1.tasks, (r.1.codecs 1).status_,
                   (r.1.codecs 1).getFrameCallbacks_, (r.1.codecs 1).canceled_))
      = some ([(Thread.provider, Event.releaseImage 3 image42)], [], Status.Downloading, [1],
              false) := by
  refine ⟨by rfl, by rfl, by rfl⟩

/-! ## C29 -/

theorem absorbedCodec_releasePlatformImage (k : Codec) (h : AbsorbedCodec k) :
    AbsorbedCodec (releasePlatformImage k).1 := by
  obtain ⟨h1, h2, h3, h4, h5, h6⟩ := h
  simp [AbsorbedCodec, releasePlatformImage, h1, h2, h3, h4, h5]

theorem absorbed_setCodec (c d : CodecId) (s : System) (k : Codec) (hq : Absorbed c s)
    (hk : d = c → AbsorbedCodec k) : Absorbed c (s.setCodec d k) := by
  by_cases hd : d = c
  · subst hd
    simpa [Absorbed, System.setCodec] using hk rfl
  · simpa [Absorbed, System.setCodec, Function.update_noteq (Ne.symm hd)] using hq

theorem noRequest_nil : NoRequest [] := by simp [NoRequest]

theorem noRequest_cons (e : Event) (evs : List Event) :
    NoRequest (e :: evs) ↔ e.isRequest = false ∧ NoRequest evs := by
  simp [NoRequest]

theorem noRequest_append (evs evs2 : List Event) :
    NoRequest (evs ++ evs2) ↔ NoRequest evs ∧ NoRequest evs2 := by
  simp [NoRequest, or_imp, forall_and]

theorem noRequest_invokeFrames (d : CodecId) (q : List Nat) (f : Option FrameInfo) :
    NoRequest (invokeFrames d q f) := by
  simp [NoRequest, invokeFrames, Event.isRequest]

theorem noRequest_invokeInfos (d : CodecId) (q : List Nat) (f : List Int) :
    NoRequest (invokeInfos d q f) := by
  simp [NoRequest, invokeInfos, Event.isRequest]

theorem noRequest_callRelease (r : ReleaseImageCallback) (i : PlatformImage) :
    NoRequest (callRelease r i) := by
  cases r <;> simp [NoRequest, callRelease, Event.isRequest]

theorem noRequest_callReleaseBitmap (r : ReleaseBitmapCallback) (b : Bitmap) :
    NoRequest (callReleaseBitmap r b) := by
  cases r <;> simp [NoRequest, callReleaseBitmap, Event.isRequest]

theorem noRequest_releasePlatformImage (k : Codec) : NoRequest (releasePlatformImage k).2 := by
  simp only [releasePlatformImage]
  split
  · split <;> simp [NoRequest, Event.isRequest]
  · simp [NoRequest]

theorem inert_mk (m : Bool) (c : CodecId) (s s1 : System) (evs : List Event)
    (h1 : Absorbed c s1) (h2 : ∀ t ∈ s1.tasks, t.decodes c = true → t ∈ s.tasks)
    (h3 : NoRequest evs) : Inert m c s (s1, evs) :=
  ⟨h1, h2, fun _ => h3⟩

theorem inertOpt_some (m : Bool) (c : CodecId) (s s1 : System) (evs : List Event)
    (h1 : Absorbed c s1) (h2 : ∀ t ∈ s1.tasks, t.decodes c = true → t ∈ s.tasks)
    (h3 : NoRequest evs) : InertOpt m c s (some (s1, evs)) := by
  intro x hx
  cases hx
  exact ⟨h1, h2, fun _ => h3⟩

theorem inertOpt_none (m : Bool) (c : CodecId) (s : System) : InertOpt m c s none := by
  intro x hx
  cases hx

theorem tasks_post_of_not_decodes (c : CodecId) (s s1 : System) (t1 : Task)
    (h1 : s1.tasks = s.tasks) (h2 : t1.decodes c = false) :
    ∀ t ∈ (s1.post t1).tasks, t.decodes c = true → t ∈ s.tasks := by
  intro t ht hd
  simp only [System.post, List.mem_append, List.mem_singleton] at ht
  rcases ht with ht | rfl
  · rw [← h1]; exact ht
  · rw [h2] at hd; cases hd

theorem tasks_same (c : CodecId) (s s1 : System) (h1 : s1.tasks = s.tasks) :
    ∀ t ∈ s1.tasks, t.decodes c = true → t ∈ s.tasks := by
  intro t ht _
  rw [← h1]; exact ht

theorem inert_failClosure (m : Bool) (c : CodecId) (s : System) ref env (hq : Absorbed c s) :
    Inert m c s (failClosure s ref env) := by
  unfold failClosure
  dsimp only
  repeat' split
  all_goals
    refine inert_mk _ _ _ _ _ (absorbed_setCodec _ _ _ _ hq (fun h => ?_))
      (tasks_same _ _ _ rfl) ?_
  all_goals first
    | (subst h; obtain ⟨h1, h2, h3, h4, h5, h6⟩ := hq
       simp_all [AbsorbedCodec, releasePlatformImage, assignPlatformImage])
    | simp [noRequest_append, noRequest_cons, noRequest_nil, Event.isRequest,
        noRequest_invokeFrames]

theorem inert_runCompleteSingle (m : Bool) (c : CodecId) (s : System) ref tex env
    (hq : Absorbed c s) : Inert m c s (runCompleteSingle s ref tex env) := by
  unfold runCompleteSingle
  dsimp only
  repeat' split
  all_goals first
    | refine inert_mk _ _ _ _ _ (absorbed_setCodec _ _ _ _ hq (fun h => ?_))
        (tasks_same _ _ _ rfl) ?_
    | refine inert_mk _ _ _ _ _ hq (tasks_same _ _ _ rfl) ?_
  all_goals first
    | (subst h; obtain ⟨h1, h2, h3, h4, h5, h6⟩ := hq
       simp_all [AbsorbedCodec, releasePlatformImage, assignPlatformImage])
    | simp [noRequest_append, noRequest_cons, noRequest_nil, Event.isRequest,
        noRequest_invokeFrames]

theorem inert_runDropRef (m : Bool) (c : CodecId) (s : System) ref (hq : Absorbed c s) :
    Inert m c s (runDropRef s ref) :=
  inert_mk _ _ _ _ _ hq (tasks_same _ _ _ rfl)
    (by simp [noRequest_cons, noRequest_nil, Event.isRequest])

theorem inert_runDecodeSingle (m : Bool) (c : CodecId) (s : System) ref cost env
    (hq : Absorbed c s) : Inert m c s (runDecodeSingle s ref cost env) := by
  unfold runDecodeSingle
  dsimp only
  repeat' split
  all_goals first
    | refine inert_mk _ _ _ _ _ (absorbed_setCodec _ _ _ _ hq (fun h => ?_))
        (tasks_post_of_not_decodes _ _ _ _ rfl rfl) ?_
    | refine inert_mk _ _ _ _ _ hq (tasks_post_of_not_decodes _ _ _ _ rfl rfl) ?_
  all_goals first
    | (subst h; obtain ⟨h1, h2, h3, h4, h5, h6⟩ := hq
       simp_all [AbsorbedCodec, releasePlatformImage, assignPlatformImage])
    | simp [noRequest_append, noRequest_cons, noRequest_nil, Event.isRequest,
        noRequest_releasePlatformImage, noRequest_callReleaseBitmap]

theorem inert_runUploadSingle (m : Bool) (c : CodecId) (s : System) ref cost bitmap rb env
    (hq : Absorbed c s) : Inert m c s (runUploadSingle s ref cost bitmap rb env) := by
  unfold runUploadSingle
  dsimp only
  repeat' split
  all_goals first
    | refine inert_mk _ _ _ _ _ (absorbed_setCodec _ _ _ _ hq (fun h => ?_))
        (tasks_post_of_not_decodes _ _ _ _ rfl rfl) ?_
    | refine inert_mk _ _ _ _ _ hq (tasks_post_of_not_decodes _ _ _ _ rfl rfl) ?_
  all_goals first
    | (subst h; obtain ⟨h1, h2, h3, h4, h5, h6⟩ := hq
       simp_all [AbsorbedCodec, releasePlatformImage, assignPlatformImage])
    | simp [noRequest_append, noRequest_cons, noRequest_nil, Event.isRequest,
        noRequest_releasePlatformImage, noRequest_callReleaseBitmap]

theorem inert_runDecodeMulti (m : Bool) (c : CodecId) (s : System) ref cost idx env
    (hq : Absorbed c s) : Inert m c s (runDecodeMulti s ref cost idx env) := by
  unfold runDecodeMulti
  dsimp only
  repeat' split
  all_goals first
    | refine inert_mk _ _ _ _ _ (absorbed_setCodec _ _ _ _ hq (fun h => ?_))
        (tasks_post_of_not_decodes _ _ _ _ rfl rfl) ?_
    | refine inert_mk _ _ _ _ _ hq (tasks_post_of_not_decodes _ _ _ _ rfl rfl) ?_
  all_goals first
    | (subst h; obtain ⟨h1, h2, h3, h4, h5, h6⟩ := hq
       simp_all [AbsorbedCodec, releasePlatformImage, assignPlatformImage])
    | simp [noRequest_append, noRequest_cons, noRequest_nil, Event.isRequest,
        noRequest_releasePlatformImage, noRequest_callReleaseBitmap]

theorem inert_runUploadMulti (m : Bool) (c : CodecId) (s : System) ref cost bitmap rb env
    (hq : Absorbed c s) : Inert m c s (runUploadMulti s ref cost bitmap rb env) := by
  unfold runUploadMulti
  dsimp only
  repeat' split
  all_goals refine inert_mk _ _ _ _ _ hq (tasks_post_of_not_decodes _ _ _ _ rfl rfl) ?_
  all_goals simp [noRequest_append, noRequest_cons, noRequest_nil, Event.isRequest,
    noRequest_callReleaseBitmap]

theorem inert_runInfoFlush (m : Bool) (c : CodecId) (s : System) ref image release env
    (hq : Absorbed c s) : Inert m c s (runInfoFlush s ref image release env) := by
  unfold runInfoFlush
  dsimp only
  refine inert_mk _ _ _ _ _ (absorbed_setCodec _ _ _ _ hq (fun h => ?_))
    (tasks_same _ _ _ rfl) ?_
  · subst h
    obtain ⟨h1, h2, h3, h4, h5, h6⟩ := hq
    simp [AbsorbedCodec, releasePlatformImage, assignPlatformImage, h1, h2, h3, h4]
  · simp only [noRequest_append, noRequest_cons, noRequest_nil, Event.isRequest]
    repeat' split
    all_goals simp [noRequest_releasePlatformImage, noRequest_invokeInfos, noRequest_nil,
      noRequest_cons, Event.isRequest]

theorem inert_onInfoFetched (m : Bool) (c : CodecId) (s : System) rid image release
    (hq : Absorbed c s) : Inert m c s (onInfoFetched s rid image release) := by
  unfold onInfoFetched
  dsimp only
  split
  · exact inert_mk _ _ _ _ _ hq (tasks_same _ _ _ rfl) (noRequest_callRelease _ _)
  · exact inert_mk _ _ _ _ _ hq (tasks_post_of_not_decodes _ _ _ _ rfl rfl) noRequest_nil

theorem inert_onFrameFetched (m : Bool) (c : CodecId) (s : System) rid image release
    (hq : Absorbed c s) : Inert m c s (onFrameFetched s rid image release) := by
  unfold onFrameFetched
  dsimp only
  split
  · exact inert_mk _ _ _ _ _ hq (tasks_same _ _ _ rfl) (noRequest_callRelease _ _)
  · rename_i codecRef _
    by_cases hd : codecRef.codec = c
    · have hc : (s.codecs codecRef.codec).canceled_ = true := by rw [hd]; exact hq.1
      simp only [hc, if_true]
      split
      · exact inert_mk _ _ _ _ _ hq (tasks_post_of_not_decodes _ _ _ _ rfl rfl)
          (by simp [noRequest_cons, noRequest_nil, Event.isRequest])
      · exact inert_mk _ _ _ _ _ hq (tasks_post_of_not_decodes _ _ _ _ rfl rfl)
          (noRequest_callRelease _ _)
    · have hdec : ∀ cost, (Task.decodeSingle codecRef cost).decodes c = false := by
        intro cost; simp [Task.decodes, hd]
      repeat' split
      all_goals first
        | exact inert_mk _ _ _ _ _ hq (tasks_post_of_not_decodes _ _ _ _ rfl rfl)
            (by simp [noRequest_cons, noRequest_nil, Event.isRequest, noRequest_callRelease])
        | exact inert_mk _ _ _ _ _ (absorbed_setCodec _ _ _ _ hq (fun h => absurd h hd))
            (tasks_post_of_not_decodes _ _ _ _ rfl rfl)
            (by simp [noRequest_cons, noRequest_nil, Event.isRequest])
        | exact inert_mk _ _ _ _ _ (absorbed_setCodec _ _ _ _ hq (fun h => absurd h hd))
            (tasks_post_of_not_decodes _ _ _ _ rfl (hdec _))
            (by simp [noRequest_cons, noRequest_nil, Event.isRequest])

theorem inert_cancel (m : Bool) (c : CodecId) (s : System) d (hq : Absorbed c s) :
    Inert m c s (cancel s d) := by
  unfold cancel
  dsimp only
  refine inert_mk _ _ _ _ _ (absorbed_setCodec _ _ _ _ hq (fun h => ?_))
    (tasks_same _ _ _ rfl) ?_
  · simp [AbsorbedCodec, releasePlatformImage]
  · simp only [noRequest_append]
    refine ⟨⟨?_, ?_⟩, noRequest_releasePlatformImage _⟩
    · split <;> simp [noRequest_cons, noRequest_nil, Event.isRequest]
    · split <;> simp [noRequest_cons, noRequest_nil, Event.isRequest]

theorem inert_runCompleteMulti (m : Bool) (c : CodecId) (s : System) ref tex env
    (hq : Absorbed c s) : InertOpt m c s (runCompleteMulti s ref tex env) := by
  unfold runCompleteMulti
  dsimp only
  repeat' split
  all_goals first
    | exact inertOpt_none _ _ _
    | refine inertOpt_some _ _ _ _ _ (absorbed_setCodec _ _ _ _ hq (fun h => ?_))
        (tasks_same _ _ _ rfl) ?_
    | refine inertOpt_some _ _ _ _ _ hq (tasks_same _ _ _ rfl) ?_
  all_goals first
    | (subst h; obtain ⟨h1, h2, h3, h4, h5, h6⟩ := hq
       simp_all [AbsorbedCodec, releasePlatformImage, assignPlatformImage])
    | simp [noRequest_append, noRequest_cons, noRequest_nil, Event.isRequest,
        noRequest_invokeFrames, noRequest_releasePlatformImage]

theorem inert_getNextMultiframe (m : Bool) (c : CodecId) (s : System) d callback
    (hq : Absorbed c s) : InertOpt m c s (getNextMultiframe s d callback) := by
  by_cases hd : d = c
  · subst hd
    have hc : (s.codecs d).canceled_ = true := hq.1
    simp only [getNextMultiframe, hc, if_true]
    exact inertOpt_some _ _ _ _ _ hq (tasks_same _ _ _ rfl) noRequest_nil
  · have hdec : ∀ p cost idx, (Task.decodeMulti ⟨p, d⟩ cost idx).decodes c = false := by
      intro p cost idx; simp [Task.decodes, hd]
    unfold getNextMultiframe
    dsimp only
    repeat' split
    all_goals first
      | exact inertOpt_none _ _ _
      | exact inertOpt_some _ _ _ _ _ hq (tasks_same _ _ _ rfl) noRequest_nil
      | exact inertOpt_some _ _ _ _ _ (absorbed_setCodec _ _ _ _ hq (fun h => absurd h hd))
          (tasks_post_of_not_decodes _ _ _ _ rfl (hdec _ _ _))
          (by simp [noRequest_cons, noRequest_nil, Event.isRequest])

theorem inert_getNextFrameEnqueue (c : CodecId) (s : System) (d : CodecId) (k : Codec)
    (callback : DartHandle) (hq : Absorbed c s) (hd : d ≠ c) :
    Inert true c s (getNextFrameEnqueue s d k callback) := by
  unfold getNextFrameEnqueue issueRequest
  dsimp only
  split
  · exact ⟨absorbed_setCodec _ _ _ _ hq (fun h => absurd h hd), tasks_same _ _ _ rfl,
      fun h => by cases h⟩
  · refine ⟨?_, tasks_same _ _ _ rfl, fun h => by cases h⟩
    simpa [Absorbed, Function.update_noteq (Ne.symm hd)] using hq

theorem inert_getNextFrame (c : CodecId) (s : System) (d : CodecId) (callback : DartHandle)
    (hq : Absorbed c s) :
    InertOpt (!decide (d = c)) c s (getNextFrame s d callback) := by
  by_cases hd : d = c
  · subst hd
    have hc : (s.codecs d).canceled_ = true := hq.1
    unfold getNextFrame
    dsimp only
    split
    · exact inertOpt_some _ _ _ _ _ hq (tasks_same _ _ _ rfl)
        (by simp [noRequest_cons, noRequest_nil, Event.isRequest])
    · simp only [hc, if_true]
      exact inertOpt_some _ _ _ _ _ hq (tasks_same _ _ _ rfl)
        (by simp [noRequest_cons, noRequest_nil, Event.isRequest])
  · have hm : (!decide (d = c)) = true := by simp [hd]
    rw [hm]
    unfold getNextFrame
    dsimp only
    repeat' split
    all_goals first
      | exact inert_getNextMultiframe _ _ _ _ _ hq
      | exact fun x hx => by cases hx; exact inert_getNextFrameEnqueue _ _ _ _ _ hq hd
      | exact inertOpt_some _ _ _ _ _ hq (tasks_same _ _ _ rfl)
          (by simp [noRequest_cons, noRequest_nil, Event.isRequest])

theorem inert_getImageInfo (c : CodecId) (s : System) (d : CodecId) (callback : DartHandle)
    (hq : Absorbed c s) :
    Inert (!decide (d = c)) c s (getImageInfo s d callback) := by
  by_cases hd : d = c
  · subst hd
    have hc : (s.codecs d).canceled_ = true := hq.1
    unfold getImageInfo
    dsimp only
    split
    · exact inert_mk _ _ _ _ _ hq (tasks_same _ _ _ rfl)
        (by simp [noRequest_cons, noRequest_nil, Event.isRequest])
    · simp only [hc, if_true]
      exact inert_mk _ _ _ _ _ hq (tasks_same _ _ _ rfl)
        (by simp [noRequest_cons, noRequest_nil, Event.isRequest])
  · have hm : (!decide (d = c)) = true := by simp [hd]
    rw [hm]
    unfold getImageInfo issueRequest
    dsimp only
    repeat' split
    all_goals first
      | exact ⟨hq, tasks_same _ _ _ rfl, fun h => by cases h⟩
      | exact ⟨absorbed_setCodec _ _ _ _ hq (fun h => absurd h hd), tasks_same _ _ _ rfl,
          fun h => by cases h⟩

theorem inert_runGifKickoff (m : Bool) (c : CodecId) (s : System) (ref : CodecRef)
    (hq : Absorbed c s) : InertOpt m c s (runGifKickoff s ref) := by
  unfold runGifKickoff
  have h := inert_getNextMultiframe false c s ref.codec none hq
  split
  · rename_i s1 evs heq
    obtain ⟨g1, g2, g3⟩ := h _ heq
    exact inertOpt_some _ _ _ _ _ g1 g2
      (by simp [noRequest_append, noRequest_cons, noRequest_nil, Event.isRequest]
          exact g3 rfl)
  · exact inertOpt_none _ _ _

theorem inert_runTask (m : Bool) (c : CodecId) (s : System) (t : Task) (env : Env)
    (hq : Absorbed c s) : InertOpt m c s (runTask s t env) := by
  cases t <;> unfold runTask <;> dsimp only
  case gifKickoff ref => exact inert_runGifKickoff _ _ _ _ hq
  case completeMulti ref tex => exact inert_runCompleteMulti _ _ _ _ _ _ hq
  all_goals intro x hx; cases hx
  · exact inert_runDropRef _ _ _ _ hq
  · exact inert_failClosure _ _ _ _ _ hq
  · exact inert_runDecodeSingle _ _ _ _ _ _ hq
  · exact inert_runUploadSingle _ _ _ _ _ _ _ _ hq
  · exact inert_runCompleteSingle _ _ _ _ _ _ hq
  · exact inert_runDecodeMulti _ _ _ _ _ _ _ hq
  · exact inert_runUploadMulti _ _ _ _ _ _ _ _ hq
  · exact inert_runInfoFlush _ _ _ _ _ _ _ hq

theorem mem_of_mem_eraseIdx_task (l : List Task) (i : Nat) (t : Task)
    (h : t ∈ l.eraseIdx i) : t ∈ l :=
  List.mem_of_mem_eraseIdx h

theorem inert_step (c : CodecId) (s s1 : System) (a : Action) (evs : List (Thread × Event))
    (hq : Absorbed c s) (hs : step s a = some (s1, evs)) :
    Absorbed c s1 ∧ (∀ t ∈ s1.tasks, t.decodes c = true → t ∈ s.tasks)
      ∧ (a.callsOther c = false → ∀ e ∈ evs, e.2.isRequest = false) := by
  have key : ∀ (m : Bool) (s0 : System) (t : Thread) (r : Option (System × List Event)),
      InertOpt m c s0 r → (∀ x ∈ s0.tasks, x ∈ s.tasks) →
      r.map (onThread t) = some (s1, evs) →
      Absorbed c s1 ∧ (∀ t ∈ s1.tasks, t.decodes c = true → t ∈ s.tasks)
        ∧ (m = false → ∀ e ∈ evs, e.2.isRequest = false) := by
    intro m s0 t r hr hsub hm
    cases r with
    | none => cases hm
    | some x =>
      obtain ⟨g1, g2, g3⟩ := hr x rfl
      simp only [Option.map, onThread, Option.some.injEq, Prod.mk.injEq] at hm
      obtain ⟨hm1, hm2⟩ := hm
      subst hm1 hm2
      refine ⟨g1, fun t ht hd => hsub _ (g2 t ht hd), fun hmf e he => ?_⟩
      simp only [List.mem_map] at he
      obtain ⟨e0, he0, rfl⟩ := he
      exact g3 hmf e0 he0
  cases a with
  | getNextFrame d callback =>
    exact key _ s _ _ (inert_getNextFrame c s d callback hq) (fun _ h => h) hs
  | getImageInfo d callback =>
    exact key _ s Thread.uiRunner (some (getImageInfo s d callback))
      (fun x hx => by cases hx; exact inert_getImageInfo c s d callback hq) (fun _ h => h) hs
  | cancel d =>
    exact key false s Thread.uiRunner (some (cancel s d))
      (fun x hx => by cases hx; exact inert_cancel false c s d hq) (fun _ h => h) hs
  | answer i image release =>
    simp only [step] at hs
    split at hs
    · rename_i rid kind heq
      refine key false { s with outstanding := s.outstanding.eraseIdx i } Thread.provider
        (some _) (fun x hx => ?_) (fun _ h => h) hs
      cases hx
      cases kind
      · exact inert_onFrameFetched false c _ rid image release hq
      · exact inert_onInfoFetched false c _ rid image release hq
    · cases hs
      exact ⟨hq, fun _ h _ => h, fun _ => by simp⟩
  | run i env =>
    simp only [step] at hs
    split at hs
    · rename_i t heq
      exact key false { s with tasks := s.tasks.eraseIdx i } t.thread _
        (inert_runTask false c { s with tasks := s.tasks.eraseIdx i } t env hq)
        (fun x hx => mem_of_mem_eraseIdx_task _ _ _ hx) hs
    · cases hs
      exact ⟨hq, fun _ h _ => h, fun _ => by simp⟩

theorem onFrameFetched_two_parts (s : System) (reqId : RequestId) (image : PlatformImage)
    (release : ReleaseImageCallback) :
    onFrameFetched s reqId image release
      = match (onFrameFetchedUntilPost s reqId image release).2 with
        | none => (onFrameFetchedUntilPost s reqId image release).1
        | some p =>
          ((onFrameFetchedPost (onFrameFetchedUntilPost s reqId image release).1.1 p).1,
           (onFrameFetchedUntilPost s reqId image release).1.2
             ++ (onFrameFetchedPost (onFrameFetchedUntilPost s reqId image release).1.1 p).2) := by
  unfold onFrameFetched onFrameFetchedUntilPost onFrameFetchedPost
  dsimp only
  cases (retrieveCodec s.pendingCodec_ reqId).2 with
  | none => rfl
  | some codecRef =>
    dsimp only
    by_cases hh : image.handle = 0 <;>
      by_cases hc : (s.codecs codecRef.codec).canceled_ = true <;>
      by_cases hf : image.frameCount > 1 <;>
      simp [hh, hc, hf, PendingPost.task, PendingPost.events]

/-- The two parts of a request callback run back to back are the callback run in one
piece. -/
theorem stepInterleaved_two_parts (fs : Interleaved) (i : Nat) (image : PlatformImage)
    (release : ReleaseImageCallback) :
    runInterleaved fs [InterleavedAction.answerUntilPost i image release,
                       InterleavedAction.post fs.pending.length]
      = runInterleaved fs [InterleavedAction.atomic (Action.answer i image release)] := by
  have hl : fs.pending.get? fs.pending.length = none := by simp
  cases h : fs.sys.outstanding.get? i with
  | none =>
    simp only [runInterleaved, stepInterleaved, step, h, hl]
    rfl
  | some x =>
    obtain ⟨rid, kind⟩ := x
    cases kind with
    | info =>
      simp only [runInterleaved, stepInterleaved, step, h, hl, runCallback]
      rfl
    | frame =>
      simp only [runInterleaved, stepInterleaved, step, h, runCallback,
        onFrameFetched_two_parts]
      cases hp : (onFrameFetchedUntilPost
          { fs.sys with outstanding := fs.sys.outstanding.eraseIdx i } rid image release).2 with
      | none =>
        simp only [Option.toList, List.append_nil, hl]
        rfl
      | some p =>
        simp only [Option.toList, get?_append_singleton, eraseIdx_append_singleton]
        simp [onThread, tagged]

theorem noRequest_pendingPost_events (p : PendingPost) : NoRequest p.events := by
  cases p <;> simp [PendingPost.events, NoRequest, Event.isRequest]

theorem inert_onFrameFetchedUntilPost (c : CodecId) (s : System) (rid : RequestId)
    (image : PlatformImage) (release : ReleaseImageCallback) (hq : Absorbed c s) :
    Absorbed c (onFrameFetchedUntilPost s rid image release).1.1
      ∧ (onFrameFetchedUntilPost s rid image release).1.1.tasks = s.tasks
      ∧ NoRequest (onFrameFetchedUntilPost s rid image release).1.2
      ∧ ∀ p, (onFrameFetchedUntilPost s rid image release).2 = some p →
          p.task.decodes c = false := by
  unfold onFrameFetchedUntilPost
  dsimp only
  cases (retrieveCodec s.pendingCodec_ rid).2 with
  | none =>
    exact ⟨hq, rfl, noRequest_callRelease _ _, fun p hp => by cases hp⟩
  | some codecRef =>
    dsimp only
    by_cases hd : codecRef.codec = c
    · have hc : (s.codecs codecRef.codec).canceled_ = true := by rw [hd]; exact hq.1
      simp only [hc, if_true]
      split
      · exact ⟨hq, rfl, by simp [noRequest_cons, noRequest_nil, Event.isRequest],
          fun p hp => by cases hp; rfl⟩
      · exact ⟨hq, rfl, noRequest_callRelease _ _, fun p hp => by cases hp; rfl⟩
    · repeat' split
      all_goals first
        | exact ⟨hq, rfl,
            by simp [noRequest_cons, noRequest_nil, Event.isRequest, noRequest_callRelease],
            fun p hp => by cases hp; rfl⟩
        | exact ⟨absorbed_setCodec _ _ _ _ hq (fun h => absurd h hd), rfl, noRequest_nil,
            fun p hp => by cases hp; rfl⟩
        | exact ⟨absorbed_setCodec _ _ _ _ hq (fun h => absurd h hd), rfl, noRequest_nil,
            fun p hp => by cases hp; simp [PendingPost.task, Task.decodes, hd]⟩

theorem inertInterleaved_step (c : CodecId) (tasks0 : List Task) (pending0 : List PendingPost)
    (fs fs1 : Interleaved) (a : InterleavedAction) (evs : List (Thread × Event))
    (hq : InertInterleaved c tasks0 pending0 fs) (hs : stepInterleaved fs a = some (fs1, evs)) :
    InertInterleaved c tasks0 pending0 fs1
      ∧ (a.callsOther c = false → ∀ e ∈ evs, e.2.isRequest = false) := by
  obtain ⟨q1, q2, q3⟩ := hq
  have tag : ∀ l : List Event, NoRequest l →
      ∀ e ∈ tagged Thread.provider l, e.2.isRequest = false := by
    intro l hl e he
    simp only [tagged, List.mem_map] at he
    obtain ⟨e0, he0, rfl⟩ := he
    exact hl e0 he0
  cases a with
  | atomic a =>
    simp only [stepInterleaved] at hs
    split at hs
    · rename_i s1 evs1 hstep
      simp only [Option.some.injEq, Prod.mk.injEq] at hs
      obtain ⟨h1, h2⟩ := hs
      subst h1 h2
      obtain ⟨g1, g2, g3⟩ := inert_step c fs.sys s1 a evs1 q1 hstep
      exact ⟨⟨g1, fun t ht hd => q2 t (g2 t ht hd) hd, q3⟩, g3⟩
    · cases hs
  | answerUntilPost i image release =>
    simp only [stepInterleaved] at hs
    split at hs
    · rename_i rid heq
      simp only [Option.some.injEq, Prod.mk.injEq] at hs
      obtain ⟨h1, h2⟩ := hs
      subst h1 h2
      obtain ⟨g1, g2, g3, g4⟩ := inert_onFrameFetchedUntilPost c
        { fs.sys with outstanding := fs.sys.outstanding.eraseIdx i } rid image release q1
      refine ⟨⟨g1, fun t ht hd => q2 t (by rw [g2] at ht; exact ht) hd, fun p hp hd => ?_⟩,
        fun _ => tag _ g3⟩
      rcases List.mem_append.1 hp with hp | hp
      · exact q3 p hp hd
      · have h4 := g4 p (by simpa using hp)
        rw [h4] at hd
        cases hd
    · rename_i rid heq
      simp only [Option.some.injEq, Prod.mk.injEq] at hs
      obtain ⟨h1, h2⟩ := hs
      subst h1 h2
      obtain ⟨g1, g2, g3⟩ := inert_onInfoFetched false c
        { fs.sys with outstanding := fs.sys.outstanding.eraseIdx i } rid image release q1
      exact ⟨⟨g1, fun t ht hd => q2 t (g2 t ht hd) hd, q3⟩, fun _ => tag _ (g3 rfl)⟩
    · simp only [Option.some.injEq, Prod.mk.injEq] at hs
      obtain ⟨h1, h2⟩ := hs
      subst h1 h2
      exact ⟨⟨q1, q2, q3⟩, fun _ => by simp⟩
  | post j =>
    simp only [stepInterleaved] at hs
    split at hs
    · rename_i p heq
      simp only [Option.some.injEq, Prod.mk.injEq] at hs
      obtain ⟨h1, h2⟩ := hs
      subst h1 h2
      have hp : p ∈ fs.pending := List.get?_mem heq
      refine ⟨⟨q1, fun t ht hd => ?_, fun p2 hp2 hd => q3 p2 (List.mem_of_mem_eraseIdx hp2) hd⟩,
        fun _ => tag _ (noRequest_pendingPost_events p)⟩
      simp only [onFrameFetchedPost, System.post, List.mem_append, List.mem_singleton] at ht
      rcases ht with ht | rfl
      · exact q2 t ht hd
      · exact Or.inr ⟨p, q3 p hp hd, rfl⟩
    · simp only [Option.some.injEq, Prod.mk.injEq] at hs
      obtain ⟨h1, h2⟩ := hs
      subst h1 h2
      exact ⟨⟨q1, q2, q3⟩, fun _ => by simp⟩

theorem inertInterleaved_run (c : CodecId) (tasks0 : List Task) (pending0 : List PendingPost)
    (acts : List InterleavedAction) :
    ∀ (fs1 fs2 : Interleaved) (evs : List (Thread × Event)),
      InertInterleaved c tasks0 pending0 fs1 →
      runInterleaved fs1 acts = some (fs2, evs) →
      InertInterleaved c tasks0 pending0 fs2
        ∧ ((∀ a ∈ acts, a.callsOther c = false) → ∀ e ∈ evs, e.2.isRequest = false) := by
  induction acts with
  | nil =>
    intro fs1 fs2 evs hq hrun
    simp only [runInterleaved, Option.some.injEq, Prod.mk.injEq] at hrun
    obtain ⟨h1, h2⟩ := hrun
    subst h1 h2
    exact ⟨hq, fun _ => by simp⟩
  | cons a rest ih =>
    intro fs1 fs2 evs hq hrun
    simp only [runInterleaved] at hrun
    split at hrun
    · cases hrun
    · rename_i sA evA hA
      split at hrun
      · cases hrun
      · rename_i sB evB hB
        simp only [Option.some.injEq, Prod.mk.injEq] at hrun
        obtain ⟨h1, h2⟩ := hrun
        subst h1 h2
        obtain ⟨g1, g3⟩ := inertInterleaved_step c tasks0 pending0 fs1 sA a evA hq hA
        obtain ⟨g4, g6⟩ := ih sA sB evB g1 hB
        refine ⟨g4, fun hacts e he => ?_⟩
        rcases List.mem_append.1 he with h | h
        · exact g3 (hacts a (List.mem_cons_self _ _)) e h
        · exact g6 (fun x hx => hacts x (List.mem_cons_of_mem _ hx)) e h

/-- C29 fails.  `getNextFrame` on a fresh codec 0; the provider answers with `image7` and the
request callback runs to the end of the section guarded by `platformImageLock_`: the codec
is not canceled, so it assigns the image.  Now `cancel` runs on the UI thread and returns:
the codec is canceled, `image7` released, the pool empty.  Then the callback goes on and
calls `postTask`: the decode thunk of the canceled codec is posted after `cancel` has
returned. -/
theorem cancel_between_lock_and_post :
    (runInterleaved { sys := fresh0 } midwayRun).map
        (fun r => (r.1.pending, r.1.sys.tasks, (r.1.sys.codecs 0).canceled_,
                   (r.1.sys.codecs 0).platformImage_.handle))
      = some ([PendingPost.single ⟨0, 0⟩ 16], [], false, 7)
    ∧ (runInterleaved { sys := fresh0 }
          (midwayRun ++ [InterleavedAction.atomic (Action.cancel 0)])).map
        (fun r => (r.1.sys.tasks, (r.1.sys.codecs 0).canceled_, r.2.drop 2))
      = some ([], true, [(Thread.uiRunner, Event.providerCancel 0),
                         (Thread.uiRunner, Event.releaseImage 70 image7)])
    ∧ (runInterleaved { sys := fresh0 }
          (midwayRun ++ [InterleavedAction.atomic (Action.cancel 0),
                         InterleavedAction.post 0])).map
        (fun r => (r.1.sys.tasks, (r.1.sys.codecs 0).canceled_, r.2.drop 4))
      = some ([Task.decodeSingle ⟨0, 0⟩ 16], true, [(Thread.provider, Event.postTask 16)])
    ∧ (Task.decodeSingle ⟨0, 0⟩ 16).decodes 0 = true := by
  refine ⟨by rfl, by rfl, by rfl, by rfl⟩

/-- C29, amended.  After `cancel` on codec `c`, whatever steps follow (binding calls on any
codec, request callbacks in one piece or in two parts with other steps in between, posted
closures, with whatever the surroundings decide): the codec is still canceled and
`Complete`, has no cached frame, two empty queues and handle 0; when no step is a
`getNextFrame` or `getImageInfo` call on another codec, no `provider->request` is made at
all.  A decode thunk of `c` in the pool was there before the `cancel`, or it is the
single-frame thunk of a frame request callback that had made its last test of
`isCanceled()` when `cancel` ran; with no such callback under way, no decode thunk of `c`
is posted.  And a single-frame decode thunk that runs on `c` decodes nothing: it calls
`finishTask` and hands its reference to the UI thread. -/
theorem canceled_is_absorbing (fs : Interleaved) (c : CodecId) (acts : List InterleavedAction)
    (fs2 : Interleaved) (evs : List (Thread × Event))
    (hrun : runInterleaved { fs with sys := (cancel fs.sys c).1 } acts = some (fs2, evs)) :
    ((fs2.sys.codecs c).canceled_ = true ∧ (fs2.sys.codecs c).status_ = Status.Complete
      ∧ (fs2.sys.codecs c).cachedFrame_ = none ∧ (fs2.sys.codecs c).getFrameCallbacks_ = []
      ∧ (fs2.sys.codecs c).getInfoCallbacks_ = []
      ∧ (fs2.sys.codecs c).platformImage_.handle = 0)
    ∧ ((∀ a ∈ acts, a.callsOther c = false) → ∀ e ∈ evs, e.2.isRequest = false)
    ∧ (∀ t ∈ fs2.sys.tasks, t.decodes c = true →
        t ∈ fs.sys.tasks
          ∨ ∃ codecRef cost, PendingPost.single codecRef cost ∈ fs.pending
              ∧ codecRef.codec = c ∧ t = Task.decodeSingle codecRef cost)
    ∧ (fs.pending = [] → ∀ t ∈ fs2.sys.tasks, t.decodes c = true → t ∈ fs.sys.tasks)
    ∧ (∀ (codecRef : CodecRef) (cost : Nat) (env : Env), codecRef.codec = c →
        runDecodeSingle fs2.sys codecRef cost env
          = (fs2.sys.post (Task.dropRef codecRef), [Event.finishTask cost])) := by
  have hq0 : InertInterleaved c fs.sys.tasks fs.pending
      { fs with sys := (cancel fs.sys c).1 } := by
    refine ⟨?_, fun t ht _ => Or.inl ?_, fun p hp _ => hp⟩
    · simp [Absorbed, AbsorbedCodec, cancel, System.setCodec, releasePlatformImage]
    · simpa [cancel, System.setCodec] using ht
  obtain ⟨⟨g1, g2, _⟩, g3⟩ := inertInterleaved_run c fs.sys.tasks fs.pending acts _ fs2 evs hq0 hrun
  have g4 : ∀ t ∈ fs2.sys.tasks, t.decodes c = true →
      t ∈ fs.sys.tasks
        ∨ ∃ codecRef cost, PendingPost.single codecRef cost ∈ fs.pending
            ∧ codecRef.codec = c ∧ t = Task.decodeSingle codecRef cost := by
    intro t ht hd
    rcases g2 t ht hd with h | ⟨p, hp, rfl⟩
    · exact Or.inl h
    · cases p with
      | single codecRef cost =>
        exact Or.inr ⟨codecRef, cost, hp, by simpa [PendingPost.task, Task.decodes] using hd, rfl⟩
      | _ => simp [PendingPost.task, Task.decodes] at hd
  refine ⟨g1, g3, g4, fun hnil t ht hd => ?_, fun codecRef cost env hc => ?_⟩
  · rcases g4 t ht hd with h | ⟨codecRef, cost, hp, _, _⟩
    · exact h
    · rw [hnil] at hp
      cases hp
  · have hcan : (fs2.sys.codecs codecRef.codec).canceled_ = true := by rw [hc]; exact g1.1
    simp [runDecodeSingle, hcan]

/-- Witness of `canceled_is_absorbing`: the `cancel` comes between the two parts of the
request callback. -/
theorem canceled_is_absorbing_witness :
    ∃ fs2 evs, runInterleaved { midwaySystem with sys := (cancel midwaySystem.sys 0).1 }
          afterCancelRun = some (fs2, evs)
      ∧ (fs2.sys.codecs 0).canceled_ = true ∧ (fs2.sys.codecs 0).status_ = Status.Complete
      ∧ (fs2.sys.codecs 0).platformImage_.handle = 0
      ∧ (∀ e ∈ evs, e.2.isRequest = false)
      ∧ (∀ t ∈ fs2.sys.tasks, t.decodes 0 = true →
          t ∈ midwaySystem.sys.tasks
            ∨ ∃ codecRef cost, PendingPost.single codecRef cost ∈ midwaySystem.pending
                ∧ codecRef.codec = 0 ∧ t = Task.decodeSingle codecRef cost) :=
  have h := canceled_is_absorbing midwaySystem 0 afterCancelRun _ _ rfl
  ⟨_, _, rfl, h.1.1, h.1.2.1, h.1.2.2.2.2.2, h.2.1 (by decide), h.2.2.1⟩

/-! ## C30 -/

theorem soundCodec_releasePlatformImage (k : Codec) (h : SoundCodec k) :
    SoundCodec (releasePlatformImage k).1 := by
  simpa [SoundCodec, releasePlatformImage] using h

theorem soundCodec_assignPlatformImage (k : Codec) (image : PlatformImage)
    (release : ReleaseImageCallback) (h : SoundCodec k) (hi : image.frameCount ≥ 1) :
    SoundCodec (assignPlatformImage k image release) := by
  exact ⟨hi, h.2⟩

theorem sound_setCodec (s : System) (d : CodecId) (k : Codec) (h : Sound s)
    (hk : SoundCodec k) : Sound (s.setCodec d k) := by
  refine ⟨fun c => ?_, h.2⟩
  by_cases hd : c = d
  · subst hd; simpa [System.setCodec] using hk
  · simpa [System.setCodec, Function.update_noteq hd] using h.1 c

theorem sound_post (s : System) (t : Task) (h : Sound s) (ht : SoundTask t) :
    Sound (s.post t) := by
  refine ⟨h.1, fun x hx => ?_⟩
  simp only [System.post, List.mem_append, List.mem_singleton] at hx
  rcases hx with hx | rfl
  · exact h.2 x hx
  · exact ht

theorem sound_of_same (s s1 : System) (h : Sound s) (hc : s1.codecs = s.codecs)
    (ht : s1.tasks = s.tasks) : Sound s1 := by
  refine ⟨fun c => ?_, fun t htm => ?_⟩
  · rw [hc]; exact h.1 c
  · rw [ht] at htm; exact h.2 t htm

theorem sound_eraseTask (s : System) (i : Nat) (h : Sound s) :
    Sound { s with tasks := s.tasks.eraseIdx i } :=
  ⟨h.1, fun t ht => h.2 t (List.mem_of_mem_eraseIdx ht)⟩

theorem sound_failClosure (s : System) ref env (h : Sound s) :
    Sound (failClosure s ref env).1 := by
  unfold failClosure
  dsimp only
  repeat' split
  all_goals exact sound_setCodec _ _ _ h (by simpa [SoundCodec] using h.1 ref.codec)

theorem sound_runCompleteSingle (s : System) ref tex env (h : Sound s) :
    Sound (runCompleteSingle s ref tex env).1 := by
  unfold runCompleteSingle
  dsimp only
  repeat' split
  all_goals first
    | exact h
    | exact sound_setCodec _ _ _ h (by simpa [SoundCodec] using h.1 ref.codec)

theorem sound_runDecodeSingle (s : System) ref cost env (h : Sound s) :
    Sound (runDecodeSingle s ref cost env).1 := by
  unfold runDecodeSingle
  dsimp only
  repeat' split
  all_goals first
    | exact sound_post _ _ h trivial
    | exact sound_post _ _ (sound_setCodec _ _ _ h
        (by simpa [SoundCodec, releasePlatformImage] using h.1 ref.codec)) trivial

theorem sound_runUploadSingle (s : System) ref cost bitmap rb env (h : Sound s) :
    Sound (runUploadSingle s ref cost bitmap rb env).1 := by
  unfold runUploadSingle
  dsimp only
  repeat' split
  all_goals first
    | exact sound_post _ _ h trivial
    | exact sound_post _ _ (sound_setCodec _ _ _ h
        (by simpa [SoundCodec, releasePlatformImage] using h.1 ref.codec)) trivial

theorem sound_runDecodeMulti (s : System) ref cost idx env (h : Sound s) :
    Sound (runDecodeMulti s ref cost idx env).1 := by
  unfold runDecodeMulti
  dsimp only
  repeat' split
  all_goals first
    | exact sound_post _ _ h trivial
    | exact sound_post _ _ (sound_setCodec _ _ _ h
        (by simpa [SoundCodec, releasePlatformImage] using h.1 ref.codec)) trivial

theorem sound_runUploadMulti (s : System) ref cost bitmap rb env (h : Sound s) :
    Sound (runUploadMulti s ref cost bitmap rb env).1 := by
  unfold runUploadMulti
  dsimp only
  repeat' split
  all_goals exact sound_post _ _ h trivial

theorem sound_runInfoFlush (s : System) ref image release env (h : Sound s)
    (hi : image.frameCount ≥ 1) : Sound (runInfoFlush s ref image release env).1 := by
  unfold runInfoFlush
  dsimp only
  refine sound_setCodec _ _ _ h ?_
  have h1 := h.1 ref.codec
  simp only [SoundCodec, releasePlatformImage, assignPlatformImage] at h1 ⊢
  exact ⟨hi, h1.2⟩

theorem sound_onInfoFetched (s : System) rid image release (h : Sound s)
    (hi : image.frameCount ≥ 1) : Sound (onInfoFetched s rid image release).1 := by
  unfold onInfoFetched
  dsimp only
  split
  · exact h
  · exact sound_post _ _ (sound_of_same _ _ h rfl rfl) hi

theorem sound_onFrameFetched (s : System) rid image release (h : Sound s)
    (hi : image.frameCount ≥ 1) : Sound (onFrameFetched s rid image release).1 := by
  unfold onFrameFetched
  dsimp only
  split
  · exact h
  · rename_i codecRef _
    have h0 : Sound { s with pendingCodec_ := (retrieveCodec s.pendingCodec_ rid).1 } :=
      sound_of_same _ _ h rfl rfl
    repeat' split
    all_goals first
      | exact sound_post _ _ h0 trivial
      | exact sound_post _ _ (sound_setCodec _ _ _ h0
          (soundCodec_assignPlatformImage _ _ _ (h.1 codecRef.codec) hi)) trivial

theorem sound_cancel (s : System) d (h : Sound s) : Sound (cancel s d).1 := by
  unfold cancel
  dsimp only
  refine sound_setCodec _ _ _ (sound_of_same _ _ h rfl rfl) ?_
  simpa [SoundCodec, releasePlatformImage] using h.1 d

theorem sound_runCompleteMulti (s : System) ref tex env (h : Sound s) :
    ∃ x, runCompleteMulti s ref tex env = some x ∧ Sound x.1 := by
  have hfc : (s.codecs ref.codec).platformImage_.frameCount ≠ 0 := by
    have := (h.1 ref.codec).1
    omega
  unfold runCompleteMulti
  dsimp only
  repeat' split
  all_goals first
    | exact ⟨_, rfl, h⟩
    | exact ⟨_, rfl, sound_setCodec _ _ _ h
        (by simpa [SoundCodec, releasePlatformImage] using h.1 ref.codec)⟩

theorem sound_getNextMultiframe (s : System) (c : CodecId) (callback : Option DartHandle)
    (h : Sound s) :
    ∃ x, getNextMultiframe s c callback = some x ∧ Sound x.1
      ∧ ((s.codecs c).canceled_ = false →
          0 ≤ (x.1.codecs c).nextFrameIndex_
          ∧ (x.1.codecs c).nextFrameIndex_ < (x.1.codecs c).platformImage_.frameCount) := by
  obtain ⟨h1, h2⟩ := h.1 c
  have hfc : (s.codecs c).platformImage_.frameCount ≠ 0 := by omega
  have hmod : 0 ≤ Int.tmod ((s.codecs c).nextFrameIndex_ + 1)
        (s.codecs c).platformImage_.frameCount
      ∧ Int.tmod ((s.codecs c).nextFrameIndex_ + 1) (s.codecs c).platformImage_.frameCount
        < (s.codecs c).platformImage_.frameCount := by
    rw [Int.tmod_eq_emod (by omega) (by omega)]
    exact ⟨Int.emod_nonneg _ hfc, Int.emod_lt_of_pos _ (by omega)⟩
  by_cases hc : (s.codecs c).canceled_ = true
  · exact ⟨(s, []), by simp [getNextMultiframe, hc], h, fun hn => by rw [hc] at hn; cases hn⟩
  · rcases callback with _ | cb
    · refine ⟨_, by simp [getNextMultiframe, hc, hfc]; rfl, ?_, fun _ => ?_⟩
      · exact sound_post _ _ (sound_setCodec _ _ _ (sound_of_same _ _ h rfl rfl)
          ⟨h1, hmod.1⟩) trivial
      · simpa [System.post, System.setCodec] using hmod
    · cases hcl : cb.isClosure
      · refine ⟨_, by simp [getNextMultiframe, hc, hfc, hcl]; rfl, ?_, fun _ => ?_⟩
        · exact sound_post _ _ (sound_setCodec _ _ _ (sound_of_same _ _ h rfl rfl)
            ⟨h1, hmod.1⟩) trivial
        · simpa [System.post, System.setCodec] using hmod
      · refine ⟨_, by simp [getNextMultiframe, hc, hfc, hcl]; rfl, ?_, fun _ => ?_⟩
        · exact sound_post _ _ (sound_setCodec _ _ _ (sound_of_same _ _ h rfl rfl)
            ⟨h1, hmod.1⟩) trivial
        · simpa [System.post, System.setCodec] using hmod

theorem sound_issueRequest (s : System) (c : CodecId) (k : Codec) (kind : RequestKind)
    (rid : RequestId) (h : Sound s) (hk : SoundCodec k) :
    Sound (issueRequest s c k kind rid).1 := by
  have h2 := sound_setCodec s c k h hk
  exact sound_of_same _ _ h2 rfl rfl

theorem sound_getNextFrameEnqueue (s : System) (c : CodecId) (k : Codec)
    (callback : DartHandle) (h : Sound s) (hk : SoundCodec k) :
    Sound (getNextFrameEnqueue s c k callback).1 := by
  unfold getNextFrameEnqueue
  dsimp only
  split
  · exact sound_setCodec _ _ _ h hk
  · exact sound_issueRequest _ _ _ _ _ h hk

theorem sound_getNextFrame (s : System) (c : CodecId) (callback : DartHandle) (h : Sound s) :
    ∃ x, getNextFrame s c callback = some x ∧ Sound x.1 := by
  unfold getNextFrame
  dsimp only
  repeat' split
  all_goals first
    | exact ⟨_, rfl, h⟩
    | exact ⟨_, rfl, sound_getNextFrameEnqueue _ _ _ _ h (h.1 c)⟩
    | (obtain ⟨x, hx, hs, _⟩ := sound_getNextMultiframe s c (some callback) h
       exact ⟨x, hx, hs⟩)

theorem sound_getImageInfo (s : System) (c : CodecId) (callback : DartHandle) (h : Sound s) :
    Sound (getImageInfo s c callback).1 := by
  unfold getImageInfo
  dsimp only
  repeat' split
  all_goals first
    | exact h
    | exact sound_setCodec _ _ _ h (h.1 c)

theorem sound_runGifKickoff (s : System) (ref : CodecRef) (h : Sound s) :
    ∃ x, runGifKickoff s ref = some x ∧ Sound x.1 := by
  obtain ⟨x, hx, hs, _⟩ := sound_getNextMultiframe s ref.codec none h
  obtain ⟨x1, x2⟩ := x
  exact ⟨(x1, x2 ++ [Event.deleteRef ref.ptr]), by simp [runGifKickoff, hx], hs⟩

theorem sound_runTask (s : System) (t : Task) (env : Env) (h : Sound s) (ht : SoundTask t) :
    ∃ x, runTask s t env = some x ∧ Sound x.1 := by
  cases t <;> unfold runTask <;> dsimp only
  case gifKickoff ref => exact sound_runGifKickoff _ _ h
  case completeMulti ref tex => exact sound_runCompleteMulti _ _ _ _ h
  case dropRef ref => exact ⟨_, rfl, h⟩
  case failClosure ref => exact ⟨_, rfl, sound_failClosure _ _ _ h⟩
  case decodeSingle ref cost => exact ⟨_, rfl, sound_runDecodeSingle _ _ _ _ h⟩
  case uploadSingle ref cost b rb => exact ⟨_, rfl, sound_runUploadSingle _ _ _ _ _ _ h⟩
  case completeSingle ref tex => exact ⟨_, rfl, sound_runCompleteSingle _ _ _ _ h⟩
  case decodeMulti ref cost idx => exact ⟨_, rfl, sound_runDecodeMulti _ _ _ _ _ h⟩
  case uploadMulti ref cost b rb => exact ⟨_, rfl, sound_runUploadMulti _ _ _ _ _ _ h⟩
  case infoFlush ref image release => exact ⟨_, rfl, sound_runInfoFlush _ _ _ _ _ h ht⟩

theorem sound_step (s : System) (a : Action) (h : Sound s) (ha : a.delivers = true) :
    ∃ s1 evs, step s a = some (s1, evs) ∧ Sound s1 := by
  cases a with
  | getNextFrame d callback =>
    obtain ⟨x, hx, hs⟩ := sound_getNextFrame s d callback h
    exact ⟨_, _, by simp [step, hx]; rfl, hs⟩
  | getImageInfo d callback => exact ⟨_, _, rfl, sound_getImageInfo s d callback h⟩
  | cancel d => exact ⟨_, _, rfl, sound_cancel s d h⟩
  | answer i image release =>
    simp only [step]
    split
    · rename_i rid kind heq
      refine ⟨_, _, rfl, ?_⟩
      have h0 : Sound { s with outstanding := s.outstanding.eraseIdx i } :=
        sound_of_same _ _ h rfl rfl
      have hi : image.frameCount ≥ 1 := by simpa [Action.delivers] using ha
      cases kind
      · exact sound_onFrameFetched _ rid image release h0 hi
      · exact sound_onInfoFetched _ rid image release h0 hi
    · exact ⟨_, _, rfl, h⟩
  | run i env =>
    simp only [step]
    split
    · rename_i t heq
      have htm : t ∈ s.tasks := List.get?_mem heq
      obtain ⟨x, hx, hs⟩ := sound_runTask { s with tasks := s.tasks.eraseIdx i } t env
        (sound_eraseTask s i h) (h.2 t htm)
      exact ⟨_, _, by rw [hx]; rfl, hs⟩
    · exact ⟨_, _, rfl, h⟩

theorem sound_run (acts : List Action) : ∀ s : System, Sound s → (∀ a ∈ acts, a.delivers = true) →
    ∃ s2 evs, runActions s acts = some (s2, evs) ∧ Sound s2 := by
  induction acts with
  | nil => intro s h _; exact ⟨s, [], rfl, h⟩
  | cons a rest ih =>
    intro s h hacts
    obtain ⟨s1, evs, h1, hs1⟩ := sound_step s a h (hacts a (List.mem_cons_self _ _))
    obtain ⟨s2, evs2, h2, hs2⟩ := ih s1 hs1 (fun x hx => hacts x (List.mem_cons_of_mem _ hx))
    exact ⟨s2, _, runActions_cons_of_step h1 h2, hs2⟩

/-- C30 fails.  Every delivered image has at least one frame.  The frame request of codec 0 is
answered with a three-frame animation and the kick-off moves the cursor to 1; then the
info request is answered with a still image, which the UI closure of `getImageInfo`
assigns: the codec has `frameCount = 1` and `nextFrameIndex_ = 1`, which is not below
`max(frameCount, 1)`. -/
theorem cursor_out_of_range :
    (runActions fresh0 (cursorOutOfRangeRun.take 4)).map
        (fun r => ((r.1.codecs 0).nextFrameIndex_, (r.1.codecs 0).platformImage_.frameCount))
      = some (1, 3)
    ∧ (runActions fresh0 cursorOutOfRangeRun).map
        (fun r => ((r.1.codecs 0).nextFrameIndex_, (r.1.codecs 0).platformImage_.frameCount,
                   (r.1.codecs 0).canceled_))
      = some (1, 1, false) := by
  refine ⟨by rfl, by rfl⟩

/-- C30, amended.  Let every image the provider delivers have `frameCount >= 1`.  Then every
run from a fresh system goes through without a division by zero, and in the state it
reaches every codec has `frameCount >= 1` and `nextFrameIndex_ >= 0`, so that
`getNextMultiframe` and the multi-frame completion closure return from there too; and
right after `getNextMultiframe` has advanced the cursor of a codec that is not canceled,
`0 <= nextFrameIndex_ < frameCount`.  (The cursor can be at or above `frameCount` later,
when an image with fewer frames is assigned.) -/
theorem no_division_by_zero (garbage : CodecId → RequestId) (acts : List Action)
    (hacts : ∀ a ∈ acts, a.delivers = true) :
    ∃ s2 evs, runActions (System.fresh garbage) acts = some (s2, evs)
      ∧ (∀ c, (s2.codecs c).platformImage_.frameCount ≥ 1 ∧ 0 ≤ (s2.codecs c).nextFrameIndex_)
      ∧ (∀ (c : CodecId) (callback : Option DartHandle),
          ∃ x, getNextMultiframe s2 c callback = some x
            ∧ ((s2.codecs c).canceled_ = false →
                0 ≤ (x.1.codecs c).nextFrameIndex_
                ∧ (x.1.codecs c).nextFrameIndex_ < (x.1.codecs c).platformImage_.frameCount))
      ∧ (∀ (ref : CodecRef) (tex : Option Nat) (env : Env),
          ∃ x, runCompleteMulti s2 ref tex env = some x) := by
  have h0 : Sound (System.fresh garbage) := by
    refine ⟨fun c => ?_, fun t ht => by cases ht⟩
    simp [SoundCodec, System.fresh]
  obtain ⟨s2, evs, hrun, hs⟩ := sound_run acts _ h0 hacts
  refine ⟨s2, evs, hrun, hs.1, fun c callback => ?_, fun ref tex env => ?_⟩
  · obtain ⟨x, hx, _, hb⟩ := sound_getNextMultiframe s2 c callback hs
    exact ⟨x, hx, hb⟩
  · obtain ⟨x, hx, _⟩ := sound_runCompleteMulti s2 ref tex env hs
    exact ⟨x, hx⟩

/-- Witness of `no_division_by_zero`. -/
theorem no_division_by_zero_witness :
    ∃ s2 evs, runActions fresh0 cursorOutOfRangeRun = some (s2, evs)
      ∧ (∀ c, (s2.codecs c).platformImage_.frameCount ≥ 1 ∧ 0 ≤ (s2.codecs c).nextFrameIndex_)
      ∧ ∃ x, getNextMultiframe s2 0 none = some x
          ∧ 0 ≤ (x.1.codecs 0).nextFrameIndex_
          ∧ (x.1.codecs 0).nextFrameIndex_ < (x.1.codecs 0).platformImage_.frameCount := by
  obtain ⟨s2, evs, h1, h2, h3, _⟩ := no_division_by_zero (fun _ => 0) cursorOutOfRangeRun
    (by decide)
  obtain ⟨x, hx, hb⟩ := h3 0 none
  have hr : runActions fresh0 cursorOutOfRangeRun = some (s2, evs) := h1
  have hc : (s2.codecs 0).canceled_ = false := by
    have h4 : (runActions fresh0 cursorOutOfRangeRun).map (fun r => (r.1.codecs 0).canceled_)
        = some false := by rfl
    rw [hr] at h4
    simpa using h4
  exact ⟨s2, evs, hr, h2, x, hx, hb hc⟩

end ExternalAdapterImage
